import Mathlib

/-!
# SWAN translator: the SIL to CAst instruction visitor

A shallow embedding of `ca.maple.swan.translator/lib/InstructionVisitor.cpp`.

* SIL values are identified by their opaque address, a natural number.
* CAst nodes built through `CAstWrapper` are a tree type.
* The mutable members of the C++ `InstructionVisitor` object (and of the
  `WALAInstance` it writes to) are the fields of the record
  `InstructionVisitor`; every translated member function takes that record and
  gives back an `Outcome`: a value with the next record, or a fatal abort with
  the record as it stood when the abort happened.
* Writes to `llvm::outs()` are diagnostics only and are left out.
-/

namespace swan

/-! ## Target tree (CAstWrapper) -/

/-- Opaque address of a SIL value, the key type of the value table. -/
abbrev ValueId := Nat

/-- Node kind tags of `CAstWrapper` that the visitor builds or inspects. -/
inductive CAstKind where
  | CONSTANT
  | EMPTY
  | ASSIGN
  | VAR
  | DECL_STMT
  | LABEL_STMT
  | BLOCK_STMT
  | OBJECT_LITERAL
  | OBJECT_REF
  | FUNCTION_EXPR
  | CALL
  | IF_STMT
  deriving DecidableEq, Repr

/-- A CAst tree: `constant` is what `makeConstant` builds, `node` is what
`makeNode(kind, children...)` and `makeNode(kind, makeArray(list))` build. -/
inductive CAstNode where
  | constant (value : String)
  | node (kind : CAstKind) (children : List CAstNode)
  deriving Repr

/-- Factory call `CAst->makeConstant(str)`. -/
def makeConstant (value : String) : CAstNode := CAstNode.constant value

/-- Factory call `CAst->makeNode(kind, children...)`. -/
def makeNode (kind : CAstKind) (children : List CAstNode) : CAstNode :=
  CAstNode.node kind children

/-- Query `CAst->getKind(node)`. -/
def getKind : CAstNode → CAstKind
  | CAstNode.constant _ => CAstKind.CONSTANT
  | CAstNode.node kind _ => kind

/-- Children of a node (a constant has none). -/
def getChildren : CAstNode → List CAstNode
  | CAstNode.constant _ => []
  | CAstNode.node _ children => children

/-- A source position as built by `CAst->makeLocation(fl, fc, ll, lc)`. -/
structure Position where
  firstLine : Int
  firstCol : Int
  lastLine : Int
  lastCol : Int
  deriving DecidableEq, Repr

/-- Factory call `CAst->makeLocation`. -/
def makeLocation (fl fc ll lc : Int) : Position :=
  { firstLine := fl, firstCol := fc, lastLine := ll, lastCol := lc }

/-- The conversion `static_cast<int>(u)` of a 32-bit unsigned value. -/
def static_cast_int (u : Nat) : Int :=
  if u % 4294967296 < 2147483648 then Int.ofNat (u % 4294967296)
  else Int.ofNat (u % 4294967296) - 4294967296

/-! ## Source IR (the part of SIL the visitor reads) -/

/-- A `SourceLoc`: `none` is an invalid location, `some (line, column)` is what
`SourceManager::getLineAndColumn` gives for a valid one. -/
abbrev SourceLoc := Option (Nat × Nat)

/-- A `SourceRange` with its two ends. -/
structure SourceRange where
  Start : SourceLoc
  End : SourceLoc
  deriving DecidableEq, Repr

/-- A `SILLocation`: `none` when `isNull()`, else its source range. -/
abbrev SILLocation := Option SourceRange

/-- Values of `SILInstruction::MemoryBehavior`. -/
inductive MemoryBehavior where
  | None
  | MayRead
  | MayWrite
  | MayReadWrite
  | MayHaveSideEffects
  deriving DecidableEq, Repr

/-- Values of `SILInstruction::ReleasingBehavior`. -/
inductive ReleasingBehavior where
  | DoesNotRelease
  | MayRelease
  deriving DecidableEq, Repr

/-- Values of `SILSourceType`. -/
inductive SILSourceType where
  | INVALID
  | STARTONLY
  | FULL
  deriving DecidableEq, Repr

/-- The instruction classes the visitor has a `visit` member for, each with
the accessors that member reads: the value identity of the instruction itself
(its `static_cast<ValueBase*>`), its operands, and its type string. The
classes whose member ignores its argument carry nothing. -/
inductive SILInst where
  -- allocation and deallocation
  | AllocStackInst (ASI : ValueId) (type : String)
  | AllocRefInst (ARI : ValueId) (type : String)
  | AllocRefDynamicInst (ARDI : ValueId) (type : String)
  | AllocBoxInst (ABI : ValueId) (type : String)
  | AllocValueBufferInst (AVBI : ValueId) (operand : ValueId)
  | AllocGlobalInst
  | DeallocStackInst (operand : ValueId)
  | DeallocBoxInst (operand : ValueId)
  | ProjectBoxInst (PBI : ValueId) (operand : ValueId)
  | DeallocRefInst (operand : ValueId)
  | DeallocPartialRefInst (operand0 : ValueId) (operand1 : ValueId)
  | DeallocValueBufferInst (operand : ValueId)
  | ProjectValueBufferInst (PVBI : ValueId) (operand : ValueId)
  -- debug information
  | DebugValueInst
  | DebugValueAddrInst
  -- accessing memory
  | LoadInst (LI : ValueId) (operand : ValueId)
  | StoreInst (src : ValueId) (dest : ValueId)
  | LoadBorrowInst (LBI : ValueId) (operand : ValueId)
  | EndBorrowInst (operand : ValueId)
  | AssignInst (src : ValueId) (dest : ValueId)
  | AssignByWrapperInst (operand0 operand1 initializer setter : ValueId)
  | MarkUninitializedInst (MUI : ValueId) (operand : ValueId)
  | MarkFunctionEscapeInst (result0 : ValueId) (allOperands : List ValueId)
  | CopyAddrInst (src : ValueId) (dest : ValueId)
  | DestroyAddrInst (operand : ValueId)
  | IndexAddrInst (IAI : ValueId) (base : ValueId) (index : ValueId) (type : String)
  | TailAddrInst (TAI : ValueId) (base : ValueId) (index : ValueId) (type : String)
  | IndexRawPointerInst (result0 : ValueId) (operand0 : ValueId)
  | BindMemoryInst
  | BeginAccessInst (BAI : ValueId) (operand : ValueId)
  | EndAccessInst (operand : ValueId)
  | BeginUnpairedAccessInst (source : ValueId) (buffer : ValueId)
  | EndUnpairedAccessInst (operand : ValueId)
  -- reference counting
  | StrongRetainInst
  | StrongReleaseInst
  | SetDeallocatingInst
  | StrongRetainUnownedInst
  | UnownedRetainInst
  | UnownedReleaseInst
  | LoadWeakInst
  | StoreWeakInst (src : ValueId) (dest : ValueId)
  | LoadUnownedInst (LUI : ValueId) (operand : ValueId)
  | StoreUnownedInst (src : ValueId) (dest : ValueId)
  | FixLifetimeInst
  | MarkDependenceInst (MDI : ValueId) (operand0 : ValueId)
  | IsUniqueInst (IUI : ValueId) (operand : ValueId)
  | IsEscapingClosureInst (IECI : ValueId) (operand : ValueId)
  | CopyBlockInst (CBI : ValueId) (operand : ValueId)
  | CopyBlockWithoutEscapingInst (CBWEI : ValueId) (operand0 : ValueId) (operand1 : ValueId)
  | EndLifetimeInst (operand : ValueId)
  -- literals
  | FunctionRefInst
  | DynamicFunctionRefInst
  | PreviousDynamicFunctionRefInst
  | GlobalAddrInst
  | GlobalValueInst
  | IntegerLiteralInst
  | FloatLiteralInst
  | StringLiteralInst
  -- dynamic dispatch
  | ClassMethodInst
  | ObjCMethodInst
  | SuperMethodInst
  | ObjCSuperMethodInst
  | WitnessMethodInst
  -- function application
  | ApplyInst
  | BeginApplyInst
  | EndApplyInst
  | AbortApplyInst
  | PartialApplyInst
  | BuiltinInst
  -- metatypes
  | MetatypeInst
  | ValueMetatypeInst
  -- aggregate types
  | CopyValueInst
  | DestroyValueInst
  | TupleInst
  | TupleExtractInst
  | TupleElementAddrInst
  | DestructureTupleInst
  | StructInst
  | StructExtractInst
  | StructElementAddrInst
  | RefElementAddrInst
  | RefTailAddrInst
  -- enums
  | EnumInst
  | UncheckedEnumDataInst
  | InjectEnumAddrInst
  | InitEnumDataAddrInst
  | UncheckedTakeEnumDataAddrInst
  | SelectEnumInst
  -- protocol and protocol composition types
  | InitExistentialAddrInst
  | DeinitExistentialAddrInst
  | InitExistentialValueInst
  | DeinitExistentialValueInst
  | OpenExistentialAddrInst
  | OpenExistentialValueInst
  | InitExistentialMetatypeInst
  | OpenExistentialMetatypeInst
  | InitExistentialRefInst
  | OpenExistentialRefInst
  | AllocExistentialBoxInst
  | ProjectExistentialBoxInst
  | OpenExistentialBoxInst
  | OpenExistentialBoxValueInst
  | DeallocExistentialBoxInst
  -- unchecked conversions
  | UpcastInst
  | AddressToPointerInst
  | PointerToAddressInst
  | UncheckedRefCastInst
  | UncheckedAddrCastInst
  | UncheckedTrivialBitCastInst
  | UncheckedOwnershipConversionInst
  | RefToRawPointerInst
  | RawPointerToRefInst
  | UnmanagedToRefInst
  | ConvertFunctionInst
  | ThinFunctionToPointerInst
  | PointerToThinFunctionInst
  | ThinToThickFunctionInst
  | ThickToObjCMetatypeInst
  | ObjCToThickMetatypeInst
  | ConvertEscapeToNoEscapeInst
  -- checked conversions
  | UnconditionalCheckedCastAddrInst
  -- runtime failures
  | CondFailInst
  -- terminators
  | UnreachableInst
  | ReturnInst
  | ThrowInst
  | YieldInst
  | UnwindInst
  | BranchInst
  | CondBranchInst
  | SwitchValueInst
  | SelectValueInst
  | SwitchEnumInst
  | SwitchEnumAddrInst
  | CheckedCastBranchInst
  | CheckedCastAddrBranchInst
  | TryApplyInst
  deriving Repr

/-- A `SILInstruction` as `beforeVisit` and the dispatcher see it: the class
specific part, the location `getLoc()`, the file name of its decoded debug
location, and its memory and releasing behaviour. -/
structure SILInstruction where
  inst : SILInst
  loc : SILLocation
  Filename : String
  memBehavior : MemoryBehavior
  relBehavior : ReleasingBehavior
  deriving Repr

/-- A `SILBasicBlock`: a debug identifier and its instructions in order. -/
structure SILBasicBlock where
  debugID : Nat
  instructions : List SILInstruction
  deriving Repr

/-- The declaration behind a function argument; `name` is `none` when
`hasName()` is false. -/
structure ValueDecl where
  name : Option String
  deriving Repr

/-- A `SILArgument`: its value identity, its declaration (`none` when
`getDecl()` is null) and its type string `getType().getAsString()`. -/
structure SILArgument where
  value : ValueId
  decl : Option ValueDecl
  type : String
  deriving Repr

/-- A `SILFunction`: mangled name, location, arguments, the storage type
strings of the results of its lowered function type, and its basic blocks. -/
structure SILFunction where
  name : String
  location : SILLocation
  arguments : List SILArgument
  loweredResults : List String
  blocks : List SILBasicBlock
  deriving Repr

/-- Query `SILFunction::empty()`: the function has no basic block. -/
def SILFunction.empty (F : SILFunction) : Bool := F.blocks.isEmpty

/-- A `SILModule`: its functions in order, and the file name of its Swift module. -/
structure SILModule where
  moduleFilename : String
  functions : List SILFunction
  deriving Repr

/-- What the translation unit is built against: the compile-time switch
`SWAN_ADD_EMPTY_NODES`, the set `builtinFunctions` of `BuiltinFunctions.hpp`,
the helpers `Demangle::demangleSymbolAsString`, `labelBasicBlock` and
`addressToString`, and the node `DO_NODE` that is the second child of every
CALL node; none of them is defined in `InstructionVisitor.cpp`. `NDEBUG` says
whether the build defines the macro `NDEBUG`, with which every `assert` of the
file expands to nothing. -/
structure Env where
  SWAN_ADD_EMPTY_NODES : Bool
  builtinFunctions : List String
  demangleSymbolAsString : String → String
  labelBasicBlock : SILBasicBlock → String
  addressToString : ValueId → String
  DO_NODE : CAstNode
  NDEBUG : Bool

/-! ## Value table -/

/-- Modelled from the spec: the class `ValueTable` (its header is not part of
these sources). The bindings from value identity to symbol node, and the
buffer of declaration nodes pending for the current block, in the order the
symbols were created. -/
structure ValueTable where
  symbols : List (ValueId × CAstNode)
  declNodes : List CAstNode
  deriving Repr

/-- Lookup of a key in a list of bindings. -/
def lookupSymbol (key : ValueId) : List (ValueId × CAstNode) → Option CAstNode
  | [] => none
  | (k, n) :: rest => if k = key then some n else lookupSymbol key rest

/-- Removal of every binding of a key from a list of bindings. -/
def eraseSymbol (key : ValueId) (l : List (ValueId × CAstNode)) : List (ValueId × CAstNode) :=
  l.filter (fun e => decide (e.1 ≠ key))

/-- Modelled from the spec: the symbol `createAndAddSymbol` makes for a key, a
VAR node naming the key and carrying the declared type. -/
def makeSymbol (env : Env) (key : ValueId) (type : String) : CAstNode :=
  makeNode CAstKind.VAR [makeConstant (env.addressToString key), makeConstant type]

/-- Modelled from the spec: the declaration node recorded for a symbol. -/
def makeDecl (symbol : CAstNode) : CAstNode :=
  makeNode CAstKind.DECL_STMT [symbol]

/-- Modelled from the spec: `ValueTable::get(identity) -> symbol`, `none`
standing for the fatal failure on an unbound identity. -/
def ValueTable.get (T : ValueTable) (key : ValueId) : Option CAstNode :=
  lookupSymbol key T.symbols

/-- Modelled from the spec: `ValueTable::createAndAddSymbol(identity, type)`:
always succeeds, overwrites any prior binding of the identity, and registers
the symbol as a pending declaration of the current block. -/
def ValueTable.createAndAddSymbol (env : Env) (T : ValueTable) (key : ValueId)
    (type : String) : ValueTable :=
  { symbols := (key, makeSymbol env key type) :: eraseSymbol key T.symbols,
    declNodes := T.declNodes ++ [makeDecl (makeSymbol env key type)] }

/-- Modelled from the spec: `ValueTable::tryRemove(identity) -> bool`: true if
a binding existed and was removed, false and no change otherwise. -/
def ValueTable.tryRemove (T : ValueTable) (key : ValueId) : Bool × ValueTable :=
  match T.get key with
  | some _ => (true, { T with symbols := eraseSymbol key T.symbols })
  | none => (false, T)

/-- Modelled from the spec: `ValueTable::clearDeclNodes()`, which empties the
pending-declaration buffer and keeps the bindings. -/
def ValueTable.clearDeclNodes (T : ValueTable) : ValueTable :=
  { T with declNodes := [] }

/-- Modelled from the spec: `ValueTable::clearNodes()`; per the spec the reset
at the start of a block does not clear any binding. -/
def ValueTable.clearNodes (T : ValueTable) : ValueTable := T

/-- Modelled from the spec: `ValueTable::getDeclNodes()`, the pending
declarations in creation order. -/
def ValueTable.getDeclNodes (T : ValueTable) : List CAstNode := T.declNodes

/-- The table `std::make_unique<ValueTable>(...)` builds: no binding, nothing pending. -/
def ValueTable.fresh : ValueTable := { symbols := [], declNodes := [] }

/-! ## Visitor state -/

/-- The record `SILInstructionInfo` that `beforeVisit` fills. A field the code
does not write in a run of `beforeVisit` is `none`. The members `ops`,
`instrKind`, `modInfo` and `funcInfo` are read by the debug printer only and
are left out. -/
structure SILInstructionInfo where
  num : Nat
  memBehavior : MemoryBehavior
  relBehavior : ReleasingBehavior
  srcType : Option SILSourceType
  Filename : String
  startLine : Option Nat
  startCol : Option Nat
  endLine : Option Nat
  endCol : Option Nat
  deriving Repr

/-- The per-function record `WALACAstEntityInfo` the translator populates.
A position that was never assigned is `none`. -/
structure WALACAstEntityInfo where
  functionName : String
  basicBlocks : List CAstNode
  callNodes : List CAstNode
  cfNodes : List CAstNode
  declNodes : List CAstNode
  functionPosition : Option Position
  argumentNames : List String
  argumentPositions : List (Option Position)
  argumentTypes : List String
  returnType : String
  CAstSourcePositionRecorder : List (CAstNode × Position)
  deriving Repr

/-- The record `std::make_unique<WALACAstEntityInfo>()` builds. -/
def WALACAstEntityInfo.fresh : WALACAstEntityInfo :=
  { functionName := "", basicBlocks := [], callNodes := [], cfNodes := [], declNodes := [],
    functionPosition := none, argumentNames := [], argumentPositions := [],
    argumentTypes := [], returnType := "", CAstSourcePositionRecorder := [] }

/-- The part of `WALAInstance` the visitor writes: the entities handed over by
`addCAstEntityInfo`, in order, and the current source position recorder. -/
structure WALAInstance where
  castEntities : List WALACAstEntityInfo
  currentCAstSourcePositionRecorder : List (CAstNode × Position)
  deriving Repr

/-- Modelled from the spec: `WALAInstance::createCAstSourcePositionRecorder()`. -/
def WALAInstance.createCAstSourcePositionRecorder (W : WALAInstance) : WALAInstance :=
  { W with currentCAstSourcePositionRecorder := [] }

/-- Modelled from the spec: `WALAInstance::addCAstEntityInfo(entity)`, which
appends the entity to the list handed to the framework. -/
def WALAInstance.addCAstEntityInfo (W : WALAInstance) (entity : WALACAstEntityInfo) :
    WALAInstance :=
  { W with castEntities := W.castEntities ++ [entity] }

/-- The coordinate recorded for a field of the instruction info: the sentinel
`-1` when the field was not written. -/
def coordinate : Option Nat → Int
  | some u => static_cast_int u
  | none => -1

/-- Modelled from the spec: `WALAInstance::addSourceInfo(node, instrInfo)`,
which enters the node in the node to source position side table with the
position captured for the current instruction (sentinel where unknown). -/
def WALAInstance.addSourceInfo (W : WALAInstance) (Node : CAstNode)
    (info : SILInstructionInfo) : WALAInstance :=
  { W with currentCAstSourcePositionRecorder :=
      W.currentCAstSourcePositionRecorder ++
        [(Node, makeLocation (coordinate info.startLine) (coordinate info.startCol)
          (coordinate info.endLine) (coordinate info.endCol))] }

/-- The mutable members of the C++ `InstructionVisitor` object; a member held
through a `unique_ptr` is held by value here. `moduleInfo` keeps the file name
of the module and `functionInfo` the mangled and demangled function name. -/
structure InstructionVisitor where
  Instance : WALAInstance
  valueTable : ValueTable
  currentEntity : WALACAstEntityInfo
  instrInfo : SILInstructionInfo
  InstructionCounter : Nat
  nodeList : List CAstNode
  blockStmtList : List CAstNode
  moduleInfo : String
  functionInfo : String × String
  deriving Repr

/-- The two ways the pass aborts: `ValueTable::get` on an unbound identity,
and a failed `assert` in a build that has the assertions compiled in. -/
inductive Fatal where
  | unboundIdentity
  | assertionFailed
  deriving DecidableEq, Repr

/-- Result of running a member function: it returned `value` and left the
visitor as `V`, or the pass aborted with the visitor as `V`. -/
inductive Outcome (α : Type) where
  | ok (value : α) (V : InstructionVisitor)
  | fatal (cause : Fatal) (V : InstructionVisitor)

/-- The visitor record an outcome carries. -/
def Outcome.visitor {α : Type} : Outcome α → InstructionVisitor
  | Outcome.ok _ V => V
  | Outcome.fatal _ V => V

/-- Whether the outcome is a fatal abort. -/
def Outcome.isFatal {α : Type} : Outcome α → Bool
  | Outcome.ok _ _ => false
  | Outcome.fatal _ _ => true

/-- The value of an outcome that returned. -/
def Outcome.value? {α : Type} : Outcome α → Option α
  | Outcome.ok a _ => some a
  | Outcome.fatal _ _ => none


/-! ## Instruction visitors

One definition per `visit...Inst` member, in the order of the source file. -/

/-- Member `visitAllocStackInst`: create the symbol of the result, return EMPTY. -/
def visitAllocStackInst (env : Env) (ASI : ValueId) (type : String) (V : InstructionVisitor) :
    Outcome CAstNode :=
  Outcome.ok (makeNode CAstKind.EMPTY [])
    { V with valueTable := V.valueTable.createAndAddSymbol env ASI type }

/-- Member `visitAllocRefInst`: create the symbol of the result, return EMPTY. -/
def visitAllocRefInst (env : Env) (ARI : ValueId) (type : String) (V : InstructionVisitor) :
    Outcome CAstNode :=
  Outcome.ok (makeNode CAstKind.EMPTY [])
    { V with valueTable := V.valueTable.createAndAddSymbol env ARI type }

/-- Member `visitAllocRefDynamicInst`: create the symbol of the result, return EMPTY. -/
def visitAllocRefDynamicInst (env : Env) (ARDI : ValueId) (type : String) (V : InstructionVisitor) :
    Outcome CAstNode :=
  Outcome.ok (makeNode CAstKind.EMPTY [])
    { V with valueTable := V.valueTable.createAndAddSymbol env ARDI type }

/-- Member `visitAllocBoxInst`: create the symbol of the result, return EMPTY. -/
def visitAllocBoxInst (env : Env) (ABI : ValueId) (type : String) (V : InstructionVisitor) :
    Outcome CAstNode :=
  Outcome.ok (makeNode CAstKind.EMPTY [])
    { V with valueTable := V.valueTable.createAndAddSymbol env ABI type }

/-- Member `visitAllocValueBufferInst`: ASSIGN of the symbols of `operand` (source) and `AVBI`
(destination). -/
def visitAllocValueBufferInst (AVBI : ValueId) (operand : ValueId) (V : InstructionVisitor) :
    Outcome CAstNode :=
  match V.valueTable.get operand, V.valueTable.get AVBI with
  | some srcNode, some destNode =>
    Outcome.ok (makeNode CAstKind.ASSIGN [srcNode, destNode]) V
  | _, _ => Outcome.fatal Fatal.unboundIdentity V

/-- Member `visitAllocGlobalInst`: returns EMPTY. -/
def visitAllocGlobalInst (V : InstructionVisitor) :
    Outcome CAstNode :=
  Outcome.ok (makeNode CAstKind.EMPTY []) V

/-- Member `visitDeallocStackInst`: try to remove the binding of the operand (the boolean
answer only selects the log line), return EMPTY. -/
def visitDeallocStackInst (operand : ValueId) (V : InstructionVisitor) :
    Outcome CAstNode :=
  let toRemove := operand
  Outcome.ok (makeNode CAstKind.EMPTY [])
    { V with valueTable := (V.valueTable.tryRemove toRemove).2 }

/-- Member `visitDeallocBoxInst`: try to remove the binding of the operand (the boolean
answer only selects the log line), return EMPTY. -/
def visitDeallocBoxInst (operand : ValueId) (V : InstructionVisitor) :
    Outcome CAstNode :=
  let toRemove := operand
  Outcome.ok (makeNode CAstKind.EMPTY [])
    { V with valueTable := (V.valueTable.tryRemove toRemove).2 }

/-- Member `visitProjectBoxInst`: ASSIGN of the symbols of `operand` (source) and `PBI`
(destination). -/
def visitProjectBoxInst (PBI : ValueId) (operand : ValueId) (V : InstructionVisitor) :
    Outcome CAstNode :=
  match V.valueTable.get operand, V.valueTable.get PBI with
  | some srcNode, some destNode =>
    Outcome.ok (makeNode CAstKind.ASSIGN [srcNode, destNode]) V
  | _, _ => Outcome.fatal Fatal.unboundIdentity V

/-- Member `visitDeallocRefInst`: try to remove the binding of the operand (the boolean
answer only selects the log line), return EMPTY. -/
def visitDeallocRefInst (operand : ValueId) (V : InstructionVisitor) :
    Outcome CAstNode :=
  let toRemove := operand
  Outcome.ok (makeNode CAstKind.EMPTY [])
    { V with valueTable := (V.valueTable.tryRemove toRemove).2 }

/-- Member `visitDeallocPartialRefInst`: try to remove the binding of the operand (the boolean
answer only selects the log line), return EMPTY. -/
def visitDeallocPartialRefInst (operand0 : ValueId) (_operand1 : ValueId) (V : InstructionVisitor) :
    Outcome CAstNode :=
  let toRemove := operand0
  Outcome.ok (makeNode CAstKind.EMPTY [])
    { V with valueTable := (V.valueTable.tryRemove toRemove).2 }

/-- Member `visitDeallocValueBufferInst`: try to remove the binding of the operand (the boolean
answer only selects the log line), return EMPTY. -/
def visitDeallocValueBufferInst (operand : ValueId) (V : InstructionVisitor) :
    Outcome CAstNode :=
  let toRemove := operand
  Outcome.ok (makeNode CAstKind.EMPTY [])
    { V with valueTable := (V.valueTable.tryRemove toRemove).2 }

/-- Member `visitProjectValueBufferInst`: ASSIGN of the symbols of `operand` (source) and `PVBI`
(destination). -/
def visitProjectValueBufferInst (PVBI : ValueId) (operand : ValueId) (V : InstructionVisitor) :
    Outcome CAstNode :=
  match V.valueTable.get operand, V.valueTable.get PVBI with
  | some srcNode, some destNode =>
    Outcome.ok (makeNode CAstKind.ASSIGN [srcNode, destNode]) V
  | _, _ => Outcome.fatal Fatal.unboundIdentity V

/-- Member `visitDebugValueInst`: returns EMPTY. -/
def visitDebugValueInst (V : InstructionVisitor) :
    Outcome CAstNode :=
  Outcome.ok (makeNode CAstKind.EMPTY []) V

/-- Member `visitDebugValueAddrInst`: returns EMPTY. -/
def visitDebugValueAddrInst (V : InstructionVisitor) :
    Outcome CAstNode :=
  Outcome.ok (makeNode CAstKind.EMPTY []) V

/-- Member `visitLoadInst`: ASSIGN of the symbols of `operand` (source) and `LI`
(destination). -/
def visitLoadInst (LI : ValueId) (operand : ValueId) (V : InstructionVisitor) :
    Outcome CAstNode :=
  match V.valueTable.get operand, V.valueTable.get LI with
  | some srcNode, some destNode =>
    Outcome.ok (makeNode CAstKind.ASSIGN [srcNode, destNode]) V
  | _, _ => Outcome.fatal Fatal.unboundIdentity V

/-- Member `visitStoreInst`: ASSIGN of the symbols of `src` (source) and `dest`
(destination). -/
def visitStoreInst (src : ValueId) (dest : ValueId) (V : InstructionVisitor) :
    Outcome CAstNode :=
  match V.valueTable.get src, V.valueTable.get dest with
  | some srcNode, some destNode =>
    Outcome.ok (makeNode CAstKind.ASSIGN [srcNode, destNode]) V
  | _, _ => Outcome.fatal Fatal.unboundIdentity V

/-- Member `visitLoadBorrowInst`: ASSIGN of the symbols of `operand` (source) and `LBI`
(destination). -/
def visitLoadBorrowInst (LBI : ValueId) (operand : ValueId) (V : InstructionVisitor) :
    Outcome CAstNode :=
  match V.valueTable.get operand, V.valueTable.get LBI with
  | some srcNode, some destNode =>
    Outcome.ok (makeNode CAstKind.ASSIGN [srcNode, destNode]) V
  | _, _ => Outcome.fatal Fatal.unboundIdentity V

/-- Member `visitEndBorrowInst`: try to remove the binding of the operand (the boolean
answer only selects the log line), return EMPTY. -/
def visitEndBorrowInst (operand : ValueId) (V : InstructionVisitor) :
    Outcome CAstNode :=
  let toRemove := operand
  Outcome.ok (makeNode CAstKind.EMPTY [])
    { V with valueTable := (V.valueTable.tryRemove toRemove).2 }

/-- Member `visitAssignInst`: ASSIGN of the symbols of `src` (source) and `dest`
(destination). -/
def visitAssignInst (src : ValueId) (dest : ValueId) (V : InstructionVisitor) :
    Outcome CAstNode :=
  match V.valueTable.get src, V.valueTable.get dest with
  | some srcNode, some destNode =>
    Outcome.ok (makeNode CAstKind.ASSIGN [srcNode, destNode]) V
  | _, _ => Outcome.fatal Fatal.unboundIdentity V

/-- Member `visitAssignByWrapperInst`: an IF_STMT over two assignments of calls.
The two shape checks are `assert`s: they abort only in a build without
`NDEBUG`. -/
def visitAssignByWrapperInst (env : Env) (operand0 : ValueId) (operand1 : ValueId)
    (initializer : ValueId) (setter : ValueId) (V : InstructionVisitor) :
    Outcome CAstNode :=
  match V.valueTable.get initializer with
  | none => Outcome.fatal Fatal.unboundIdentity V
  | some initFunc =>
    if env.NDEBUG = false ∧ getKind initFunc ≠ CAstKind.FUNCTION_EXPR then
      Outcome.fatal Fatal.assertionFailed V
    else
      match V.valueTable.get setter with
      | none => Outcome.fatal Fatal.unboundIdentity V
      | some setFunc =>
        if env.NDEBUG = false ∧ getKind setFunc ≠ CAstKind.FUNCTION_EXPR then
          Outcome.fatal Fatal.assertionFailed V
        else
          match V.valueTable.get operand0 with
          | none => Outcome.fatal Fatal.unboundIdentity V
          | some param =>
            match V.valueTable.get operand1 with
            | none => Outcome.fatal Fatal.unboundIdentity V
            | some dest =>
              let initCall := makeNode CAstKind.CALL [initFunc, env.DO_NODE, param]
              let setCall := makeNode CAstKind.CALL [setFunc, env.DO_NODE, param]
              let initAssign := makeNode CAstKind.ASSIGN [dest, initCall]
              let setAssign := makeNode CAstKind.ASSIGN [dest, setCall]
              let arbCondition := makeConstant "initOrSet"
              Outcome.ok (makeNode CAstKind.IF_STMT [arbCondition, initAssign, setAssign]) V

/-- Member `visitMarkUninitializedInst`: ASSIGN of the symbols of `operand` (source) and `MUI`
(destination). -/
def visitMarkUninitializedInst (MUI : ValueId) (operand : ValueId) (V : InstructionVisitor) :
    Outcome CAstNode :=
  match V.valueTable.get operand, V.valueTable.get MUI with
  | some srcNode, some destNode =>
    Outcome.ok (makeNode CAstKind.ASSIGN [srcNode, destNode]) V
  | _, _ => Outcome.fatal Fatal.unboundIdentity V

/-- The operand loop of `visitMarkFunctionEscapeInst`: one ASSIGN pushed to the
back of `nodeList` per operand. -/
def visitMarkFunctionEscapeInst.loop (dest : ValueId) :
    List ValueId → InstructionVisitor → Outcome Unit
  | [], V => Outcome.ok () V
  | src :: rest, V =>
    match V.valueTable.get src, V.valueTable.get dest with
    | some srcNode, some destNode =>
      visitMarkFunctionEscapeInst.loop dest rest
        { V with nodeList := V.nodeList ++ [makeNode CAstKind.ASSIGN [srcNode, destNode]] }
    | _, _ => Outcome.fatal Fatal.unboundIdentity V

/-- Member `visitMarkFunctionEscapeInst`. -/
def visitMarkFunctionEscapeInst (result0 : ValueId) (allOperands : List ValueId)
    (V : InstructionVisitor) :
    Outcome CAstNode :=
  let dest := result0
  match visitMarkFunctionEscapeInst.loop dest allOperands V with
  | Outcome.fatal cause V1 => Outcome.fatal cause V1
  | Outcome.ok _ V1 => Outcome.ok (makeNode CAstKind.EMPTY []) V1

/-- Member `visitCopyAddrInst`: ASSIGN of the symbols of `src` (source) and `dest`
(destination). -/
def visitCopyAddrInst (src : ValueId) (dest : ValueId) (V : InstructionVisitor) :
    Outcome CAstNode :=
  match V.valueTable.get src, V.valueTable.get dest with
  | some srcNode, some destNode =>
    Outcome.ok (makeNode CAstKind.ASSIGN [srcNode, destNode]) V
  | _, _ => Outcome.fatal Fatal.unboundIdentity V

/-- Member `visitDestroyAddrInst`: try to remove the binding of the operand (the boolean
answer only selects the log line), return EMPTY. -/
def visitDestroyAddrInst (operand : ValueId) (V : InstructionVisitor) :
    Outcome CAstNode :=
  let toRemove := operand
  Outcome.ok (makeNode CAstKind.EMPTY [])
    { V with valueTable := (V.valueTable.tryRemove toRemove).2 }

/-- Member `visitIndexAddrInst`: ASSIGN of the new result symbol and an OBJECT_REF.
The two shape checks are `assert`s: they abort only in a build without
`NDEBUG`. -/
def visitIndexAddrInst (env : Env) (IAI : ValueId) (base : ValueId) (index : ValueId)
    (type : String) (V : InstructionVisitor) :
    Outcome CAstNode :=
  match V.valueTable.get base with
  | none => Outcome.fatal Fatal.unboundIdentity V
  | some ArrayObj =>
    if env.NDEBUG = false ∧ getKind ArrayObj ≠ CAstKind.OBJECT_LITERAL then
      Outcome.fatal Fatal.assertionFailed V
    else
      match V.valueTable.get index with
      | none => Outcome.fatal Fatal.unboundIdentity V
      | some IndexVar =>
        if env.NDEBUG = false ∧ getKind IndexVar ≠ CAstKind.VAR then
          Outcome.fatal Fatal.assertionFailed V
        else
          let ArrayRef := makeNode CAstKind.OBJECT_REF [ArrayObj, IndexVar]
          let V1 := { V with valueTable := V.valueTable.createAndAddSymbol env IAI type }
          match V1.valueTable.get IAI with
          | none => Outcome.fatal Fatal.unboundIdentity V1
          | some ResultNode => Outcome.ok (makeNode CAstKind.ASSIGN [ResultNode, ArrayRef]) V1

/-- Member `visitTailAddrInst`: ASSIGN of the new result symbol and an OBJECT_REF.
The two shape checks are `assert`s: they abort only in a build without
`NDEBUG`. -/
def visitTailAddrInst (env : Env) (TAI : ValueId) (base : ValueId) (index : ValueId)
    (type : String) (V : InstructionVisitor) :
    Outcome CAstNode :=
  match V.valueTable.get base with
  | none => Outcome.fatal Fatal.unboundIdentity V
  | some ArrayObj =>
    if env.NDEBUG = false ∧ getKind ArrayObj ≠ CAstKind.OBJECT_LITERAL then
      Outcome.fatal Fatal.assertionFailed V
    else
      match V.valueTable.get index with
      | none => Outcome.fatal Fatal.unboundIdentity V
      | some IndexVar =>
        if env.NDEBUG = false ∧ getKind IndexVar ≠ CAstKind.VAR then
          Outcome.fatal Fatal.assertionFailed V
        else
          let ArrayRef := makeNode CAstKind.OBJECT_REF [ArrayObj, IndexVar]
          let V1 := { V with valueTable := V.valueTable.createAndAddSymbol env TAI type }
          match V1.valueTable.get TAI with
          | none => Outcome.fatal Fatal.unboundIdentity V1
          | some ResultNode => Outcome.ok (makeNode CAstKind.ASSIGN [ResultNode, ArrayRef]) V1

/-- Member `visitIndexRawPointerInst`: ASSIGN of the symbols of `operand0` (source) and `result0`
(destination). -/
def visitIndexRawPointerInst (result0 : ValueId) (operand0 : ValueId) (V : InstructionVisitor) :
    Outcome CAstNode :=
  match V.valueTable.get operand0, V.valueTable.get result0 with
  | some srcNode, some destNode =>
    Outcome.ok (makeNode CAstKind.ASSIGN [srcNode, destNode]) V
  | _, _ => Outcome.fatal Fatal.unboundIdentity V

/-- Member `visitBindMemoryInst`: returns EMPTY. -/
def visitBindMemoryInst (V : InstructionVisitor) :
    Outcome CAstNode :=
  Outcome.ok (makeNode CAstKind.EMPTY []) V

/-- Member `visitBeginAccessInst`: ASSIGN of the symbols of `operand` (source) and `BAI`
(destination). -/
def visitBeginAccessInst (BAI : ValueId) (operand : ValueId) (V : InstructionVisitor) :
    Outcome CAstNode :=
  match V.valueTable.get operand, V.valueTable.get BAI with
  | some srcNode, some destNode =>
    Outcome.ok (makeNode CAstKind.ASSIGN [srcNode, destNode]) V
  | _, _ => Outcome.fatal Fatal.unboundIdentity V

/-- Member `visitEndAccessInst`: try to remove the binding of the operand (the boolean
answer only selects the log line), return EMPTY. -/
def visitEndAccessInst (operand : ValueId) (V : InstructionVisitor) :
    Outcome CAstNode :=
  let toRemove := operand
  Outcome.ok (makeNode CAstKind.EMPTY [])
    { V with valueTable := (V.valueTable.tryRemove toRemove).2 }

/-- Member `visitBeginUnpairedAccessInst`: ASSIGN of the symbols of `source` (source) and `buffer`
(destination). -/
def visitBeginUnpairedAccessInst (source : ValueId) (buffer : ValueId) (V : InstructionVisitor) :
    Outcome CAstNode :=
  match V.valueTable.get source, V.valueTable.get buffer with
  | some srcNode, some destNode =>
    Outcome.ok (makeNode CAstKind.ASSIGN [srcNode, destNode]) V
  | _, _ => Outcome.fatal Fatal.unboundIdentity V

/-- Member `visitEndUnpairedAccessInst`: try to remove the binding of the operand (the boolean
answer only selects the log line), return EMPTY. -/
def visitEndUnpairedAccessInst (operand : ValueId) (V : InstructionVisitor) :
    Outcome CAstNode :=
  let toRemove := operand
  Outcome.ok (makeNode CAstKind.EMPTY [])
    { V with valueTable := (V.valueTable.tryRemove toRemove).2 }

/-- Member `visitStrongRetainInst`: returns EMPTY. -/
def visitStrongRetainInst (V : InstructionVisitor) :
    Outcome CAstNode :=
  Outcome.ok (makeNode CAstKind.EMPTY []) V

/-- Member `visitStrongReleaseInst`: returns EMPTY. -/
def visitStrongReleaseInst (V : InstructionVisitor) :
    Outcome CAstNode :=
  Outcome.ok (makeNode CAstKind.EMPTY []) V

/-- Member `visitSetDeallocatingInst`: returns EMPTY. -/
def visitSetDeallocatingInst (V : InstructionVisitor) :
    Outcome CAstNode :=
  Outcome.ok (makeNode CAstKind.EMPTY []) V

/-- Member `visitStrongRetainUnownedInst`: returns EMPTY. -/
def visitStrongRetainUnownedInst (V : InstructionVisitor) :
    Outcome CAstNode :=
  Outcome.ok (makeNode CAstKind.EMPTY []) V

/-- Member `visitUnownedRetainInst`: returns EMPTY. -/
def visitUnownedRetainInst (V : InstructionVisitor) :
    Outcome CAstNode :=
  Outcome.ok (makeNode CAstKind.EMPTY []) V

/-- Member `visitUnownedReleaseInst`: returns EMPTY. -/
def visitUnownedReleaseInst (V : InstructionVisitor) :
    Outcome CAstNode :=
  Outcome.ok (makeNode CAstKind.EMPTY []) V

/-- Member `visitLoadWeakInst`: returns EMPTY. -/
def visitLoadWeakInst (V : InstructionVisitor) :
    Outcome CAstNode :=
  Outcome.ok (makeNode CAstKind.EMPTY []) V

/-- Member `visitStoreWeakInst`: ASSIGN of the symbols of `src` (source) and `dest`
(destination). -/
def visitStoreWeakInst (src : ValueId) (dest : ValueId) (V : InstructionVisitor) :
    Outcome CAstNode :=
  match V.valueTable.get src, V.valueTable.get dest with
  | some srcNode, some destNode =>
    Outcome.ok (makeNode CAstKind.ASSIGN [srcNode, destNode]) V
  | _, _ => Outcome.fatal Fatal.unboundIdentity V

/-- Member `visitLoadUnownedInst`: ASSIGN of the symbols of `operand` (source) and `LUI`
(destination). -/
def visitLoadUnownedInst (LUI : ValueId) (operand : ValueId) (V : InstructionVisitor) :
    Outcome CAstNode :=
  match V.valueTable.get operand, V.valueTable.get LUI with
  | some srcNode, some destNode =>
    Outcome.ok (makeNode CAstKind.ASSIGN [srcNode, destNode]) V
  | _, _ => Outcome.fatal Fatal.unboundIdentity V

/-- Member `visitStoreUnownedInst`: ASSIGN of the symbols of `src` (source) and `dest`
(destination). -/
def visitStoreUnownedInst (src : ValueId) (dest : ValueId) (V : InstructionVisitor) :
    Outcome CAstNode :=
  match V.valueTable.get src, V.valueTable.get dest with
  | some srcNode, some destNode =>
    Outcome.ok (makeNode CAstKind.ASSIGN [srcNode, destNode]) V
  | _, _ => Outcome.fatal Fatal.unboundIdentity V

/-- Member `visitFixLifetimeInst`: returns EMPTY. -/
def visitFixLifetimeInst (V : InstructionVisitor) :
    Outcome CAstNode :=
  Outcome.ok (makeNode CAstKind.EMPTY []) V

/-- Member `visitMarkDependenceInst`: ASSIGN of the symbols of `operand0` (source) and `MDI`
(destination). -/
def visitMarkDependenceInst (MDI : ValueId) (operand0 : ValueId) (V : InstructionVisitor) :
    Outcome CAstNode :=
  match V.valueTable.get operand0, V.valueTable.get MDI with
  | some srcNode, some destNode =>
    Outcome.ok (makeNode CAstKind.ASSIGN [srcNode, destNode]) V
  | _, _ => Outcome.fatal Fatal.unboundIdentity V

/-- Member `visitIsUniqueInst`: ASSIGN of the symbols of `operand` (source) and `IUI`
(destination). -/
def visitIsUniqueInst (IUI : ValueId) (operand : ValueId) (V : InstructionVisitor) :
    Outcome CAstNode :=
  match V.valueTable.get operand, V.valueTable.get IUI with
  | some srcNode, some destNode =>
    Outcome.ok (makeNode CAstKind.ASSIGN [srcNode, destNode]) V
  | _, _ => Outcome.fatal Fatal.unboundIdentity V

/-- Member `visitIsEscapingClosureInst`: ASSIGN of the symbols of `operand` (source) and `IECI`
(destination). -/
def visitIsEscapingClosureInst (IECI : ValueId) (operand : ValueId) (V : InstructionVisitor) :
    Outcome CAstNode :=
  match V.valueTable.get operand, V.valueTable.get IECI with
  | some srcNode, some destNode =>
    Outcome.ok (makeNode CAstKind.ASSIGN [srcNode, destNode]) V
  | _, _ => Outcome.fatal Fatal.unboundIdentity V

/-- Member `visitCopyBlockInst`: ASSIGN of the symbols of `operand` (source) and `CBI`
(destination). -/
def visitCopyBlockInst (CBI : ValueId) (operand : ValueId) (V : InstructionVisitor) :
    Outcome CAstNode :=
  match V.valueTable.get operand, V.valueTable.get CBI with
  | some srcNode, some destNode =>
    Outcome.ok (makeNode CAstKind.ASSIGN [srcNode, destNode]) V
  | _, _ => Outcome.fatal Fatal.unboundIdentity V

/-- Member `visitCopyBlockWithoutEscapingInst`: the second operand is removed
first, then the ASSIGN is built. -/
def visitCopyBlockWithoutEscapingInst (CBWEI : ValueId) (operand0 : ValueId) (operand1 : ValueId)
    (V : InstructionVisitor) :
    Outcome CAstNode :=
  let src := operand0
  let dest := CBWEI
  let toRemove := operand1
  let V1 := { V with valueTable := (V.valueTable.tryRemove toRemove).2 }
  match V1.valueTable.get src, V1.valueTable.get dest with
  | some srcNode, some destNode =>
    Outcome.ok (makeNode CAstKind.ASSIGN [srcNode, destNode]) V1
  | _, _ => Outcome.fatal Fatal.unboundIdentity V1

/-- Member `visitEndLifetimeInst`: try to remove the binding of the operand (the boolean
answer only selects the log line), return EMPTY. -/
def visitEndLifetimeInst (operand : ValueId) (V : InstructionVisitor) :
    Outcome CAstNode :=
  let toRemove := operand
  Outcome.ok (makeNode CAstKind.EMPTY [])
    { V with valueTable := (V.valueTable.tryRemove toRemove).2 }

/-- Member `visitFunctionRefInst`: returns EMPTY. -/
def visitFunctionRefInst (V : InstructionVisitor) :
    Outcome CAstNode :=
  Outcome.ok (makeNode CAstKind.EMPTY []) V

/-- Member `visitDynamicFunctionRefInst`: returns EMPTY. -/
def visitDynamicFunctionRefInst (V : InstructionVisitor) :
    Outcome CAstNode :=
  Outcome.ok (makeNode CAstKind.EMPTY []) V

/-- Member `visitPreviousDynamicFunctionRefInst`: returns EMPTY. -/
def visitPreviousDynamicFunctionRefInst (V : InstructionVisitor) :
    Outcome CAstNode :=
  Outcome.ok (makeNode CAstKind.EMPTY []) V

/-- Member `visitGlobalAddrInst`: returns EMPTY. -/
def visitGlobalAddrInst (V : InstructionVisitor) :
    Outcome CAstNode :=
  Outcome.ok (makeNode CAstKind.EMPTY []) V

/-- Member `visitGlobalValueInst`: returns EMPTY. -/
def visitGlobalValueInst (V : InstructionVisitor) :
    Outcome CAstNode :=
  Outcome.ok (makeNode CAstKind.EMPTY []) V

/-- Member `visitIntegerLiteralInst`: returns EMPTY. -/
def visitIntegerLiteralInst (V : InstructionVisitor) :
    Outcome CAstNode :=
  Outcome.ok (makeNode CAstKind.EMPTY []) V

/-- Member `visitFloatLiteralInst`: returns EMPTY. -/
def visitFloatLiteralInst (V : InstructionVisitor) :
    Outcome CAstNode :=
  Outcome.ok (makeNode CAstKind.EMPTY []) V

/-- Member `visitStringLiteralInst`: returns EMPTY. -/
def visitStringLiteralInst (V : InstructionVisitor) :
    Outcome CAstNode :=
  Outcome.ok (makeNode CAstKind.EMPTY []) V

/-- Member `visitClassMethodInst`: returns EMPTY. -/
def visitClassMethodInst (V : InstructionVisitor) :
    Outcome CAstNode :=
  Outcome.ok (makeNode CAstKind.EMPTY []) V

/-- Member `visitObjCMethodInst`: returns EMPTY. -/
def visitObjCMethodInst (V : InstructionVisitor) :
    Outcome CAstNode :=
  Outcome.ok (makeNode CAstKind.EMPTY []) V

/-- Member `visitSuperMethodInst`: returns EMPTY. -/
def visitSuperMethodInst (V : InstructionVisitor) :
    Outcome CAstNode :=
  Outcome.ok (makeNode CAstKind.EMPTY []) V

/-- Member `visitObjCSuperMethodInst`: returns EMPTY. -/
def visitObjCSuperMethodInst (V : InstructionVisitor) :
    Outcome CAstNode :=
  Outcome.ok (makeNode CAstKind.EMPTY []) V

/-- Member `visitWitnessMethodInst`: returns EMPTY. -/
def visitWitnessMethodInst (V : InstructionVisitor) :
    Outcome CAstNode :=
  Outcome.ok (makeNode CAstKind.EMPTY []) V

/-- Member `visitApplyInst`: returns EMPTY. -/
def visitApplyInst (V : InstructionVisitor) :
    Outcome CAstNode :=
  Outcome.ok (makeNode CAstKind.EMPTY []) V

/-- Member `visitBeginApplyInst`: returns EMPTY. -/
def visitBeginApplyInst (V : InstructionVisitor) :
    Outcome CAstNode :=
  Outcome.ok (makeNode CAstKind.EMPTY []) V

/-- Member `visitEndApplyInst`: returns EMPTY. -/
def visitEndApplyInst (V : InstructionVisitor) :
    Outcome CAstNode :=
  Outcome.ok (makeNode CAstKind.EMPTY []) V

/-- Member `visitAbortApplyInst`: returns EMPTY. -/
def visitAbortApplyInst (V : InstructionVisitor) :
    Outcome CAstNode :=
  Outcome.ok (makeNode CAstKind.EMPTY []) V

/-- Member `visitPartialApplyInst`: returns EMPTY. -/
def visitPartialApplyInst (V : InstructionVisitor) :
    Outcome CAstNode :=
  Outcome.ok (makeNode CAstKind.EMPTY []) V

/-- Member `visitBuiltinInst`: returns EMPTY. -/
def visitBuiltinInst (V : InstructionVisitor) :
    Outcome CAstNode :=
  Outcome.ok (makeNode CAstKind.EMPTY []) V

/-- Member `visitMetatypeInst`: returns EMPTY. -/
def visitMetatypeInst (V : InstructionVisitor) :
    Outcome CAstNode :=
  Outcome.ok (makeNode CAstKind.EMPTY []) V

/-- Member `visitValueMetatypeInst`: returns EMPTY. -/
def visitValueMetatypeInst (V : InstructionVisitor) :
    Outcome CAstNode :=
  Outcome.ok (makeNode CAstKind.EMPTY []) V

/-- Member `visitCopyValueInst`: returns EMPTY. -/
def visitCopyValueInst (V : InstructionVisitor) :
    Outcome CAstNode :=
  Outcome.ok (makeNode CAstKind.EMPTY []) V

/-- Member `visitDestroyValueInst`: returns EMPTY. -/
def visitDestroyValueInst (V : InstructionVisitor) :
    Outcome CAstNode :=
  Outcome.ok (makeNode CAstKind.EMPTY []) V

/-- Member `visitTupleInst`: returns EMPTY. -/
def visitTupleInst (V : InstructionVisitor) :
    Outcome CAstNode :=
  Outcome.ok (makeNode CAstKind.EMPTY []) V

/-- Member `visitTupleExtractInst`: returns EMPTY. -/
def visitTupleExtractInst (V : InstructionVisitor) :
    Outcome CAstNode :=
  Outcome.ok (makeNode CAstKind.EMPTY []) V

/-- Member `visitTupleElementAddrInst`: returns EMPTY. -/
def visitTupleElementAddrInst (V : InstructionVisitor) :
    Outcome CAstNode :=
  Outcome.ok (makeNode CAstKind.EMPTY []) V

/-- Member `visitDestructureTupleInst`: returns EMPTY. -/
def visitDestructureTupleInst (V : InstructionVisitor) :
    Outcome CAstNode :=
  Outcome.ok (makeNode CAstKind.EMPTY []) V

/-- Member `visitStructInst`: returns EMPTY. -/
def visitStructInst (V : InstructionVisitor) :
    Outcome CAstNode :=
  Outcome.ok (makeNode CAstKind.EMPTY []) V

/-- Member `visitStructExtractInst`: returns EMPTY. -/
def visitStructExtractInst (V : InstructionVisitor) :
    Outcome CAstNode :=
  Outcome.ok (makeNode CAstKind.EMPTY []) V

/-- Member `visitStructElementAddrInst`: returns EMPTY. -/
def visitStructElementAddrInst (V : InstructionVisitor) :
    Outcome CAstNode :=
  Outcome.ok (makeNode CAstKind.EMPTY []) V

/-- Member `visitRefElementAddrInst`: returns EMPTY. -/
def visitRefElementAddrInst (V : InstructionVisitor) :
    Outcome CAstNode :=
  Outcome.ok (makeNode CAstKind.EMPTY []) V

/-- Member `visitRefTailAddrInst`: returns EMPTY. -/
def visitRefTailAddrInst (V : InstructionVisitor) :
    Outcome CAstNode :=
  Outcome.ok (makeNode CAstKind.EMPTY []) V

/-- Member `visitEnumInst`: returns EMPTY. -/
def visitEnumInst (V : InstructionVisitor) :
    Outcome CAstNode :=
  Outcome.ok (makeNode CAstKind.EMPTY []) V

/-- Member `visitUncheckedEnumDataInst`: returns EMPTY. -/
def visitUncheckedEnumDataInst (V : InstructionVisitor) :
    Outcome CAstNode :=
  Outcome.ok (makeNode CAstKind.EMPTY []) V

/-- Member `visitInjectEnumAddrInst`: returns EMPTY. -/
def visitInjectEnumAddrInst (V : InstructionVisitor) :
    Outcome CAstNode :=
  Outcome.ok (makeNode CAstKind.EMPTY []) V

/-- Member `visitInitEnumDataAddrInst`: returns EMPTY. -/
def visitInitEnumDataAddrInst (V : InstructionVisitor) :
    Outcome CAstNode :=
  Outcome.ok (makeNode CAstKind.EMPTY []) V

/-- Member `visitUncheckedTakeEnumDataAddrInst`: returns EMPTY. -/
def visitUncheckedTakeEnumDataAddrInst (V : InstructionVisitor) :
    Outcome CAstNode :=
  Outcome.ok (makeNode CAstKind.EMPTY []) V

/-- Member `visitSelectEnumInst`: returns EMPTY. -/
def visitSelectEnumInst (V : InstructionVisitor) :
    Outcome CAstNode :=
  Outcome.ok (makeNode CAstKind.EMPTY []) V

/-- Member `visitInitExistentialAddrInst`: returns EMPTY. -/
def visitInitExistentialAddrInst (V : InstructionVisitor) :
    Outcome CAstNode :=
  Outcome.ok (makeNode CAstKind.EMPTY []) V

/-- Member `visitDeinitExistentialAddrInst`: returns EMPTY. -/
def visitDeinitExistentialAddrInst (V : InstructionVisitor) :
    Outcome CAstNode :=
  Outcome.ok (makeNode CAstKind.EMPTY []) V

/-- Member `visitInitExistentialValueInst`: returns EMPTY. -/
def visitInitExistentialValueInst (V : InstructionVisitor) :
    Outcome CAstNode :=
  Outcome.ok (makeNode CAstKind.EMPTY []) V

/-- Member `visitDeinitExistentialValueInst`: returns EMPTY. -/
def visitDeinitExistentialValueInst (V : InstructionVisitor) :
    Outcome CAstNode :=
  Outcome.ok (makeNode CAstKind.EMPTY []) V

/-- Member `visitOpenExistentialAddrInst`: returns EMPTY. -/
def visitOpenExistentialAddrInst (V : InstructionVisitor) :
    Outcome CAstNode :=
  Outcome.ok (makeNode CAstKind.EMPTY []) V

/-- Member `visitOpenExistentialValueInst`: returns EMPTY. -/
def visitOpenExistentialValueInst (V : InstructionVisitor) :
    Outcome CAstNode :=
  Outcome.ok (makeNode CAstKind.EMPTY []) V

/-- Member `visitInitExistentialMetatypeInst`: returns EMPTY. -/
def visitInitExistentialMetatypeInst (V : InstructionVisitor) :
    Outcome CAstNode :=
  Outcome.ok (makeNode CAstKind.EMPTY []) V

/-- Member `visitOpenExistentialMetatypeInst`: returns EMPTY. -/
def visitOpenExistentialMetatypeInst (V : InstructionVisitor) :
    Outcome CAstNode :=
  Outcome.ok (makeNode CAstKind.EMPTY []) V

/-- Member `visitInitExistentialRefInst`: returns EMPTY. -/
def visitInitExistentialRefInst (V : InstructionVisitor) :
    Outcome CAstNode :=
  Outcome.ok (makeNode CAstKind.EMPTY []) V

/-- Member `visitOpenExistentialRefInst`: returns EMPTY. -/
def visitOpenExistentialRefInst (V : InstructionVisitor) :
    Outcome CAstNode :=
  Outcome.ok (makeNode CAstKind.EMPTY []) V

/-- Member `visitAllocExistentialBoxInst`: returns EMPTY. -/
def visitAllocExistentialBoxInst (V : InstructionVisitor) :
    Outcome CAstNode :=
  Outcome.ok (makeNode CAstKind.EMPTY []) V

/-- Member `visitProjectExistentialBoxInst`: returns EMPTY. -/
def visitProjectExistentialBoxInst (V : InstructionVisitor) :
    Outcome CAstNode :=
  Outcome.ok (makeNode CAstKind.EMPTY []) V

/-- Member `visitOpenExistentialBoxInst`: returns EMPTY. -/
def visitOpenExistentialBoxInst (V : InstructionVisitor) :
    Outcome CAstNode :=
  Outcome.ok (makeNode CAstKind.EMPTY []) V

/-- Member `visitOpenExistentialBoxValueInst`: returns EMPTY. -/
def visitOpenExistentialBoxValueInst (V : InstructionVisitor) :
    Outcome CAstNode :=
  Outcome.ok (makeNode CAstKind.EMPTY []) V

/-- Member `visitDeallocExistentialBoxInst`: returns EMPTY. -/
def visitDeallocExistentialBoxInst (V : InstructionVisitor) :
    Outcome CAstNode :=
  Outcome.ok (makeNode CAstKind.EMPTY []) V

/-- Member `visitUpcastInst`: returns EMPTY. -/
def visitUpcastInst (V : InstructionVisitor) :
    Outcome CAstNode :=
  Outcome.ok (makeNode CAstKind.EMPTY []) V

/-- Member `visitAddressToPointerInst`: returns EMPTY. -/
def visitAddressToPointerInst (V : InstructionVisitor) :
    Outcome CAstNode :=
  Outcome.ok (makeNode CAstKind.EMPTY []) V

/-- Member `visitPointerToAddressInst`: returns EMPTY. -/
def visitPointerToAddressInst (V : InstructionVisitor) :
    Outcome CAstNode :=
  Outcome.ok (makeNode CAstKind.EMPTY []) V

/-- Member `visitUncheckedRefCastInst`: returns EMPTY. -/
def visitUncheckedRefCastInst (V : InstructionVisitor) :
    Outcome CAstNode :=
  Outcome.ok (makeNode CAstKind.EMPTY []) V

/-- Member `visitUncheckedAddrCastInst`: returns EMPTY. -/
def visitUncheckedAddrCastInst (V : InstructionVisitor) :
    Outcome CAstNode :=
  Outcome.ok (makeNode CAstKind.EMPTY []) V

/-- Member `visitUncheckedTrivialBitCastInst`: returns EMPTY. -/
def visitUncheckedTrivialBitCastInst (V : InstructionVisitor) :
    Outcome CAstNode :=
  Outcome.ok (makeNode CAstKind.EMPTY []) V

/-- Member `visitUncheckedOwnershipConversionInst`: returns EMPTY. -/
def visitUncheckedOwnershipConversionInst (V : InstructionVisitor) :
    Outcome CAstNode :=
  Outcome.ok (makeNode CAstKind.EMPTY []) V

/-- Member `visitRefToRawPointerInst`: returns EMPTY. -/
def visitRefToRawPointerInst (V : InstructionVisitor) :
    Outcome CAstNode :=
  Outcome.ok (makeNode CAstKind.EMPTY []) V

/-- Member `visitRawPointerToRefInst`: returns EMPTY. -/
def visitRawPointerToRefInst (V : InstructionVisitor) :
    Outcome CAstNode :=
  Outcome.ok (makeNode CAstKind.EMPTY []) V

/-- Member `visitUnmanagedToRefInst`: returns EMPTY. -/
def visitUnmanagedToRefInst (V : InstructionVisitor) :
    Outcome CAstNode :=
  Outcome.ok (makeNode CAstKind.EMPTY []) V

/-- Member `visitConvertFunctionInst`: returns EMPTY. -/
def visitConvertFunctionInst (V : InstructionVisitor) :
    Outcome CAstNode :=
  Outcome.ok (makeNode CAstKind.EMPTY []) V

/-- Member `visitThinFunctionToPointerInst`: returns EMPTY. -/
def visitThinFunctionToPointerInst (V : InstructionVisitor) :
    Outcome CAstNode :=
  Outcome.ok (makeNode CAstKind.EMPTY []) V

/-- Member `visitPointerToThinFunctionInst`: returns EMPTY. -/
def visitPointerToThinFunctionInst (V : InstructionVisitor) :
    Outcome CAstNode :=
  Outcome.ok (makeNode CAstKind.EMPTY []) V

/-- Member `visitThinToThickFunctionInst`: returns EMPTY. -/
def visitThinToThickFunctionInst (V : InstructionVisitor) :
    Outcome CAstNode :=
  Outcome.ok (makeNode CAstKind.EMPTY []) V

/-- Member `visitThickToObjCMetatypeInst`: returns EMPTY. -/
def visitThickToObjCMetatypeInst (V : InstructionVisitor) :
    Outcome CAstNode :=
  Outcome.ok (makeNode CAstKind.EMPTY []) V

/-- Member `visitObjCToThickMetatypeInst`: returns EMPTY. -/
def visitObjCToThickMetatypeInst (V : InstructionVisitor) :
    Outcome CAstNode :=
  Outcome.ok (makeNode CAstKind.EMPTY []) V

/-- Member `visitConvertEscapeToNoEscapeInst`: returns EMPTY. -/
def visitConvertEscapeToNoEscapeInst (V : InstructionVisitor) :
    Outcome CAstNode :=
  Outcome.ok (makeNode CAstKind.EMPTY []) V

/-- Member `visitUnconditionalCheckedCastAddrInst`: returns EMPTY. -/
def visitUnconditionalCheckedCastAddrInst (V : InstructionVisitor) :
    Outcome CAstNode :=
  Outcome.ok (makeNode CAstKind.EMPTY []) V

/-- Member `visitCondFailInst`: returns EMPTY. -/
def visitCondFailInst (V : InstructionVisitor) :
    Outcome CAstNode :=
  Outcome.ok (makeNode CAstKind.EMPTY []) V

/-- Member `visitUnreachableInst`: returns EMPTY. -/
def visitUnreachableInst (V : InstructionVisitor) :
    Outcome CAstNode :=
  Outcome.ok (makeNode CAstKind.EMPTY []) V

/-- Member `visitReturnInst`: returns EMPTY. -/
def visitReturnInst (V : InstructionVisitor) :
    Outcome CAstNode :=
  Outcome.ok (makeNode CAstKind.EMPTY []) V

/-- Member `visitThrowInst`: returns EMPTY. -/
def visitThrowInst (V : InstructionVisitor) :
    Outcome CAstNode :=
  Outcome.ok (makeNode CAstKind.EMPTY []) V

/-- Member `visitYieldInst`: returns EMPTY. -/
def visitYieldInst (V : InstructionVisitor) :
    Outcome CAstNode :=
  Outcome.ok (makeNode CAstKind.EMPTY []) V

/-- Member `visitUnwindInst`: returns EMPTY. -/
def visitUnwindInst (V : InstructionVisitor) :
    Outcome CAstNode :=
  Outcome.ok (makeNode CAstKind.EMPTY []) V

/-- Member `visitBranchInst`: returns EMPTY. -/
def visitBranchInst (V : InstructionVisitor) :
    Outcome CAstNode :=
  Outcome.ok (makeNode CAstKind.EMPTY []) V

/-- Member `visitCondBranchInst`: returns EMPTY. -/
def visitCondBranchInst (V : InstructionVisitor) :
    Outcome CAstNode :=
  Outcome.ok (makeNode CAstKind.EMPTY []) V

/-- Member `visitSwitchValueInst`: returns EMPTY. -/
def visitSwitchValueInst (V : InstructionVisitor) :
    Outcome CAstNode :=
  Outcome.ok (makeNode CAstKind.EMPTY []) V

/-- Member `visitSelectValueInst`: returns EMPTY. -/
def visitSelectValueInst (V : InstructionVisitor) :
    Outcome CAstNode :=
  Outcome.ok (makeNode CAstKind.EMPTY []) V

/-- Member `visitSwitchEnumInst`: returns EMPTY. -/
def visitSwitchEnumInst (V : InstructionVisitor) :
    Outcome CAstNode :=
  Outcome.ok (makeNode CAstKind.EMPTY []) V

/-- Member `visitSwitchEnumAddrInst`: returns EMPTY. -/
def visitSwitchEnumAddrInst (V : InstructionVisitor) :
    Outcome CAstNode :=
  Outcome.ok (makeNode CAstKind.EMPTY []) V

/-- Member `visitCheckedCastBranchInst`: returns EMPTY. -/
def visitCheckedCastBranchInst (V : InstructionVisitor) :
    Outcome CAstNode :=
  Outcome.ok (makeNode CAstKind.EMPTY []) V

/-- Member `visitCheckedCastAddrBranchInst`: returns EMPTY. -/
def visitCheckedCastAddrBranchInst (V : InstructionVisitor) :
    Outcome CAstNode :=
  Outcome.ok (makeNode CAstKind.EMPTY []) V

/-- Member `visitTryApplyInst`: returns EMPTY. -/
def visitTryApplyInst (V : InstructionVisitor) :
    Outcome CAstNode :=
  Outcome.ok (makeNode CAstKind.EMPTY []) V

/-- Member `beforeVisit`: fills a new instruction info record and advances the
instruction counter. The counter and `num` are `unsigned`. -/
def beforeVisit (I : SILInstruction) (V : InstructionVisitor) : InstructionVisitor :=
  let info0 : SILInstructionInfo :=
    { num := 0, memBehavior := MemoryBehavior.None,
      relBehavior := ReleasingBehavior.DoesNotRelease, srcType := none,
      Filename := I.Filename, startLine := none, startCol := none, endLine := none,
      endCol := none }
  let info1 : SILInstructionInfo :=
    match I.loc with
    | none => info0
    | some srcRange =>
      if srcRange.Start.isNone && srcRange.End.isNone then info0
      else
        let infoStart : SILInstructionInfo :=
          match srcRange.Start with
          | some startLineCol =>
            { info0 with srcType := some SILSourceType.STARTONLY,
                         startLine := some startLineCol.1, startCol := some startLineCol.2 }
          | none => info0
        match srcRange.End with
        | some endLineCol =>
          { infoStart with endLine := some endLineCol.1, endCol := some endLineCol.2,
                           srcType := some SILSourceType.FULL }
        | none => infoStart
  let info2 : SILInstructionInfo :=
    { info1 with memBehavior := I.memBehavior, relBehavior := I.relBehavior,
                 num := V.InstructionCounter }
  { V with instrInfo := info2,
           InstructionCounter := (V.InstructionCounter + 1) % 4294967296 }

/-- The switch of `SILInstructionVisitor::visit` over the instruction class. -/
def dispatch (env : Env) (inst : SILInst) (V : InstructionVisitor) : Outcome CAstNode :=
  match inst with
  | SILInst.AllocStackInst ASI type => visitAllocStackInst env ASI type V
  | SILInst.AllocRefInst ARI type => visitAllocRefInst env ARI type V
  | SILInst.AllocRefDynamicInst ARDI type => visitAllocRefDynamicInst env ARDI type V
  | SILInst.AllocBoxInst ABI type => visitAllocBoxInst env ABI type V
  | SILInst.AllocValueBufferInst AVBI operand => visitAllocValueBufferInst AVBI operand V
  | SILInst.AllocGlobalInst => visitAllocGlobalInst V
  | SILInst.DeallocStackInst operand => visitDeallocStackInst operand V
  | SILInst.DeallocBoxInst operand => visitDeallocBoxInst operand V
  | SILInst.ProjectBoxInst PBI operand => visitProjectBoxInst PBI operand V
  | SILInst.DeallocRefInst operand => visitDeallocRefInst operand V
  | SILInst.DeallocPartialRefInst operand0 operand1 =>
    visitDeallocPartialRefInst operand0 operand1 V
  | SILInst.DeallocValueBufferInst operand => visitDeallocValueBufferInst operand V
  | SILInst.ProjectValueBufferInst PVBI operand => visitProjectValueBufferInst PVBI operand V
  | SILInst.DebugValueInst => visitDebugValueInst V
  | SILInst.DebugValueAddrInst => visitDebugValueAddrInst V
  | SILInst.LoadInst LI operand => visitLoadInst LI operand V
  | SILInst.StoreInst src dest => visitStoreInst src dest V
  | SILInst.LoadBorrowInst LBI operand => visitLoadBorrowInst LBI operand V
  | SILInst.EndBorrowInst operand => visitEndBorrowInst operand V
  | SILInst.AssignInst src dest => visitAssignInst src dest V
  | SILInst.AssignByWrapperInst operand0 operand1 initializer setter =>
    visitAssignByWrapperInst env operand0 operand1 initializer setter V
  | SILInst.MarkUninitializedInst MUI operand => visitMarkUninitializedInst MUI operand V
  | SILInst.MarkFunctionEscapeInst result0 allOperands =>
    visitMarkFunctionEscapeInst result0 allOperands V
  | SILInst.CopyAddrInst src dest => visitCopyAddrInst src dest V
  | SILInst.DestroyAddrInst operand => visitDestroyAddrInst operand V
  | SILInst.IndexAddrInst IAI base index type => visitIndexAddrInst env IAI base index type V
  | SILInst.TailAddrInst TAI base index type => visitTailAddrInst env TAI base index type V
  | SILInst.IndexRawPointerInst result0 operand0 => visitIndexRawPointerInst result0 operand0 V
  | SILInst.BindMemoryInst => visitBindMemoryInst V
  | SILInst.BeginAccessInst BAI operand => visitBeginAccessInst BAI operand V
  | SILInst.EndAccessInst operand => visitEndAccessInst operand V
  | SILInst.BeginUnpairedAccessInst source buffer => visitBeginUnpairedAccessInst source buffer V
  | SILInst.EndUnpairedAccessInst operand => visitEndUnpairedAccessInst operand V
  | SILInst.StrongRetainInst => visitStrongRetainInst V
  | SILInst.StrongReleaseInst => visitStrongReleaseInst V
  | SILInst.SetDeallocatingInst => visitSetDeallocatingInst V
  | SILInst.StrongRetainUnownedInst => visitStrongRetainUnownedInst V
  | SILInst.UnownedRetainInst => visitUnownedRetainInst V
  | SILInst.UnownedReleaseInst => visitUnownedReleaseInst V
  | SILInst.LoadWeakInst => visitLoadWeakInst V
  | SILInst.StoreWeakInst src dest => visitStoreWeakInst src dest V
  | SILInst.LoadUnownedInst LUI operand => visitLoadUnownedInst LUI operand V
  | SILInst.StoreUnownedInst src dest => visitStoreUnownedInst src dest V
  | SILInst.FixLifetimeInst => visitFixLifetimeInst V
  | SILInst.MarkDependenceInst MDI operand0 => visitMarkDependenceInst MDI operand0 V
  | SILInst.IsUniqueInst IUI operand => visitIsUniqueInst IUI operand V
  | SILInst.IsEscapingClosureInst IECI operand => visitIsEscapingClosureInst IECI operand V
  | SILInst.CopyBlockInst CBI operand => visitCopyBlockInst CBI operand V
  | SILInst.CopyBlockWithoutEscapingInst CBWEI operand0 operand1 =>
    visitCopyBlockWithoutEscapingInst CBWEI operand0 operand1 V
  | SILInst.EndLifetimeInst operand => visitEndLifetimeInst operand V
  | SILInst.FunctionRefInst => visitFunctionRefInst V
  | SILInst.DynamicFunctionRefInst => visitDynamicFunctionRefInst V
  | SILInst.PreviousDynamicFunctionRefInst => visitPreviousDynamicFunctionRefInst V
  | SILInst.GlobalAddrInst => visitGlobalAddrInst V
  | SILInst.GlobalValueInst => visitGlobalValueInst V
  | SILInst.IntegerLiteralInst => visitIntegerLiteralInst V
  | SILInst.FloatLiteralInst => visitFloatLiteralInst V
  | SILInst.StringLiteralInst => visitStringLiteralInst V
  | SILInst.ClassMethodInst => visitClassMethodInst V
  | SILInst.ObjCMethodInst => visitObjCMethodInst V
  | SILInst.SuperMethodInst => visitSuperMethodInst V
  | SILInst.ObjCSuperMethodInst => visitObjCSuperMethodInst V
  | SILInst.WitnessMethodInst => visitWitnessMethodInst V
  | SILInst.ApplyInst => visitApplyInst V
  | SILInst.BeginApplyInst => visitBeginApplyInst V
  | SILInst.EndApplyInst => visitEndApplyInst V
  | SILInst.AbortApplyInst => visitAbortApplyInst V
  | SILInst.PartialApplyInst => visitPartialApplyInst V
  | SILInst.BuiltinInst => visitBuiltinInst V
  | SILInst.MetatypeInst => visitMetatypeInst V
  | SILInst.ValueMetatypeInst => visitValueMetatypeInst V
  | SILInst.CopyValueInst => visitCopyValueInst V
  | SILInst.DestroyValueInst => visitDestroyValueInst V
  | SILInst.TupleInst => visitTupleInst V
  | SILInst.TupleExtractInst => visitTupleExtractInst V
  | SILInst.TupleElementAddrInst => visitTupleElementAddrInst V
  | SILInst.DestructureTupleInst => visitDestructureTupleInst V
  | SILInst.StructInst => visitStructInst V
  | SILInst.StructExtractInst => visitStructExtractInst V
  | SILInst.StructElementAddrInst => visitStructElementAddrInst V
  | SILInst.RefElementAddrInst => visitRefElementAddrInst V
  | SILInst.RefTailAddrInst => visitRefTailAddrInst V
  | SILInst.EnumInst => visitEnumInst V
  | SILInst.UncheckedEnumDataInst => visitUncheckedEnumDataInst V
  | SILInst.InjectEnumAddrInst => visitInjectEnumAddrInst V
  | SILInst.InitEnumDataAddrInst => visitInitEnumDataAddrInst V
  | SILInst.UncheckedTakeEnumDataAddrInst => visitUncheckedTakeEnumDataAddrInst V
  | SILInst.SelectEnumInst => visitSelectEnumInst V
  | SILInst.InitExistentialAddrInst => visitInitExistentialAddrInst V
  | SILInst.DeinitExistentialAddrInst => visitDeinitExistentialAddrInst V
  | SILInst.InitExistentialValueInst => visitInitExistentialValueInst V
  | SILInst.DeinitExistentialValueInst => visitDeinitExistentialValueInst V
  | SILInst.OpenExistentialAddrInst => visitOpenExistentialAddrInst V
  | SILInst.OpenExistentialValueInst => visitOpenExistentialValueInst V
  | SILInst.InitExistentialMetatypeInst => visitInitExistentialMetatypeInst V
  | SILInst.OpenExistentialMetatypeInst => visitOpenExistentialMetatypeInst V
  | SILInst.InitExistentialRefInst => visitInitExistentialRefInst V
  | SILInst.OpenExistentialRefInst => visitOpenExistentialRefInst V
  | SILInst.AllocExistentialBoxInst => visitAllocExistentialBoxInst V
  | SILInst.ProjectExistentialBoxInst => visitProjectExistentialBoxInst V
  | SILInst.OpenExistentialBoxInst => visitOpenExistentialBoxInst V
  | SILInst.OpenExistentialBoxValueInst => visitOpenExistentialBoxValueInst V
  | SILInst.DeallocExistentialBoxInst => visitDeallocExistentialBoxInst V
  | SILInst.UpcastInst => visitUpcastInst V
  | SILInst.AddressToPointerInst => visitAddressToPointerInst V
  | SILInst.PointerToAddressInst => visitPointerToAddressInst V
  | SILInst.UncheckedRefCastInst => visitUncheckedRefCastInst V
  | SILInst.UncheckedAddrCastInst => visitUncheckedAddrCastInst V
  | SILInst.UncheckedTrivialBitCastInst => visitUncheckedTrivialBitCastInst V
  | SILInst.UncheckedOwnershipConversionInst => visitUncheckedOwnershipConversionInst V
  | SILInst.RefToRawPointerInst => visitRefToRawPointerInst V
  | SILInst.RawPointerToRefInst => visitRawPointerToRefInst V
  | SILInst.UnmanagedToRefInst => visitUnmanagedToRefInst V
  | SILInst.ConvertFunctionInst => visitConvertFunctionInst V
  | SILInst.ThinFunctionToPointerInst => visitThinFunctionToPointerInst V
  | SILInst.PointerToThinFunctionInst => visitPointerToThinFunctionInst V
  | SILInst.ThinToThickFunctionInst => visitThinToThickFunctionInst V
  | SILInst.ThickToObjCMetatypeInst => visitThickToObjCMetatypeInst V
  | SILInst.ObjCToThickMetatypeInst => visitObjCToThickMetatypeInst V
  | SILInst.ConvertEscapeToNoEscapeInst => visitConvertEscapeToNoEscapeInst V
  | SILInst.UnconditionalCheckedCastAddrInst => visitUnconditionalCheckedCastAddrInst V
  | SILInst.CondFailInst => visitCondFailInst V
  | SILInst.UnreachableInst => visitUnreachableInst V
  | SILInst.ReturnInst => visitReturnInst V
  | SILInst.ThrowInst => visitThrowInst V
  | SILInst.YieldInst => visitYieldInst V
  | SILInst.UnwindInst => visitUnwindInst V
  | SILInst.BranchInst => visitBranchInst V
  | SILInst.CondBranchInst => visitCondBranchInst V
  | SILInst.SwitchValueInst => visitSwitchValueInst V
  | SILInst.SelectValueInst => visitSelectValueInst V
  | SILInst.SwitchEnumInst => visitSwitchEnumInst V
  | SILInst.SwitchEnumAddrInst => visitSwitchEnumAddrInst V
  | SILInst.CheckedCastBranchInst => visitCheckedCastBranchInst V
  | SILInst.CheckedCastAddrBranchInst => visitCheckedCastAddrBranchInst V
  | SILInst.TryApplyInst => visitTryApplyInst V

/-- Member `visit` inherited from `SILInstructionVisitor`: `beforeVisit`, then
the member for the class of the instruction. -/
def visit (env : Env) (I : SILInstruction) (V : InstructionVisitor) : Outcome CAstNode :=
  dispatch env I.inst (beforeVisit I V)


/-! ## Basic block, function and module drivers -/

/-- The instruction loop of `visitSILBasicBlock`: visit, then push the node to
the back of `nodeList` and record its source information, unless it is an
EMPTY node and `SWAN_ADD_EMPTY_NODES` is off. The node a member returns is
never null. -/
def visitSILBasicBlock.loop (env : Env) :
    List SILInstruction → InstructionVisitor → Outcome Unit
  | [], V => Outcome.ok () V
  | I :: rest, V =>
    match visit env I V with
    | Outcome.fatal cause V1 => Outcome.fatal cause V1
    | Outcome.ok Node V1 =>
      if !env.SWAN_ADD_EMPTY_NODES && getKind Node == CAstKind.EMPTY then
        visitSILBasicBlock.loop env rest V1
      else
        visitSILBasicBlock.loop env rest
          { V1 with nodeList := V1.nodeList ++ [Node],
                    Instance := V1.Instance.addSourceInfo Node V1.instrInfo }

/-- The declaration loop of `visitSILBasicBlock`: each declaration node is
pushed to the front of `nodeList` and to the back of the entity's `declNodes`. -/
def visitSILBasicBlock.addDeclNodes :
    List CAstNode → InstructionVisitor → InstructionVisitor
  | [], V => V
  | declNode :: rest, V =>
    visitSILBasicBlock.addDeclNodes rest
      { V with nodeList := declNode :: V.nodeList,
               currentEntity :=
                 { V.currentEntity with declNodes := V.currentEntity.declNodes ++ [declNode] } }

/-- Member `visitSILBasicBlock`. -/
def visitSILBasicBlock (env : Env) (BB : SILBasicBlock) (V : InstructionVisitor) :
    Outcome Unit :=
  let V0 : InstructionVisitor :=
    { V with InstructionCounter := 0,
             valueTable := V.valueTable.clearNodes.clearDeclNodes,
             nodeList := [] }
  match visitSILBasicBlock.loop env BB.instructions V0 with
  | Outcome.fatal cause V1 => Outcome.fatal cause V1
  | Outcome.ok _ V1 =>
    let V2 := visitSILBasicBlock.addDeclNodes V1.valueTable.getDeclNodes V1
    let Node := makeConstant (env.labelBasicBlock BB)
    let Stmt := makeNode CAstKind.LABEL_STMT [Node]
    let nodeList := Stmt :: V2.nodeList
    let BlockStmt := makeNode CAstKind.BLOCK_STMT nodeList
    Outcome.ok ()
      { V2 with nodeList := nodeList,
                blockStmtList := V2.blockStmtList ++ [BlockStmt],
                currentEntity :=
                  { V2.currentEntity with
                      basicBlocks := V2.currentEntity.basicBlocks ++ [BlockStmt] } }

/-- The source information step of `visitSILFunction`: the function position
and the position given to every argument. With a null location neither is
assigned: the entity keeps the position it had, and the local `argPosition`
stays uninitialised. The `none` of that branch stands for this indeterminate
value, which the program may find different from run to run: it says that no
position was assigned, not which value a run records. -/
def visitSILFunction.positions (F : SILFunction) (entity : WALACAstEntityInfo) :
    WALACAstEntityInfo × Option Position :=
  match F.location with
  | some srcRange =>
    match srcRange.Start, srcRange.End with
    | some startLineCol, some endLineCol =>
      let fl := startLineCol.1
      let fc := startLineCol.2
      let ll := endLineCol.1
      let lc := endLineCol.2
      let functionPosition := makeLocation (static_cast_int fl) (static_cast_int fc)
        (static_cast_int ll) (static_cast_int lc)
      let argPosition := makeLocation (static_cast_int fl) (static_cast_int fc)
        (static_cast_int fl) (static_cast_int fc)
      ({ entity with functionPosition := some functionPosition }, some argPosition)
    | _, _ =>
      let functionPosition := makeLocation (-1) (-1) (-1) (-1)
      let argPosition := functionPosition
      ({ entity with functionPosition := some functionPosition }, some argPosition)
  | none => (entity, none)

/-- The argument loop of `visitSILFunction`: an argument with a named
declaration gets a symbol, and its address string, position and type are
recorded in the entity. -/
def visitSILFunction.arguments (env : Env) (argPosition : Option Position) :
    List SILArgument → InstructionVisitor → InstructionVisitor
  | [], V => V
  | arg :: rest, V =>
    match arg.decl with
    | some decl =>
      if decl.name.isSome then
        visitSILFunction.arguments env argPosition rest
          { V with
              valueTable := V.valueTable.createAndAddSymbol env arg.value arg.type,
              currentEntity :=
                { V.currentEntity with
                    argumentNames :=
                      V.currentEntity.argumentNames ++ [env.addressToString arg.value],
                    argumentPositions := V.currentEntity.argumentPositions ++ [argPosition],
                    argumentTypes := V.currentEntity.argumentTypes ++ [arg.type] } }
      else visitSILFunction.arguments env argPosition rest V
    | none => visitSILFunction.arguments env argPosition rest V

/-- The block loop of `visitSILFunction`. -/
def visitSILFunction.blocks (env : Env) :
    List SILBasicBlock → InstructionVisitor → Outcome Unit
  | [], V => Outcome.ok () V
  | BB :: rest, V =>
    match visitSILBasicBlock env BB V with
    | Outcome.fatal cause V1 => Outcome.fatal cause V1
    | Outcome.ok _ V1 => visitSILFunction.blocks env rest V1

/-- Member `visitSILFunction`. -/
def visitSILFunction (env : Env) (F : SILFunction) (V : InstructionVisitor) : Outcome Unit :=
  let demangledFunctionName := env.demangleSymbolAsString F.name
  let V1 : InstructionVisitor :=
    { V with functionInfo := (F.name, demangledFunctionName),
             currentEntity := { V.currentEntity with functionName := demangledFunctionName } }
  let positioned := visitSILFunction.positions F V1.currentEntity
  let V2 : InstructionVisitor := { V1 with currentEntity := positioned.1 }
  let V3 := visitSILFunction.arguments env positioned.2 F.arguments V2
  let returnType : String :=
    match F.loweredResults with
    | [singleResult] => singleResult
    | _ => "MultiResultType"
  let V4 : InstructionVisitor :=
    { V3 with currentEntity := { V3.currentEntity with returnType := returnType } }
  let V5 : InstructionVisitor := { V4 with blockStmtList := [] }
  visitSILFunction.blocks env F.blocks V5

/-- The function loop of `visitSILModule`. `currentEntity` is a `unique_ptr`
that is null after it has been moved into the instance; the record keeps the
moved value, which nothing reads before the next `make_unique`. -/
def visitSILModule.loop (env : Env) :
    List SILFunction → InstructionVisitor → Outcome Unit
  | [], V => Outcome.ok () V
  | F :: rest, V =>
    let demangledFunctionName := env.demangleSymbolAsString F.name
    if demangledFunctionName ∈ env.builtinFunctions then visitSILModule.loop env rest V
    else if F.empty then visitSILModule.loop env rest V
    else
      let V1 : InstructionVisitor :=
        { V with currentEntity := WALACAstEntityInfo.fresh,
                 Instance := V.Instance.createCAstSourcePositionRecorder }
      match visitSILFunction env F V1 with
      | Outcome.fatal cause V2 => Outcome.fatal cause V2
      | Outcome.ok _ V2 =>
        let entity : WALACAstEntityInfo :=
          { V2.currentEntity with
              CAstSourcePositionRecorder := V2.Instance.currentCAstSourcePositionRecorder }
        visitSILModule.loop env rest
          { V2 with currentEntity := entity,
                    Instance := V2.Instance.addCAstEntityInfo entity }

/-- Member `visitSILModule`: a new module info and a new value table, then the
function loop. -/
def visitSILModule (env : Env) (M : SILModule) (V : InstructionVisitor) : Outcome Unit :=
  let V1 : InstructionVisitor :=
    { V with moduleInfo := M.moduleFilename, valueTable := ValueTable.fresh }
  visitSILModule.loop env M.functions V1


/-! ## Rule templates as the specification groups them -/

/-- The instructions of the simple-rebind template whose source identity is
`src` and whose destination identity is `dest`: for load, load_borrow,
begin_access, load_unowned, mark_dependence, mark_uninitialized, is_unique,
is_escaping_closure, copy_block, project_box and index_raw_pointer the
destination is the result of the instruction itself. -/
def simpleRebindInsts (src dest : ValueId) : List SILInst :=
  [SILInst.LoadInst dest src, SILInst.StoreInst src dest, SILInst.AssignInst src dest,
   SILInst.CopyAddrInst src dest, SILInst.LoadBorrowInst dest src,
   SILInst.BeginAccessInst dest src, SILInst.BeginUnpairedAccessInst src dest,
   SILInst.StoreWeakInst src dest, SILInst.LoadUnownedInst dest src,
   SILInst.StoreUnownedInst src dest, SILInst.MarkDependenceInst dest src,
   SILInst.MarkUninitializedInst dest src, SILInst.IsUniqueInst dest src,
   SILInst.IsEscapingClosureInst dest src, SILInst.CopyBlockInst dest src,
   SILInst.ProjectBoxInst dest src, SILInst.IndexRawPointerInst dest src]

/-- The two-operand rebind instructions store, assign, copy_addr, store_weak
and store_unowned with source `src` and destination `dest`. -/
def twoOperandRebindInsts (src dest : ValueId) : List SILInst :=
  [SILInst.StoreInst src dest, SILInst.AssignInst src dest, SILInst.CopyAddrInst src dest,
   SILInst.StoreWeakInst src dest, SILInst.StoreUnownedInst src dest]

/-- The allocation instructions alloc_stack, alloc_ref, alloc_ref_dynamic and
alloc_box with result identity `R` and declared type `t`. -/
def allocationInsts (R : ValueId) (t : String) : List SILInst :=
  [SILInst.AllocStackInst R t, SILInst.AllocRefInst R t, SILInst.AllocRefDynamicInst R t,
   SILInst.AllocBoxInst R t]

/-- The scope-termination instructions with operand identity `X`
(dealloc_partial_ref has a second, metatype operand `other`). -/
def scopeTerminationInsts (X other : ValueId) : List SILInst :=
  [SILInst.DeallocStackInst X, SILInst.DeallocBoxInst X, SILInst.DeallocRefInst X,
   SILInst.DeallocPartialRefInst X other, SILInst.DeallocValueBufferInst X,
   SILInst.EndBorrowInst X, SILInst.EndAccessInst X, SILInst.EndUnpairedAccessInst X,
   SILInst.EndLifetimeInst X, SILInst.DestroyAddrInst X]

/-- The indexed-addressing instructions index_addr and tail_addr with result
identity `R` of type `t`, base identity `base` and index identity `index`. -/
def indexedAddressingInsts (R base index : ValueId) (t : String) : List SILInst :=
  [SILInst.IndexAddrInst R base index t, SILInst.TailAddrInst R base index t]

/-- The declared type a symbol node carries (see `makeSymbol`). -/
def declaredType : CAstNode → Option String
  | CAstNode.node CAstKind.VAR [_, CAstNode.constant type] => some type
  | _ => none

/-! ## Example inputs -/

/-- An environment that keeps EMPTY nodes, filters one builtin name and has the
assertions compiled in. -/
def exampleEnv : Env :=
  { SWAN_ADD_EMPTY_NODES := true,
    builtinFunctions := ["Swift.print"],
    demangleSymbolAsString := fun name => name,
    labelBasicBlock := fun BB => String.mk (List.replicate BB.debugID 'b'),
    addressToString := fun key => String.mk (List.replicate key 'v'),
    DO_NODE := makeConstant "do",
    NDEBUG := false }

/-- The same environment for a build with `NDEBUG`: no assertion is checked. -/
def exampleEnvNDEBUG : Env := { exampleEnv with NDEBUG := true }

/-- An instruction with a null location. -/
def exampleInstruction (inst : SILInst) : SILInstruction :=
  { inst := inst, loc := none, Filename := "", memBehavior := MemoryBehavior.None,
    relBehavior := ReleasingBehavior.DoesNotRelease }

/-- A visitor record with the given bindings and nothing else. -/
def exampleVisitor (symbols : List (ValueId × CAstNode)) : InstructionVisitor :=
  { Instance := { castEntities := [], currentCAstSourcePositionRecorder := [] },
    valueTable := { symbols := symbols, declNodes := [] },
    currentEntity := WALACAstEntityInfo.fresh,
    instrInfo :=
      { num := 0, memBehavior := MemoryBehavior.None,
        relBehavior := ReleasingBehavior.DoesNotRelease, srcType := none, Filename := "",
        startLine := none, startCol := none, endLine := none, endCol := none },
    InstructionCounter := 0,
    nodeList := [],
    blockStmtList := [],
    moduleInfo := "",
    functionInfo := ("", "") }

/-- A symbol of kind VAR for examples. -/
def exampleVar (name : String) : CAstNode :=
  makeNode CAstKind.VAR [makeConstant name, makeConstant "Int"]

/-- A symbol of kind OBJECT_LITERAL for examples. -/
def exampleArr : CAstNode := makeNode CAstKind.OBJECT_LITERAL []


/-! ## Relations used to state what a step may change -/

/-- What the visit of one instruction, or of a run of instructions of one
block, may change between visitor `V` and visitor `W`: the entity list of the
instance, the current entity, the list of block statements and the module and
function info stay; `nodeList` grows at the back by nodes that are not
declarations; the pending-declaration buffer grows at the back by DECL_STMT
nodes. -/
def Frame (V W : InstructionVisitor) : Prop :=
  W.Instance.castEntities = V.Instance.castEntities ∧
  W.currentEntity = V.currentEntity ∧
  W.blockStmtList = V.blockStmtList ∧
  W.moduleInfo = V.moduleInfo ∧
  W.functionInfo = V.functionInfo ∧
  (∃ extra, W.nodeList = V.nodeList ++ extra ∧
    ∀ n ∈ extra, getKind n ≠ CAstKind.DECL_STMT) ∧
  (∃ extra, W.valueTable.declNodes = V.valueTable.declNodes ++ extra ∧
    ∀ d ∈ extra, getKind d = CAstKind.DECL_STMT)


/-- The declaration nodes the member of an instruction registers when it
returns: one for the symbol an allocation or an indexed addressing instruction
creates for its result, none for any other instruction. -/
def createdDecls (env : Env) : SILInst → List CAstNode
  | SILInst.AllocStackInst R t => [makeDecl (makeSymbol env R t)]
  | SILInst.AllocRefInst R t => [makeDecl (makeSymbol env R t)]
  | SILInst.AllocRefDynamicInst R t => [makeDecl (makeSymbol env R t)]
  | SILInst.AllocBoxInst R t => [makeDecl (makeSymbol env R t)]
  | SILInst.IndexAddrInst R _ _ t => [makeDecl (makeSymbol env R t)]
  | SILInst.TailAddrInst R _ _ t => [makeDecl (makeSymbol env R t)]
  | _ => []

/-- The declaration nodes of the symbols created while a block is translated,
in the order of their creation. -/
def blockCreatedDecls (env : Env) (BB : SILBasicBlock) : List CAstNode :=
  (BB.instructions.map (fun I => createdDecls env I.inst)).flatten

/-- The label node `visitSILBasicBlock` puts at the head of a block statement. -/
def labelNode (env : Env) (BB : SILBasicBlock) : CAstNode :=
  makeNode CAstKind.LABEL_STMT [makeConstant (env.labelBasicBlock BB)]

/-- A block that allocates two stack slots, with identities 1 and 2. -/
def exampleTwoAllocBlock : SILBasicBlock :=
  { debugID := 0,
    instructions := [exampleInstruction (SILInst.AllocStackInst 1 "Int"),
                     exampleInstruction (SILInst.AllocStackInst 2 "Bool")] }

/-- The block of scenario A with X = 1 and Y = 2: allocate X, store Y to X,
deallocate X. -/
def exampleScenarioABlock : SILBasicBlock :=
  { debugID := 0,
    instructions := [exampleInstruction (SILInst.AllocStackInst 1 "Int"),
                     exampleInstruction (SILInst.StoreInst 2 1),
                     exampleInstruction (SILInst.DeallocStackInst 1)] }


/-- The functions of a module that qualify for translation: demangled name
outside the builtin filter set and a non-empty body, in module order. -/
def qualifyingFunctions (env : Env) (M : SILModule) : List SILFunction :=
  M.functions.filter
    (fun F => decide (env.demangleSymbolAsString F.name ∉ env.builtinFunctions) && !F.empty)

/-- A function with the given name and blocks, no location, no argument and
one result. -/
def exampleFunction (name : String) (blocks : List SILBasicBlock) : SILFunction :=
  { name := name, location := none, arguments := [], loweredResults := ["Int"],
    blocks := blocks }

/-- A module with four functions: `main`, the builtin `Swift.print`, a function
without body, and `f`. -/
def exampleModule : SILModule :=
  { moduleFilename := "example.swift",
    functions := [exampleFunction "main" [exampleTwoAllocBlock],
                  exampleFunction "Swift.print" [exampleTwoAllocBlock],
                  exampleFunction "g" [],
                  exampleFunction "f" [exampleTwoAllocBlock]] }


/-! ## Definitions for the function and module level claims -/

/-- The reference-counting instructions (strong_retain, strong_release,
set_deallocating, strong_retain_unowned, unowned_retain, unowned_release,
fix_lifetime) and the instructions of the unimplemented categories, from
function_ref to try_apply in the source file. -/
def isNoOpInst : SILInst → Bool
  | SILInst.StrongRetainInst => true
  | SILInst.StrongReleaseInst => true
  | SILInst.SetDeallocatingInst => true
  | SILInst.StrongRetainUnownedInst => true
  | SILInst.UnownedRetainInst => true
  | SILInst.UnownedReleaseInst => true
  | SILInst.FixLifetimeInst => true
  | SILInst.FunctionRefInst => true
  | SILInst.DynamicFunctionRefInst => true
  | SILInst.PreviousDynamicFunctionRefInst => true
  | SILInst.GlobalAddrInst => true
  | SILInst.GlobalValueInst => true
  | SILInst.IntegerLiteralInst => true
  | SILInst.FloatLiteralInst => true
  | SILInst.StringLiteralInst => true
  | SILInst.ClassMethodInst => true
  | SILInst.ObjCMethodInst => true
  | SILInst.SuperMethodInst => true
  | SILInst.ObjCSuperMethodInst => true
  | SILInst.WitnessMethodInst => true
  | SILInst.ApplyInst => true
  | SILInst.BeginApplyInst => true
  | SILInst.EndApplyInst => true
  | SILInst.AbortApplyInst => true
  | SILInst.PartialApplyInst => true
  | SILInst.BuiltinInst => true
  | SILInst.MetatypeInst => true
  | SILInst.ValueMetatypeInst => true
  | SILInst.CopyValueInst => true
  | SILInst.DestroyValueInst => true
  | SILInst.TupleInst => true
  | SILInst.TupleExtractInst => true
  | SILInst.TupleElementAddrInst => true
  | SILInst.DestructureTupleInst => true
  | SILInst.StructInst => true
  | SILInst.StructExtractInst => true
  | SILInst.StructElementAddrInst => true
  | SILInst.RefElementAddrInst => true
  | SILInst.RefTailAddrInst => true
  | SILInst.EnumInst => true
  | SILInst.UncheckedEnumDataInst => true
  | SILInst.InjectEnumAddrInst => true
  | SILInst.InitEnumDataAddrInst => true
  | SILInst.UncheckedTakeEnumDataAddrInst => true
  | SILInst.SelectEnumInst => true
  | SILInst.InitExistentialAddrInst => true
  | SILInst.DeinitExistentialAddrInst => true
  | SILInst.InitExistentialValueInst => true
  | SILInst.DeinitExistentialValueInst => true
  | SILInst.OpenExistentialAddrInst => true
  | SILInst.OpenExistentialValueInst => true
  | SILInst.InitExistentialMetatypeInst => true
  | SILInst.OpenExistentialMetatypeInst => true
  | SILInst.InitExistentialRefInst => true
  | SILInst.OpenExistentialRefInst => true
  | SILInst.AllocExistentialBoxInst => true
  | SILInst.ProjectExistentialBoxInst => true
  | SILInst.OpenExistentialBoxInst => true
  | SILInst.OpenExistentialBoxValueInst => true
  | SILInst.DeallocExistentialBoxInst => true
  | SILInst.UpcastInst => true
  | SILInst.AddressToPointerInst => true
  | SILInst.PointerToAddressInst => true
  | SILInst.UncheckedRefCastInst => true
  | SILInst.UncheckedAddrCastInst => true
  | SILInst.UncheckedTrivialBitCastInst => true
  | SILInst.UncheckedOwnershipConversionInst => true
  | SILInst.RefToRawPointerInst => true
  | SILInst.RawPointerToRefInst => true
  | SILInst.UnmanagedToRefInst => true
  | SILInst.ConvertFunctionInst => true
  | SILInst.ThinFunctionToPointerInst => true
  | SILInst.PointerToThinFunctionInst => true
  | SILInst.ThinToThickFunctionInst => true
  | SILInst.ThickToObjCMetatypeInst => true
  | SILInst.ObjCToThickMetatypeInst => true
  | SILInst.ConvertEscapeToNoEscapeInst => true
  | SILInst.UnconditionalCheckedCastAddrInst => true
  | SILInst.CondFailInst => true
  | SILInst.UnreachableInst => true
  | SILInst.ReturnInst => true
  | SILInst.ThrowInst => true
  | SILInst.YieldInst => true
  | SILInst.UnwindInst => true
  | SILInst.BranchInst => true
  | SILInst.CondBranchInst => true
  | SILInst.SwitchValueInst => true
  | SILInst.SelectValueInst => true
  | SILInst.SwitchEnumInst => true
  | SILInst.SwitchEnumAddrInst => true
  | SILInst.CheckedCastBranchInst => true
  | SILInst.CheckedCastAddrBranchInst => true
  | SILInst.TryApplyInst => true
  | _ => false

/-- Whether `visitSILFunction` handles the argument: it has a declaration and
the declaration has a name. -/
def SILArgument.isNamed (arg : SILArgument) : Bool :=
  match arg.decl with
  | some decl => decl.name.isSome
  | none => false

/-- The arguments of a function that have a declaration with a name, in
argument order. -/
def namedArguments (F : SILFunction) : List SILArgument :=
  F.arguments.filter SILArgument.isNamed

/-- The table after a symbol has been created for each of the given arguments
in turn. -/
def bindArguments (env : Env) (T : ValueTable) (args : List SILArgument) : ValueTable :=
  args.foldl (fun table arg => table.createAndAddSymbol env arg.value arg.type) T

/-- The return type descriptor `visitSILFunction` records for a function. -/
def returnTypeOf (F : SILFunction) : String :=
  match F.loweredResults with
  | [singleResult] => singleResult
  | _ => "MultiResultType"

/-- The visitor as `visitSILFunction` leaves it just before it visits the
first basic block, in closed form. -/
def functionEntry (env : Env) (F : SILFunction) (V : InstructionVisitor) : InstructionVisitor :=
  { V with
      functionInfo := (F.name, env.demangleSymbolAsString F.name),
      valueTable := bindArguments env V.valueTable (namedArguments F),
      blockStmtList := [],
      currentEntity :=
        { V.currentEntity with
            functionName := env.demangleSymbolAsString F.name,
            functionPosition :=
              (visitSILFunction.positions F V.currentEntity).1.functionPosition,
            argumentNames := V.currentEntity.argumentNames ++
              (namedArguments F).map (fun arg => env.addressToString arg.value),
            argumentPositions := V.currentEntity.argumentPositions ++
              (namedArguments F).map
                (fun _ => (visitSILFunction.positions F V.currentEntity).2),
            argumentTypes := V.currentEntity.argumentTypes ++
              (namedArguments F).map (fun arg => arg.type),
            returnType := returnTypeOf F } }

/-- Two entity records agree on every field the block translator does not
write: all but `basicBlocks` and `declNodes`. -/
def EntityFrame (e e' : WALACAstEntityInfo) : Prop :=
  e'.functionName = e.functionName ∧
  e'.callNodes = e.callNodes ∧
  e'.cfNodes = e.cfNodes ∧
  e'.functionPosition = e.functionPosition ∧
  e'.argumentNames = e.argumentNames ∧
  e'.argumentPositions = e.argumentPositions ∧
  e'.argumentTypes = e.argumentTypes ∧
  e'.returnType = e.returnType ∧
  e'.CAstSourcePositionRecorder = e.CAstSourcePositionRecorder

/-- The statement `stmt` is a block statement `visitSILBasicBlock` produces for
the block `BB`: some run of it on `BB` returns and pushes `stmt`, a BLOCK_STMT
headed by the label of `BB`, to the back of the block statement list. -/
def IsBlockStmtOf (env : Env) (BB : SILBasicBlock) (stmt : CAstNode) : Prop :=
  (∃ W W', visitSILBasicBlock env BB W = Outcome.ok () W' ∧
    W'.blockStmtList = W.blockStmtList ++ [stmt]) ∧
  ∃ children, stmt = makeNode CAstKind.BLOCK_STMT (labelNode env BB :: children)

/-- The entity `visitSILModule` hands to the instance once `visitSILFunction`
has returned with visitor `V`. -/
def finalizedEntity (V : InstructionVisitor) : WALACAstEntityInfo :=
  { V.currentEntity with
      CAstSourcePositionRecorder := V.Instance.currentCAstSourcePositionRecorder }

/-- The visitor with which `visitSILModule` calls `visitSILFunction`: a new
entity record and a new source position recorder. -/
def functionStart (V : InstructionVisitor) : InstructionVisitor :=
  { V with currentEntity := WALACAstEntityInfo.fresh,
           Instance := V.Instance.createCAstSourcePositionRecorder }

/-- The identity and declared type of the symbol an instruction creates when
its member returns (allocations and indexed addressing), none otherwise. -/
def createdSymbols : SILInst → List (ValueId × String)
  | SILInst.AllocStackInst R t => [(R, t)]
  | SILInst.AllocRefInst R t => [(R, t)]
  | SILInst.AllocRefDynamicInst R t => [(R, t)]
  | SILInst.AllocBoxInst R t => [(R, t)]
  | SILInst.IndexAddrInst R _ _ t => [(R, t)]
  | SILInst.TailAddrInst R _ _ t => [(R, t)]
  | _ => []

/-- The identities and types of the symbols created while a block is
translated, in creation order. -/
def blockCreatedSymbols (BB : SILBasicBlock) : List (ValueId × String) :=
  (BB.instructions.map (fun I => createdSymbols I.inst)).flatten

/-- Whether the member of an instruction may change the binding of the key:
an allocation or an indexed addressing instruction creates a binding for its
result, a scope termination removes the binding of its operand, and
copy_block_without_escaping removes the binding of its second operand. -/
def writesBinding : SILInst → ValueId → Bool
  | SILInst.AllocStackInst R _, key => decide (R = key)
  | SILInst.AllocRefInst R _, key => decide (R = key)
  | SILInst.AllocRefDynamicInst R _, key => decide (R = key)
  | SILInst.AllocBoxInst R _, key => decide (R = key)
  | SILInst.IndexAddrInst R _ _ _, key => decide (R = key)
  | SILInst.TailAddrInst R _ _ _, key => decide (R = key)
  | SILInst.DeallocStackInst X, key => decide (X = key)
  | SILInst.DeallocBoxInst X, key => decide (X = key)
  | SILInst.DeallocRefInst X, key => decide (X = key)
  | SILInst.DeallocPartialRefInst X _, key => decide (X = key)
  | SILInst.DeallocValueBufferInst X, key => decide (X = key)
  | SILInst.EndBorrowInst X, key => decide (X = key)
  | SILInst.DestroyAddrInst X, key => decide (X = key)
  | SILInst.EndAccessInst X, key => decide (X = key)
  | SILInst.EndUnpairedAccessInst X, key => decide (X = key)
  | SILInst.EndLifetimeInst X, key => decide (X = key)
  | SILInst.CopyBlockWithoutEscapingInst _ _ X, key => decide (X = key)
  | _, _ => false

/-- Whether translating the function may change the binding of the key: one
of its named arguments has that identity, or one of its instructions may
change the binding. -/
def functionWritesBinding (F : SILFunction) (key : ValueId) : Bool :=
  (namedArguments F).any (fun arg => decide (arg.value = key)) ||
    F.blocks.any (fun BB => BB.instructions.any (fun I => writesBinding I.inst key))

/-- The outcome with the value table and the node list of its visitor put
into the visitor `W`, every other member taken from `W`. -/
def Outcome.rebase {α : Type} (W : InstructionVisitor) : Outcome α → Outcome α
  | Outcome.ok a U => Outcome.ok a { W with valueTable := U.valueTable, nodeList := U.nodeList }
  | Outcome.fatal cause U =>
    Outcome.fatal cause { W with valueTable := U.valueTable, nodeList := U.nodeList }

/-- Two visitors agree on every member the instruction loop of a block reads:
all but the instruction info, the module and function info and the entities
already handed to the instance. -/
def SameBlockState (V W : InstructionVisitor) : Prop :=
  V.valueTable = W.valueTable ∧
  V.nodeList = W.nodeList ∧
  V.InstructionCounter = W.InstructionCounter ∧
  V.currentEntity = W.currentEntity ∧
  V.blockStmtList = W.blockStmtList ∧
  V.Instance.currentCAstSourcePositionRecorder = W.Instance.currentCAstSourcePositionRecorder

/-- Two visitors agree on every member a block translation reads before it
resets it: the bindings, the current entity, the block statement list and
the source position recorder. -/
def SameFunctionState (V W : InstructionVisitor) : Prop :=
  V.valueTable.symbols = W.valueTable.symbols ∧
  V.currentEntity = W.currentEntity ∧
  V.blockStmtList = W.blockStmtList ∧
  V.Instance.currentCAstSourcePositionRecorder = W.Instance.currentCAstSourcePositionRecorder

/-- Two outcomes agree: both return the same value with visitors related by
`R`, or both abort for the same cause. -/
def OutcomeAgree {α : Type} (R : InstructionVisitor → InstructionVisitor → Prop) :
    Outcome α → Outcome α → Prop
  | Outcome.ok a V, Outcome.ok b W => a = b ∧ R V W
  | Outcome.fatal c _, Outcome.fatal d _ => c = d
  | _, _ => False

/-- A module whose only function has one block with an apply and a br. -/
def exampleCallModule : SILModule :=
  { moduleFilename := "call.swift",
    functions :=
      [exampleFunction "caller"
        [{ debugID := 0,
           instructions := [exampleInstruction SILInst.ApplyInst,
                            exampleInstruction SILInst.BranchInst] }]] }

/-- A function located at lines 3 to 5 whose first argument, at identity `a`,
is declared with the name `x` and whose second argument has no declaration;
its single block only returns. -/
def exampleParamFunctionAt (a : ValueId) : SILFunction :=
  { name := "f",
    location := some { Start := some (3, 1), End := some (5, 2) },
    arguments := [{ value := a, decl := some { name := some "x" }, type := "Int" },
                  { value := a + 1, decl := none, type := "Bool" }],
    loweredResults := ["Int"],
    blocks := [{ debugID := 0, instructions := [exampleInstruction SILInst.ReturnInst] }] }

/-- The module of `exampleParamFunctionAt a` alone. -/
def exampleParamModuleAt (a : ValueId) : SILModule :=
  { moduleFilename := "param.swift", functions := [exampleParamFunctionAt a] }

/-- A module whose only function has one named argument, at identity 7, and one
block without instructions. -/
def exampleInstructionlessModule : SILModule :=
  { moduleFilename := "h.swift",
    functions :=
      [{ name := "h", location := none,
         arguments := [{ value := 7, decl := some { name := some "p" }, type := "Int" }],
         loweredResults := [],
         blocks := [{ debugID := 0, instructions := [] }] }] }

/-! ## Definitions for the node list, source position and abort claims -/

/-- Whether the instruction loop of `visitSILBasicBlock` pushes the node a
member returned: it does unless the node is EMPTY and `SWAN_ADD_EMPTY_NODES`
is off. -/
def keepsNode (env : Env) (Node : CAstNode) : Bool :=
  !(!env.SWAN_ADD_EMPTY_NODES && getKind Node == CAstKind.EMPTY)

/-- The visitor with which the instruction loop of `visitSILBasicBlock`
starts: counter at zero, pending declarations and node list emptied. -/
def blockEntry (V : InstructionVisitor) : InstructionVisitor :=
  { V with InstructionCounter := 0,
           valueTable := V.valueTable.clearNodes.clearDeclNodes,
           nodeList := [] }

/-- The visitor after the instruction loop has handled the node `Node` that
`visit` returned with visitor `V1`: pushed and entered in the source position
recorder when it is kept, nothing otherwise. -/
def afterNode (env : Env) (Node : CAstNode) (V1 : InstructionVisitor) : InstructionVisitor :=
  if keepsNode env Node then
    { V1 with nodeList := V1.nodeList ++ [Node],
              Instance := V1.Instance.addSourceInfo Node V1.instrInfo }
  else V1

/-- The instructions of a run of the instruction loop from visitor `V`, each
with the node the dispatcher returned for it, in instruction order; the run
ends at the first abort. -/
def visitedNodes (env : Env) :
    List SILInstruction → InstructionVisitor → List (SILInstruction × CAstNode)
  | [], _ => []
  | I :: rest, V =>
    match visit env I V with
    | Outcome.fatal _ _ => []
    | Outcome.ok Node V1 => (I, Node) :: visitedNodes env rest (afterNode env Node V1)

/-- Whether the instruction is a mark_function_escape. -/
def isMarkFunctionEscape : SILInst → Bool
  | SILInst.MarkFunctionEscapeInst _ _ => true
  | _ => false

/-- The ASSIGN nodes mark_function_escape makes for the operands `ops` and
the result `dest` under table `T`: one per operand whose lookup and the
lookup of the result succeed, in operand order. -/
def escapeAssigns (T : ValueTable) (dest : ValueId) (ops : List ValueId) : List CAstNode :=
  ops.filterMap (fun src =>
    match T.get src, T.get dest with
    | some srcNode, some destNode => some (makeNode CAstKind.ASSIGN [srcNode, destNode])
    | _, _ => none)

/-- The nodes the member of an instruction pushes to `nodeList` itself when it
returns from visitor `V`: the ASSIGN nodes of a mark_function_escape, nothing
for any other instruction. -/
def pushedNodes (I : SILInstruction) (V : InstructionVisitor) : List CAstNode :=
  match I.inst with
  | SILInst.MarkFunctionEscapeInst dest ops => escapeAssigns V.valueTable dest ops
  | _ => []

/-- The nodes a run of the instruction loop from visitor `V` adds to
`nodeList`, instruction by instruction: the nodes the member pushed itself,
then the node it returned when that node is kept. -/
def emittedNodes (env : Env) : List SILInstruction → InstructionVisitor → List CAstNode
  | [], _ => []
  | I :: rest, V =>
    match visit env I V with
    | Outcome.fatal _ _ => []
    | Outcome.ok Node V1 =>
      pushedNodes I V ++ (if keepsNode env Node then [Node] else []) ++
        emittedNodes env rest (afterNode env Node V1)

/-- The source position `addSourceInfo` derives from an instruction info. -/
def sourcePositionOf (info : SILInstructionInfo) : Position :=
  makeLocation (coordinate info.startLine) (coordinate info.startCol)
    (coordinate info.endLine) (coordinate info.endCol)

/-- The source position of an instruction as the side table gets it: line and
column of the valid ends of its range, the sentinel `-1` for each coordinate of
an invalid end, and the sentinel (-1,-1,-1,-1) when the location is null. -/
def instructionPosition (I : SILInstruction) : Position :=
  match I.loc with
  | none => makeLocation (-1) (-1) (-1) (-1)
  | some srcRange =>
    makeLocation (coordinate (srcRange.Start.map Prod.fst))
      (coordinate (srcRange.Start.map Prod.snd))
      (coordinate (srcRange.End.map Prod.fst))
      (coordinate (srcRange.End.map Prod.snd))

/-- The entries a run of the instruction loop from visitor `V` adds to the
source position recorder: one per kept returned node, with the position of its
instruction. -/
def recordedEntries (env : Env) (insts : List SILInstruction) (V : InstructionVisitor) :
    List (CAstNode × Position) :=
  ((visitedNodes env insts V).filter (fun p => keepsNode env p.2)).map
    (fun p => (p.2, instructionPosition p.1))

/-- The rebind instructions whose destination is the result `self` of the
instruction itself, with operand `operand`: load, load_borrow, begin_access,
mark_uninitialized, project_box, project_value_buffer, alloc_value_buffer,
load_unowned, mark_dependence, is_unique, is_escaping_closure, copy_block and
index_raw_pointer. -/
def resultRebindInsts (self operand : ValueId) : List SILInst :=
  [SILInst.LoadInst self operand, SILInst.LoadBorrowInst self operand,
   SILInst.BeginAccessInst self operand, SILInst.MarkUninitializedInst self operand,
   SILInst.ProjectBoxInst self operand, SILInst.ProjectValueBufferInst self operand,
   SILInst.AllocValueBufferInst self operand, SILInst.LoadUnownedInst self operand,
   SILInst.MarkDependenceInst self operand, SILInst.IsUniqueInst self operand,
   SILInst.IsEscapingClosureInst self operand, SILInst.CopyBlockInst self operand,
   SILInst.IndexRawPointerInst self operand]

/-- A function whose only argument, at identity 5, is declared with the name
`x`, and whose single block allocates a stack slot at identity 1. -/
def exampleParamAllocFunction : SILFunction :=
  { name := "f",
    location := none,
    arguments := [{ value := 5, decl := some { name := some "x" }, type := "Int" }],
    loweredResults := ["Int"],
    blocks := [{ debugID := 0,
                 instructions := [exampleInstruction (SILInst.AllocStackInst 1 "Int")] }] }

/-- A load of identity 1 into its result 2 whose range has an invalid start
and a valid end at line 7, column 3. -/
def exampleEndOnlyInstruction : SILInstruction :=
  { inst := SILInst.LoadInst 2 1, loc := some { Start := none, End := some (7, 3) },
    Filename := "a.swift", memBehavior := MemoryBehavior.None,
    relBehavior := ReleasingBehavior.DoesNotRelease }

/-! ## Definitions for the claims about real inputs and about the visits of a run -/

/-- The visits the instruction loop makes on the given instructions from
visitor `V`, in order: each instruction with the visitor `visit` is called on.
The list ends with the first visit that aborts. -/
def blockVisits (env : Env) :
    List SILInstruction → InstructionVisitor → List (SILInstruction × InstructionVisitor)
  | [], _ => []
  | I :: rest, V =>
    (I, V) ::
      match visit env I V with
      | Outcome.fatal _ _ => []
      | Outcome.ok Node V1 => blockVisits env rest (afterNode env Node V1)

/-- The visits the block loop of `visitSILFunction` makes on the given blocks
from visitor `V`, in order, up to the first abort. -/
def functionVisits (env : Env) :
    List SILBasicBlock → InstructionVisitor → List (SILInstruction × InstructionVisitor)
  | [], _ => []
  | BB :: rest, V =>
    blockVisits env BB.instructions (blockEntry V) ++
      match visitSILBasicBlock env BB V with
      | Outcome.fatal _ _ => []
      | Outcome.ok _ V1 => functionVisits env rest V1

/-- The visits the function loop of `visitSILModule` makes on the given
functions from visitor `V`, in order, up to the first abort: none for a
function it skips. -/
def moduleVisits.loop (env : Env) :
    List SILFunction → InstructionVisitor → List (SILInstruction × InstructionVisitor)
  | [], _ => []
  | F :: rest, V =>
    if env.demangleSymbolAsString F.name ∈ env.builtinFunctions then
      moduleVisits.loop env rest V
    else if F.empty then moduleVisits.loop env rest V
    else
      functionVisits env F.blocks (functionEntry env F (functionStart V)) ++
        match visitSILFunction env F (functionStart V) with
        | Outcome.fatal _ _ => []
        | Outcome.ok _ V2 =>
          moduleVisits.loop env rest
            { V2 with currentEntity := finalizedEntity V2,
                      Instance := V2.Instance.addCAstEntityInfo (finalizedEntity V2) }

/-- The visits of instructions a run of `visitSILModule` makes, in order, up to
the first abort. -/
def moduleVisits (env : Env) (M : SILModule) (V : InstructionVisitor) :
    List (SILInstruction × InstructionVisitor) :=
  moduleVisits.loop env M.functions
    { V with moduleInfo := M.moduleFilename, valueTable := ValueTable.fresh }

theorem eraseSymbol_cons (key k : ValueId) (n : CAstNode) (rest : List (ValueId × CAstNode)) :
    eraseSymbol key ((k, n) :: rest) =
      if k = key then eraseSymbol key rest else (k, n) :: eraseSymbol key rest := by
  by_cases h : k = key <;> simp [eraseSymbol, List.filter_cons, h]

theorem lookupSymbol_cons (key k : ValueId) (n : CAstNode) (rest : List (ValueId × CAstNode)) :
    lookupSymbol key ((k, n) :: rest) = if k = key then some n else lookupSymbol key rest := rfl

theorem lookupSymbol_eraseSymbol_self (key : ValueId) (l : List (ValueId × CAstNode)) :
    lookupSymbol key (eraseSymbol key l) = none := by
  induction l with
  | nil => rfl
  | cons e rest ih =>
    obtain ⟨k, n⟩ := e
    rw [eraseSymbol_cons]
    by_cases h : k = key
    · rw [if_pos h]; exact ih
    · rw [if_neg h, lookupSymbol_cons, if_neg h]; exact ih

theorem lookupSymbol_eraseSymbol_other (key k : ValueId) (hk : k ≠ key)
    (l : List (ValueId × CAstNode)) :
    lookupSymbol k (eraseSymbol key l) = lookupSymbol k l := by
  induction l with
  | nil => rfl
  | cons e rest ih =>
    obtain ⟨k1, n⟩ := e
    rw [eraseSymbol_cons, lookupSymbol_cons]
    by_cases h : k1 = key
    · have h1 : ¬ k1 = k := fun hh => hk (hh ▸ h)
      rw [if_pos h, if_neg h1]; exact ih
    · rw [if_neg h, lookupSymbol_cons]
      by_cases h2 : k1 = k
      · rw [if_pos h2, if_pos h2]
      · rw [if_neg h2, if_neg h2]; exact ih

theorem eraseSymbol_of_lookupSymbol_none (key : ValueId) (l : List (ValueId × CAstNode))
    (h : lookupSymbol key l = none) : eraseSymbol key l = l := by
  induction l with
  | nil => rfl
  | cons e rest ih =>
    obtain ⟨k, n⟩ := e
    rw [lookupSymbol_cons] at h
    rw [eraseSymbol_cons]
    by_cases hk : k = key
    · rw [if_pos hk] at h; exact absurd h (by simp)
    · rw [if_neg hk] at h
      rw [if_neg hk, ih h]

theorem eraseSymbol_idem (key : ValueId) (l : List (ValueId × CAstNode)) :
    eraseSymbol key (eraseSymbol key l) = eraseSymbol key l :=
  eraseSymbol_of_lookupSymbol_none key _ (lookupSymbol_eraseSymbol_self key l)

/-! value table level -/

theorem ValueTable.get_createAndAddSymbol_self (env : Env) (T : ValueTable) (key : ValueId)
    (type : String) :
    (T.createAndAddSymbol env key type).get key = some (makeSymbol env key type) := by
  simp [ValueTable.get, ValueTable.createAndAddSymbol, lookupSymbol_cons]

theorem ValueTable.get_createAndAddSymbol_other (env : Env) (T : ValueTable) (key k : ValueId)
    (type : String) (hk : k ≠ key) :
    (T.createAndAddSymbol env key type).get k = T.get k := by
  have h : ¬ key = k := fun hh => hk hh.symm
  simp only [ValueTable.get, ValueTable.createAndAddSymbol, lookupSymbol_cons, if_neg h]
  exact lookupSymbol_eraseSymbol_other key k hk T.symbols

theorem ValueTable.tryRemove_declNodes (T : ValueTable) (key : ValueId) :
    (T.tryRemove key).2.declNodes = T.declNodes := by
  unfold ValueTable.tryRemove
  split <;> rfl

theorem ValueTable.tryRemove_symbols (T : ValueTable) (key : ValueId) :
    (T.tryRemove key).2.symbols = eraseSymbol key T.symbols := by
  unfold ValueTable.tryRemove
  split
  · rfl
  · next h => exact (eraseSymbol_of_lookupSymbol_none key T.symbols h).symm

theorem ValueTable.get_tryRemove_self (T : ValueTable) (key : ValueId) :
    (T.tryRemove key).2.get key = none := by
  simp only [ValueTable.get, ValueTable.tryRemove_symbols]
  exact lookupSymbol_eraseSymbol_self key T.symbols

theorem ValueTable.get_tryRemove_other (T : ValueTable) (key k : ValueId) (hk : k ≠ key) :
    (T.tryRemove key).2.get k = T.get k := by
  simp only [ValueTable.get, ValueTable.tryRemove_symbols]
  exact lookupSymbol_eraseSymbol_other key k hk T.symbols

theorem ValueTable.tryRemove_of_unbound (T : ValueTable) (key : ValueId)
    (h : T.get key = none) : T.tryRemove key = (false, T) := by
  unfold ValueTable.tryRemove
  rw [h]

theorem ValueTable.tryRemove_twice (T : ValueTable) (key : ValueId) :
    ((T.tryRemove key).2.tryRemove key).2 = (T.tryRemove key).2 := by
  rw [ValueTable.tryRemove_of_unbound _ key (ValueTable.get_tryRemove_self T key)]


theorem frame_refl (V : InstructionVisitor) : Frame V V :=
  ⟨rfl, rfl, rfl, rfl, rfl, ⟨[], by simp, by simp⟩, ⟨[], by simp, by simp⟩⟩

theorem frame_trans {U V W : InstructionVisitor} (h1 : Frame U V) (h2 : Frame V W) :
    Frame U W := by
  obtain ⟨a1, b1, c1, d1, e1, ⟨n1, hn1, kn1⟩, ⟨x1, hx1, kx1⟩⟩ := h1
  obtain ⟨a2, b2, c2, d2, e2, ⟨n2, hn2, kn2⟩, ⟨x2, hx2, kx2⟩⟩ := h2
  refine ⟨a2.trans a1, b2.trans b1, c2.trans c1, d2.trans d1, e2.trans e1,
    ⟨n1 ++ n2, ?_, ?_⟩, ⟨x1 ++ x2, ?_, ?_⟩⟩
  · rw [hn2, hn1, List.append_assoc]
  · intro n hn
    rcases List.mem_append.mp hn with h | h
    · exact kn1 n h
    · exact kn2 n h
  · rw [hx2, hx1, List.append_assoc]
  · intro d hd
    rcases List.mem_append.mp hd with h | h
    · exact kx1 d h
    · exact kx2 d h

theorem frame_beforeVisit (I : SILInstruction) (V : InstructionVisitor) :
    Frame V (beforeVisit I V) :=
  ⟨rfl, rfl, rfl, rfl, rfl, ⟨[], by simp [beforeVisit], by simp⟩,
    ⟨[], by simp [beforeVisit], by simp⟩⟩

theorem frame_createAndAddSymbol (env : Env) (V : InstructionVisitor) (key : ValueId)
    (type : String) :
    Frame V { V with valueTable := V.valueTable.createAndAddSymbol env key type } :=
  ⟨rfl, rfl, rfl, rfl, rfl, ⟨[], by simp, by simp⟩,
    ⟨[makeDecl (makeSymbol env key type)], rfl, by simp [makeDecl, makeNode, getKind]⟩⟩

theorem frame_tryRemove (V : InstructionVisitor) (key : ValueId) :
    Frame V { V with valueTable := (V.valueTable.tryRemove key).2 } := by
  refine ⟨rfl, rfl, rfl, rfl, rfl, ⟨[], by simp, by simp⟩, ⟨[], ?_, by simp⟩⟩
  unfold ValueTable.tryRemove
  split <;> simp

theorem frame_pushNode (V : InstructionVisitor) (Node : CAstNode)
    (h : getKind Node ≠ CAstKind.DECL_STMT) :
    Frame V { V with nodeList := V.nodeList ++ [Node],
                     Instance := V.Instance.addSourceInfo Node V.instrInfo } :=
  ⟨rfl, rfl, rfl, rfl, rfl, ⟨[Node], rfl, by simpa using h⟩, ⟨[], by simp, by simp⟩⟩

theorem frame_markFunctionEscapeLoop (dest : ValueId) (ops : List ValueId)
    (V : InstructionVisitor) :
    Frame V (visitMarkFunctionEscapeInst.loop dest ops V).visitor := by
  induction ops generalizing V with
  | nil => exact frame_refl V
  | cons src rest ih =>
    unfold visitMarkFunctionEscapeInst.loop
    split
    · next srcNode destNode _ _ =>
      refine frame_trans ?_ (ih _)
      exact ⟨rfl, rfl, rfl, rfl, rfl,
        ⟨[makeNode CAstKind.ASSIGN [srcNode, destNode]], rfl, by simp [makeNode, getKind]⟩,
        ⟨[], by simp, by simp⟩⟩
    · exact frame_refl V

theorem frame_dispatch (env : Env) (inst : SILInst) (V : InstructionVisitor) :
    Frame V (dispatch env inst V).visitor := by
  cases inst
  case AssignByWrapperInst a b c d =>
    simp only [dispatch, visitAssignByWrapperInst]
    repeat' split
    all_goals exact frame_refl V
  case MarkFunctionEscapeInst dest ops =>
    have h := frame_markFunctionEscapeLoop dest ops V
    simp only [dispatch, visitMarkFunctionEscapeInst]
    split <;> next heq => rw [heq] at h; exact h
  case IndexAddrInst R base index t =>
    simp only [dispatch, visitIndexAddrInst]
    repeat' split
    all_goals first
      | exact frame_refl V
      | exact frame_createAndAddSymbol env V R t
  case TailAddrInst R base index t =>
    simp only [dispatch, visitTailAddrInst]
    repeat' split
    all_goals first
      | exact frame_refl V
      | exact frame_createAndAddSymbol env V R t
  case CopyBlockWithoutEscapingInst self op0 op1 =>
    simp only [dispatch, visitCopyBlockWithoutEscapingInst]
    split <;> exact frame_tryRemove V op1
  all_goals first
    | exact frame_refl V
    | exact frame_createAndAddSymbol env V _ _
    | exact frame_tryRemove V _
    | (simp only [dispatch, visitAllocValueBufferInst, visitProjectBoxInst,
        visitProjectValueBufferInst, visitLoadInst, visitStoreInst, visitLoadBorrowInst,
        visitAssignInst, visitMarkUninitializedInst, visitCopyAddrInst,
        visitIndexRawPointerInst, visitBeginAccessInst, visitBeginUnpairedAccessInst,
        visitStoreWeakInst, visitLoadUnownedInst, visitStoreUnownedInst,
        visitMarkDependenceInst, visitIsUniqueInst, visitIsEscapingClosureInst,
        visitCopyBlockInst]
       split <;> exact frame_refl V)


theorem dispatch_value_kind (env : Env) (inst : SILInst) (V V' : InstructionVisitor)
    (n : CAstNode) (h : dispatch env inst V = Outcome.ok n V') :
    getKind n = CAstKind.EMPTY ∨ getKind n = CAstKind.ASSIGN ∨
      getKind n = CAstKind.IF_STMT := by
  cases inst
  case AssignByWrapperInst a b c d =>
    simp only [dispatch, visitAssignByWrapperInst] at h
    repeat' split at h
    all_goals first
      | exact Outcome.noConfusion h
      | (injection h with h1 h2; subst h1; exact Or.inr (Or.inr rfl))
  case MarkFunctionEscapeInst dest ops =>
    simp only [dispatch, visitMarkFunctionEscapeInst] at h
    split at h
    · exact Outcome.noConfusion h
    · injection h with h1 h2; subst h1; exact Or.inl rfl
  case IndexAddrInst R base index t =>
    simp only [dispatch, visitIndexAddrInst] at h
    repeat' split at h
    all_goals first
      | exact Outcome.noConfusion h
      | (injection h with h1 h2; subst h1; exact Or.inr (Or.inl rfl))
  case TailAddrInst R base index t =>
    simp only [dispatch, visitTailAddrInst] at h
    repeat' split at h
    all_goals first
      | exact Outcome.noConfusion h
      | (injection h with h1 h2; subst h1; exact Or.inr (Or.inl rfl))
  case CopyBlockWithoutEscapingInst self op0 op1 =>
    simp only [dispatch, visitCopyBlockWithoutEscapingInst] at h
    split at h
    · injection h with h1 h2; subst h1; exact Or.inr (Or.inl rfl)
    · exact Outcome.noConfusion h
  all_goals first
    | (injection h with h1 h2; subst h1; exact Or.inl rfl)
    | (simp only [dispatch, visitAllocValueBufferInst, visitProjectBoxInst,
        visitProjectValueBufferInst, visitLoadInst, visitStoreInst, visitLoadBorrowInst,
        visitAssignInst, visitMarkUninitializedInst, visitCopyAddrInst,
        visitIndexRawPointerInst, visitBeginAccessInst, visitBeginUnpairedAccessInst,
        visitStoreWeakInst, visitLoadUnownedInst, visitStoreUnownedInst,
        visitMarkDependenceInst, visitIsUniqueInst, visitIsEscapingClosureInst,
        visitCopyBlockInst] at h
       split at h
       · injection h with h1 h2; subst h1; exact Or.inr (Or.inl rfl)
       · exact Outcome.noConfusion h)

theorem visit_value_not_decl (env : Env) (I : SILInstruction) (V V' : InstructionVisitor)
    (n : CAstNode) (h : visit env I V = Outcome.ok n V') :
    getKind n ≠ CAstKind.DECL_STMT := by
  rcases dispatch_value_kind env I.inst (beforeVisit I V) V' n h with h1 | h1 | h1 <;>
    rw [h1] <;> decide

theorem frame_visit (env : Env) (I : SILInstruction) (V : InstructionVisitor) :
    Frame V (visit env I V).visitor :=
  frame_trans (frame_beforeVisit I V) (frame_dispatch env I.inst (beforeVisit I V))

theorem frame_blockLoop (env : Env) (insts : List SILInstruction) (V : InstructionVisitor) :
    Frame V (visitSILBasicBlock.loop env insts V).visitor := by
  induction insts generalizing V with
  | nil => exact frame_refl V
  | cons I rest ih =>
    have hv := frame_visit env I V
    unfold visitSILBasicBlock.loop
    split
    · next cause V1 heq => rw [heq] at hv; exact hv
    · next Node V1 heq =>
      rw [heq] at hv
      have hk := visit_value_not_decl env I V V1 Node heq
      split
      · exact frame_trans hv (ih V1)
      · exact frame_trans hv (frame_trans (frame_pushNode V1 Node hk) (ih _))

theorem addDeclNodes_eq (decls : List CAstNode) (V : InstructionVisitor) :
    visitSILBasicBlock.addDeclNodes decls V =
      { V with nodeList := decls.reverse ++ V.nodeList,
               currentEntity :=
                 { V.currentEntity with declNodes := V.currentEntity.declNodes ++ decls } } := by
  induction decls generalizing V with
  | nil => simp [visitSILBasicBlock.addDeclNodes]
  | cons d rest ih =>
    rw [visitSILBasicBlock.addDeclNodes, ih]
    simp

/-- The exact shape of a successful run of `visitSILBasicBlock`. -/
theorem visitSILBasicBlock_ok (env : Env) (BB : SILBasicBlock) (V V' : InstructionVisitor)
    (h : visitSILBasicBlock env BB V = Outcome.ok () V') :
    ∃ V1, visitSILBasicBlock.loop env BB.instructions
        { V with InstructionCounter := 0,
                 valueTable := V.valueTable.clearNodes.clearDeclNodes,
                 nodeList := [] } = Outcome.ok () V1 ∧
      V' = { V1 with
        nodeList := makeNode CAstKind.LABEL_STMT [makeConstant (env.labelBasicBlock BB)] ::
          (V1.valueTable.getDeclNodes.reverse ++ V1.nodeList),
        blockStmtList := V1.blockStmtList ++ [makeNode CAstKind.BLOCK_STMT
          (makeNode CAstKind.LABEL_STMT [makeConstant (env.labelBasicBlock BB)] ::
            (V1.valueTable.getDeclNodes.reverse ++ V1.nodeList))],
        currentEntity := { V1.currentEntity with
          declNodes := V1.currentEntity.declNodes ++ V1.valueTable.getDeclNodes,
          basicBlocks := V1.currentEntity.basicBlocks ++ [makeNode CAstKind.BLOCK_STMT
            (makeNode CAstKind.LABEL_STMT [makeConstant (env.labelBasicBlock BB)] ::
              (V1.valueTable.getDeclNodes.reverse ++ V1.nodeList))] } } := by
  unfold visitSILBasicBlock at h
  simp only at h
  split at h
  · exact Outcome.noConfusion h
  · next u V1 heq =>
    refine ⟨V1, heq, ?_⟩
    injection h with h1 h2
    rw [← h2, addDeclNodes_eq]


theorem dispatch_declNodes (env : Env) (inst : SILInst) (V V' : InstructionVisitor)
    (n : CAstNode) (h : dispatch env inst V = Outcome.ok n V') :
    V'.valueTable.declNodes = V.valueTable.declNodes ++ createdDecls env inst := by
  cases inst
  case AssignByWrapperInst a b c d =>
    simp only [dispatch, visitAssignByWrapperInst] at h
    repeat' split at h
    all_goals first
      | exact Outcome.noConfusion h
      | (injection h with h1 h2; subst h2; simp [createdDecls])
  case MarkFunctionEscapeInst dest ops =>
    simp only [dispatch, visitMarkFunctionEscapeInst] at h
    split at h
    · exact Outcome.noConfusion h
    · next u V1 heq =>
      injection h with h1 h2
      subst h2
      have : ∀ (ops : List ValueId) (W W1 : InstructionVisitor) (u : Unit),
          visitMarkFunctionEscapeInst.loop dest ops W = Outcome.ok u W1 →
          W1.valueTable = W.valueTable := by
        intro ops
        induction ops with
        | nil =>
          intro W W1 u hh
          simp only [visitMarkFunctionEscapeInst.loop] at hh
          injection hh with _ h2
          rw [← h2]
        | cons o rest ih =>
          intro W W1 u hh
          simp only [visitMarkFunctionEscapeInst.loop] at hh
          split at hh
          · have hrec := ih _ _ _ hh
            exact hrec
          · exact Outcome.noConfusion hh
      rw [this ops V _ u heq]
      simp [createdDecls]
  case IndexAddrInst R base index t =>
    simp only [dispatch, visitIndexAddrInst] at h
    repeat' split at h
    all_goals first
      | exact Outcome.noConfusion h
      | (injection h with h1 h2; subst h2; rfl)
  case TailAddrInst R base index t =>
    simp only [dispatch, visitTailAddrInst] at h
    repeat' split at h
    all_goals first
      | exact Outcome.noConfusion h
      | (injection h with h1 h2; subst h2; rfl)
  case CopyBlockWithoutEscapingInst self op0 op1 =>
    simp only [dispatch, visitCopyBlockWithoutEscapingInst] at h
    split at h
    · injection h with h1 h2; subst h2
      simp [createdDecls, ValueTable.tryRemove_declNodes]
    · exact Outcome.noConfusion h
  all_goals first
    | (injection h with h1 h2; subst h2; rfl)
    | (injection h with h1 h2; subst h2
       simp [createdDecls, ValueTable.tryRemove_declNodes])
    | (simp only [dispatch, visitAllocValueBufferInst, visitProjectBoxInst,
        visitProjectValueBufferInst, visitLoadInst, visitStoreInst, visitLoadBorrowInst,
        visitAssignInst, visitMarkUninitializedInst, visitCopyAddrInst,
        visitIndexRawPointerInst, visitBeginAccessInst, visitBeginUnpairedAccessInst,
        visitStoreWeakInst, visitLoadUnownedInst, visitStoreUnownedInst,
        visitMarkDependenceInst, visitIsUniqueInst, visitIsEscapingClosureInst,
        visitCopyBlockInst] at h
       split at h
       · injection h with h1 h2; subst h2; simp [createdDecls]
       · exact Outcome.noConfusion h)

theorem blockLoop_declNodes (env : Env) (insts : List SILInstruction)
    (V V' : InstructionVisitor) (u : Unit)
    (h : visitSILBasicBlock.loop env insts V = Outcome.ok u V') :
    V'.valueTable.declNodes =
      V.valueTable.declNodes ++ (insts.map (fun I => createdDecls env I.inst)).flatten := by
  induction insts generalizing V with
  | nil =>
    simp only [visitSILBasicBlock.loop] at h
    injection h with _ h2
    subst h2
    simp
  | cons I rest ih =>
    simp only [visitSILBasicBlock.loop] at h
    split at h
    · exact Outcome.noConfusion h
    · next Node V1 heq =>
      have hd := dispatch_declNodes env I.inst (beforeVisit I V) V1 Node heq
      have hd' : V1.valueTable.declNodes = V.valueTable.declNodes ++ createdDecls env I.inst := hd
      split at h
      · rw [ih V1 h, hd']; simp
      · rw [ih _ h]
        show V1.valueTable.declNodes ++ _ = _
        rw [hd']; simp


theorem beforeVisit_valueTable (I : SILInstruction) (V : InstructionVisitor) :
    (beforeVisit I V).valueTable = V.valueTable := rfl

theorem beforeVisit_nodeList (I : SILInstruction) (V : InstructionVisitor) :
    (beforeVisit I V).nodeList = V.nodeList := rfl

theorem beforeVisit_blockStmtList (I : SILInstruction) (V : InstructionVisitor) :
    (beforeVisit I V).blockStmtList = V.blockStmtList := rfl

theorem beforeVisit_currentEntity (I : SILInstruction) (V : InstructionVisitor) :
    (beforeVisit I V).currentEntity = V.currentEntity := rfl

theorem beforeVisit_Instance (I : SILInstruction) (V : InstructionVisitor) :
    (beforeVisit I V).Instance = V.Instance := rfl

theorem arguments_keeps_entities_and_name (env : Env) (argPosition : Option Position)
    (args : List SILArgument) (V : InstructionVisitor) :
    (visitSILFunction.arguments env argPosition args V).Instance = V.Instance ∧
      (visitSILFunction.arguments env argPosition args V).currentEntity.functionName =
        V.currentEntity.functionName := by
  induction args generalizing V with
  | nil => exact ⟨rfl, rfl⟩
  | cons arg rest ih =>
    unfold visitSILFunction.arguments
    split
    · split
      · exact ih _
      · exact ih V
    · exact ih V

theorem visitSILBasicBlock_keeps_entities_and_name (env : Env) (BB : SILBasicBlock)
    (V : InstructionVisitor) :
    (visitSILBasicBlock env BB V).visitor.Instance.castEntities = V.Instance.castEntities ∧
      (visitSILBasicBlock env BB V).visitor.currentEntity.functionName =
        V.currentEntity.functionName := by
  have hf := frame_blockLoop env BB.instructions
    { V with InstructionCounter := 0,
             valueTable := V.valueTable.clearNodes.clearDeclNodes,
             nodeList := [] }
  unfold visitSILBasicBlock
  simp only
  split
  · next cause V1 heq =>
    rw [heq] at hf
    obtain ⟨h1, h2, _⟩ := hf
    exact ⟨h1, congrArg WALACAstEntityInfo.functionName h2⟩
  · next u V1 heq =>
    rw [heq] at hf
    obtain ⟨h1, h2, _⟩ := hf
    rw [addDeclNodes_eq]
    have h1' : V1.Instance.castEntities = V.Instance.castEntities := h1
    have h2' : V1.currentEntity = V.currentEntity := h2
    refine ⟨h1', ?_⟩
    show V1.currentEntity.functionName = V.currentEntity.functionName
    rw [h2']

theorem blocks_keeps_entities_and_name (env : Env) (blocks : List SILBasicBlock)
    (V : InstructionVisitor) :
    (visitSILFunction.blocks env blocks V).visitor.Instance.castEntities =
        V.Instance.castEntities ∧
      (visitSILFunction.blocks env blocks V).visitor.currentEntity.functionName =
        V.currentEntity.functionName := by
  induction blocks generalizing V with
  | nil => exact ⟨rfl, rfl⟩
  | cons BB rest ih =>
    have hb := visitSILBasicBlock_keeps_entities_and_name env BB V
    unfold visitSILFunction.blocks
    split
    · next cause V1 heq => rw [heq] at hb; exact hb
    · next u V1 heq =>
      rw [heq] at hb
      obtain ⟨h1, h2⟩ := ih V1
      exact ⟨h1.trans hb.1, h2.trans hb.2⟩

theorem visitSILFunction_entities_and_name (env : Env) (F : SILFunction)
    (V : InstructionVisitor) :
    (visitSILFunction env F V).visitor.Instance.castEntities = V.Instance.castEntities ∧
      (visitSILFunction env F V).visitor.currentEntity.functionName =
        env.demangleSymbolAsString F.name := by
  unfold visitSILFunction
  simp only
  refine ⟨(blocks_keeps_entities_and_name env F.blocks _).1.trans ?_,
    (blocks_keeps_entities_and_name env F.blocks _).2.trans ?_⟩
  · simp only
    rw [(arguments_keeps_entities_and_name env _ F.arguments _).1]
  · simp only
    rw [(arguments_keeps_entities_and_name env _ F.arguments _).2]
    unfold visitSILFunction.positions
    split
    · split <;> rfl
    · rfl

theorem moduleLoop_entities (env : Env) (functions : List SILFunction)
    (V V' : InstructionVisitor) (u : Unit)
    (h : visitSILModule.loop env functions V = Outcome.ok u V') :
    ∃ entities, V'.Instance.castEntities = V.Instance.castEntities ++ entities ∧
      entities.map (fun e => e.functionName) =
        (functions.filter (fun F =>
          decide (env.demangleSymbolAsString F.name ∉ env.builtinFunctions) && !F.empty)).map
          (fun F => env.demangleSymbolAsString F.name) := by
  induction functions generalizing V with
  | nil =>
    simp only [visitSILModule.loop] at h
    injection h with _ h2
    subst h2
    exact ⟨[], by simp, rfl⟩
  | cons F rest ih =>
    simp only [visitSILModule.loop] at h
    by_cases hb : env.demangleSymbolAsString F.name ∈ env.builtinFunctions
    · rw [if_pos hb] at h
      obtain ⟨entities, h1, h2⟩ := ih V h
      exact ⟨entities, h1, by simp [List.filter_cons, hb, h2]⟩
    · rw [if_neg hb] at h
      by_cases he : F.empty = true
      · rw [if_pos he] at h
        obtain ⟨entities, h1, h2⟩ := ih V h
        exact ⟨entities, h1, by simp [List.filter_cons, he, h2]⟩
      · rw [if_neg he] at h
        have hF := visitSILFunction_entities_and_name env F
          { V with currentEntity := WALACAstEntityInfo.fresh,
                   Instance := V.Instance.createCAstSourcePositionRecorder }
        split at h
        · exact Outcome.noConfusion h
        · next u2 V2 heq =>
          rw [heq] at hF
          obtain ⟨hF1, hF2⟩ := hF
          obtain ⟨entities, h1, h2⟩ := ih _ h
          have hF1' : V2.Instance.castEntities = V.Instance.castEntities := hF1
          have hF2' : V2.currentEntity.functionName = env.demangleSymbolAsString F.name := hF2
          refine ⟨{ V2.currentEntity with
              CAstSourcePositionRecorder := V2.Instance.currentCAstSourcePositionRecorder } ::
            entities, ?_, ?_⟩
          · rw [h1]
            show (V2.Instance.castEntities ++ [_]) ++ entities = _
            rw [hF1']
            simp
          · simp [List.filter_cons, hb, he, h2, hF2']


/-- C1. When `visitSILModule` runs to completion, the entities it hands to the
instance are, by function name and in order, exactly the input functions whose
demangled name is outside the builtin filter set and whose body is non-empty,
one entity per such function; if every function is filtered as a builtin, no
entity is handed over. -/
theorem module_entities_are_qualifying_functions (env : Env) (M : SILModule)
    (V V' : InstructionVisitor) (h : visitSILModule env M V = Outcome.ok () V') :
    ∃ entities, V'.Instance.castEntities = V.Instance.castEntities ++ entities ∧
      entities.map (fun e => e.functionName) =
        (qualifyingFunctions env M).map (fun F => env.demangleSymbolAsString F.name) ∧
      entities.length = (qualifyingFunctions env M).length ∧
      ((∀ F ∈ M.functions, env.demangleSymbolAsString F.name ∈ env.builtinFunctions) →
        entities = []) := by
  obtain ⟨entities, h1, h2⟩ := moduleLoop_entities env M.functions _ V' () h
  refine ⟨entities, h1, h2, ?_, ?_⟩
  · have := congrArg List.length h2
    simpa [qualifyingFunctions] using this
  · intro hall
    have hq : qualifyingFunctions env M = [] := by
      simp only [qualifyingFunctions, List.filter_eq_nil_iff]
      intro F hF
      simp [hall F hF]
    have h3 : entities.map (fun e => e.functionName) =
        (qualifyingFunctions env M).map (fun F => env.demangleSymbolAsString F.name) := h2
    rw [hq] at h3
    simpa using h3

/-- Witness for C1: the example module, whose second function is a builtin and
whose third has no body, runs to completion. -/
theorem module_entities_are_qualifying_functions_witness :
    visitSILModule exampleEnv exampleModule (exampleVisitor []) =
        Outcome.ok () (visitSILModule exampleEnv exampleModule (exampleVisitor [])).visitor ∧
      ∃ entities,
        (visitSILModule exampleEnv exampleModule (exampleVisitor [])).visitor.Instance.castEntities
          = (exampleVisitor []).Instance.castEntities ++ entities ∧
        entities.map (fun e => e.functionName) =
          (qualifyingFunctions exampleEnv exampleModule).map
            (fun F => exampleEnv.demangleSymbolAsString F.name) ∧
        entities.length = (qualifyingFunctions exampleEnv exampleModule).length ∧
        ((∀ F ∈ exampleModule.functions,
            exampleEnv.demangleSymbolAsString F.name ∈ exampleEnv.builtinFunctions) →
          entities = []) :=
  ⟨rfl, module_entities_are_qualifying_functions exampleEnv exampleModule
    (exampleVisitor []) _ rfl⟩


/-- C2. The statement a successful `visitSILBasicBlock` appends to the block
list and to the entity is a BLOCK_STMT whose first child is the LABEL_STMT node
over the block's label, followed by declaration nodes, followed by nodes none
of which is a declaration. -/
theorem block_statement_label_decls_then_nodes (env : Env) (BB : SILBasicBlock)
    (V V' : InstructionVisitor) (h : visitSILBasicBlock env BB V = Outcome.ok () V') :
    ∃ decls nodes,
      V'.blockStmtList = V.blockStmtList ++
        [makeNode CAstKind.BLOCK_STMT
          (makeNode CAstKind.LABEL_STMT [makeConstant (env.labelBasicBlock BB)] ::
            (decls ++ nodes))] ∧
      V'.currentEntity.basicBlocks = V.currentEntity.basicBlocks ++
        [makeNode CAstKind.BLOCK_STMT
          (makeNode CAstKind.LABEL_STMT [makeConstant (env.labelBasicBlock BB)] ::
            (decls ++ nodes))] ∧
      (∀ d ∈ decls, getKind d = CAstKind.DECL_STMT) ∧
      (∀ n ∈ nodes, getKind n ≠ CAstKind.DECL_STMT) := by
  obtain ⟨V1, hloop, hV'⟩ := visitSILBasicBlock_ok env BB V V' h
  have hf := frame_blockLoop env BB.instructions
    { V with InstructionCounter := 0,
             valueTable := V.valueTable.clearNodes.clearDeclNodes,
             nodeList := [] }
  rw [hloop] at hf
  obtain ⟨_, hce, hbl, _, _, ⟨nodes, hnodes, knodes⟩, ⟨decls, hdecls, kdecls⟩⟩ := hf
  have hce' : V1.currentEntity = V.currentEntity := hce
  have hbl' : V1.blockStmtList = V.blockStmtList := hbl
  have hn' : V1.nodeList = nodes := by simpa using hnodes
  have hd' : V1.valueTable.getDeclNodes = decls := by
    simpa [ValueTable.getDeclNodes, ValueTable.clearDeclNodes] using hdecls
  refine ⟨decls.reverse, nodes, ?_, ?_, ?_, knodes⟩
  · rw [hV']; simp only; rw [hd', hn', hbl']
  · rw [hV']; simp only; rw [hd', hn', hce']
  · intro d hd
    exact kdecls d (List.mem_reverse.mp hd)

/-- Witness for C2: the block of scenario A translates successfully. -/
theorem block_statement_label_decls_then_nodes_witness :
    ∃ V', visitSILBasicBlock exampleEnv exampleScenarioABlock
        (exampleVisitor [(2, exampleVar "y")]) = Outcome.ok () V' ∧
      ∃ decls nodes,
        V'.blockStmtList = (exampleVisitor [(2, exampleVar "y")]).blockStmtList ++
          [makeNode CAstKind.BLOCK_STMT
            (makeNode CAstKind.LABEL_STMT
              [makeConstant (exampleEnv.labelBasicBlock exampleScenarioABlock)] ::
              (decls ++ nodes))] ∧
        V'.currentEntity.basicBlocks =
          (exampleVisitor [(2, exampleVar "y")]).currentEntity.basicBlocks ++
          [makeNode CAstKind.BLOCK_STMT
            (makeNode CAstKind.LABEL_STMT
              [makeConstant (exampleEnv.labelBasicBlock exampleScenarioABlock)] ::
              (decls ++ nodes))] ∧
        (∀ d ∈ decls, getKind d = CAstKind.DECL_STMT) ∧
        (∀ n ∈ nodes, getKind n ≠ CAstKind.DECL_STMT) :=
  ⟨_, rfl, block_statement_label_decls_then_nodes exampleEnv exampleScenarioABlock
    (exampleVisitor [(2, exampleVar "y")]) _ rfl⟩

/-- C4. Whatever instruction of the simple-rebind template is visited, with
source and destination identities bound, the member returns the ASSIGN node
with exactly two children, the source symbol then the destination symbol; two
instructions of the template give the same node. -/
theorem simple_rebind_same_assign_shape (env : Env) (V : InstructionVisitor)
    (src dest : ValueId) (s d : CAstNode) (I J : SILInstruction)
    (hI : I.inst ∈ simpleRebindInsts src dest) (hJ : J.inst ∈ simpleRebindInsts src dest)
    (hs : V.valueTable.get src = some s) (hd : V.valueTable.get dest = some d) :
    visit env I V = Outcome.ok (makeNode CAstKind.ASSIGN [s, d]) (beforeVisit I V) ∧
      visit env J V = Outcome.ok (makeNode CAstKind.ASSIGN [s, d]) (beforeVisit J V) ∧
      (visit env J V).value? = (visit env I V).value? := by
  have key : ∀ K : SILInstruction, K.inst ∈ simpleRebindInsts src dest →
      visit env K V = Outcome.ok (makeNode CAstKind.ASSIGN [s, d]) (beforeVisit K V) := by
    intro K hK
    simp only [simpleRebindInsts, List.mem_cons, List.mem_singleton, List.not_mem_nil,
      or_false] at hK
    rcases hK with h | h | h | h | h | h | h | h | h | h | h | h | h | h | h | h | h <;>
      simp [visit, dispatch, h, visitLoadInst, visitStoreInst, visitAssignInst,
        visitCopyAddrInst, visitLoadBorrowInst, visitBeginAccessInst,
        visitBeginUnpairedAccessInst, visitStoreWeakInst, visitLoadUnownedInst,
        visitStoreUnownedInst, visitMarkDependenceInst, visitMarkUninitializedInst,
        visitIsUniqueInst, visitIsEscapingClosureInst, visitCopyBlockInst,
        visitProjectBoxInst, visitIndexRawPointerInst, beforeVisit_valueTable, hs, hd]
  refine ⟨key I hI, key J hJ, ?_⟩
  rw [key I hI, key J hJ]
  rfl

/-- Witness for C4: a load and a store over the same two bound identities. -/
theorem simple_rebind_same_assign_shape_witness :
    (exampleInstruction (SILInst.LoadInst 2 1)).inst ∈ simpleRebindInsts 1 2 ∧
      (exampleInstruction (SILInst.StoreInst 1 2)).inst ∈ simpleRebindInsts 1 2 ∧
      (exampleVisitor [(1, exampleVar "a"), (2, exampleVar "b")]).valueTable.get 1 =
        some (exampleVar "a") ∧
      (exampleVisitor [(1, exampleVar "a"), (2, exampleVar "b")]).valueTable.get 2 =
        some (exampleVar "b") ∧
      (visit exampleEnv (exampleInstruction (SILInst.LoadInst 2 1))
          (exampleVisitor [(1, exampleVar "a"), (2, exampleVar "b")]) =
        Outcome.ok (makeNode CAstKind.ASSIGN [exampleVar "a", exampleVar "b"])
          (beforeVisit (exampleInstruction (SILInst.LoadInst 2 1))
            (exampleVisitor [(1, exampleVar "a"), (2, exampleVar "b")])) ∧
       visit exampleEnv (exampleInstruction (SILInst.StoreInst 1 2))
          (exampleVisitor [(1, exampleVar "a"), (2, exampleVar "b")]) =
        Outcome.ok (makeNode CAstKind.ASSIGN [exampleVar "a", exampleVar "b"])
          (beforeVisit (exampleInstruction (SILInst.StoreInst 1 2))
            (exampleVisitor [(1, exampleVar "a"), (2, exampleVar "b")])) ∧
       (visit exampleEnv (exampleInstruction (SILInst.StoreInst 1 2))
          (exampleVisitor [(1, exampleVar "a"), (2, exampleVar "b")])).value? =
        (visit exampleEnv (exampleInstruction (SILInst.LoadInst 2 1))
          (exampleVisitor [(1, exampleVar "a"), (2, exampleVar "b")])).value?) :=
  ⟨by simp [simpleRebindInsts, exampleInstruction],
   by simp [simpleRebindInsts, exampleInstruction], rfl, rfl,
   simple_rebind_same_assign_shape exampleEnv
     (exampleVisitor [(1, exampleVar "a"), (2, exampleVar "b")]) 1 2 (exampleVar "a")
     (exampleVar "b") (exampleInstruction (SILInst.LoadInst 2 1))
     (exampleInstruction (SILInst.StoreInst 1 2))
     (by simp [simpleRebindInsts, exampleInstruction])
     (by simp [simpleRebindInsts, exampleInstruction]) rfl rfl⟩

/-- C5. For store, assign, copy_addr, store_weak and store_unowned the visit
aborts exactly when the source or the destination identity is unbound; when it
returns, the node is an ASSIGN and the bindings and the pending-declaration
buffer are as before. -/
theorem two_operand_rebind_fatal_iff_unbound (env : Env) (V : InstructionVisitor)
    (src dest : ValueId) (I : SILInstruction)
    (hI : I.inst ∈ twoOperandRebindInsts src dest) :
    ((visit env I V).isFatal = true ↔
        (V.valueTable.get src = none ∨ V.valueTable.get dest = none)) ∧
      (∀ n V', visit env I V = Outcome.ok n V' →
        getKind n = CAstKind.ASSIGN ∧ V'.valueTable.symbols = V.valueTable.symbols ∧
          V'.valueTable.declNodes = V.valueTable.declNodes) := by
  have key : visit env I V = visitStoreInst src dest (beforeVisit I V) := by
    simp only [twoOperandRebindInsts, List.mem_cons, List.mem_singleton, List.not_mem_nil,
      or_false] at hI
    rcases hI with h | h | h | h | h <;> simp only [visit, dispatch, h] <;> rfl
  rw [key]
  unfold visitStoreInst
  simp only [beforeVisit_valueTable]
  cases hs : V.valueTable.get src <;> cases hd : V.valueTable.get dest <;>
    simp [Outcome.isFatal, getKind, makeNode]
  exact ⟨rfl, rfl⟩

/-- Witness for C5: a store between two bound identities. -/
theorem two_operand_rebind_fatal_iff_unbound_witness :
    (exampleInstruction (SILInst.StoreInst 1 2)).inst ∈ twoOperandRebindInsts 1 2 ∧
      (((visit exampleEnv (exampleInstruction (SILInst.StoreInst 1 2))
            (exampleVisitor [(1, exampleVar "a"), (2, exampleVar "b")])).isFatal = true ↔
          ((exampleVisitor [(1, exampleVar "a"), (2, exampleVar "b")]).valueTable.get 1 = none ∨
            (exampleVisitor [(1, exampleVar "a"), (2, exampleVar "b")]).valueTable.get 2 =
              none)) ∧
        (∀ n V', visit exampleEnv (exampleInstruction (SILInst.StoreInst 1 2))
            (exampleVisitor [(1, exampleVar "a"), (2, exampleVar "b")]) = Outcome.ok n V' →
          getKind n = CAstKind.ASSIGN ∧
            V'.valueTable.symbols =
              (exampleVisitor [(1, exampleVar "a"), (2, exampleVar "b")]).valueTable.symbols ∧
            V'.valueTable.declNodes =
              (exampleVisitor
                [(1, exampleVar "a"), (2, exampleVar "b")]).valueTable.declNodes)) :=
  ⟨by simp [twoOperandRebindInsts, exampleInstruction],
   two_operand_rebind_fatal_iff_unbound exampleEnv
     (exampleVisitor [(1, exampleVar "a"), (2, exampleVar "b")]) 1 2
     (exampleInstruction (SILInst.StoreInst 1 2))
     (by simp [twoOperandRebindInsts, exampleInstruction])⟩

/-- C6. An allocation instruction with result identity `R` and declared type
`t` never aborts and returns EMPTY; afterwards `get R` gives a symbol whose
declared type is `t`, the declaration of that symbol has been appended once to
the pending-declaration buffer, and every other identity resolves as before. -/
theorem allocation_creates_typed_binding (env : Env) (V : InstructionVisitor)
    (R : ValueId) (t : String) (I : SILInstruction) (hI : I.inst ∈ allocationInsts R t) :
    ∃ V', visit env I V = Outcome.ok (makeNode CAstKind.EMPTY []) V' ∧
      V'.valueTable.get R = some (makeSymbol env R t) ∧
      declaredType (makeSymbol env R t) = some t ∧
      V'.valueTable.getDeclNodes = V.valueTable.getDeclNodes ++ [makeDecl (makeSymbol env R t)] ∧
      ∀ k, k ≠ R → V'.valueTable.get k = V.valueTable.get k := by
  refine ⟨{ beforeVisit I V with
      valueTable := V.valueTable.createAndAddSymbol env R t }, ?_, ?_, rfl, rfl, ?_⟩
  · simp only [allocationInsts, List.mem_cons, List.mem_singleton, List.not_mem_nil,
      or_false] at hI
    rcases hI with h | h | h | h <;>
      simp only [visit, dispatch, h, visitAllocStackInst, visitAllocRefInst,
        visitAllocRefDynamicInst, visitAllocBoxInst, beforeVisit_valueTable]
  · exact ValueTable.get_createAndAddSymbol_self env V.valueTable R t
  · intro k hk
    exact ValueTable.get_createAndAddSymbol_other env V.valueTable R k t hk

/-- Witness for C6: an alloc_box into a table that binds another identity. -/
theorem allocation_creates_typed_binding_witness :
    (exampleInstruction (SILInst.AllocBoxInst 3 "Int")).inst ∈ allocationInsts 3 "Int" ∧
      ∃ V', visit exampleEnv (exampleInstruction (SILInst.AllocBoxInst 3 "Int"))
          (exampleVisitor [(1, exampleVar "a")]) = Outcome.ok (makeNode CAstKind.EMPTY []) V' ∧
        V'.valueTable.get 3 = some (makeSymbol exampleEnv 3 "Int") ∧
        declaredType (makeSymbol exampleEnv 3 "Int") = some "Int" ∧
        V'.valueTable.getDeclNodes =
          (exampleVisitor [(1, exampleVar "a")]).valueTable.getDeclNodes ++
            [makeDecl (makeSymbol exampleEnv 3 "Int")] ∧
        ∀ k, k ≠ 3 →
          V'.valueTable.get k = (exampleVisitor [(1, exampleVar "a")]).valueTable.get k :=
  ⟨by simp [allocationInsts, exampleInstruction],
   allocation_creates_typed_binding exampleEnv (exampleVisitor [(1, exampleVar "a")]) 3 "Int"
     (exampleInstruction (SILInst.AllocBoxInst 3 "Int"))
     (by simp [allocationInsts, exampleInstruction])⟩

/-- C7. A scope-termination instruction with operand identity `X` never aborts
and returns EMPTY; afterwards `X` is unbound and every other identity resolves
as before; when `X` was already unbound the table is unchanged; and visiting
the instruction a second time leaves the table of the first visit unchanged. -/
theorem scope_termination_removes_idempotently (env : Env) (V : InstructionVisitor)
    (X other : ValueId) (I : SILInstruction) (hI : I.inst ∈ scopeTerminationInsts X other) :
    ∃ V', visit env I V = Outcome.ok (makeNode CAstKind.EMPTY []) V' ∧
      V'.valueTable.get X = none ∧
      (∀ k, k ≠ X → V'.valueTable.get k = V.valueTable.get k) ∧
      V'.valueTable.declNodes = V.valueTable.declNodes ∧
      (V.valueTable.get X = none → V'.valueTable = V.valueTable) ∧
      ∃ V'', visit env I V' = Outcome.ok (makeNode CAstKind.EMPTY []) V'' ∧
        V''.valueTable = V'.valueTable := by
  have key : ∀ W : InstructionVisitor, visit env I W =
      Outcome.ok (makeNode CAstKind.EMPTY [])
        { beforeVisit I W with valueTable := (W.valueTable.tryRemove X).2 } := by
    intro W
    simp only [scopeTerminationInsts, List.mem_cons, List.mem_singleton, List.not_mem_nil,
      or_false] at hI
    rcases hI with h | h | h | h | h | h | h | h | h | h <;>
      simp only [visit, dispatch, h, visitDeallocStackInst, visitDeallocBoxInst,
        visitDeallocRefInst, visitDeallocPartialRefInst, visitDeallocValueBufferInst,
        visitEndBorrowInst, visitEndAccessInst, visitEndUnpairedAccessInst,
        visitEndLifetimeInst, visitDestroyAddrInst, beforeVisit_valueTable]
  refine ⟨_, key V, ValueTable.get_tryRemove_self _ X,
    fun k hk => ValueTable.get_tryRemove_other _ X k hk,
    ValueTable.tryRemove_declNodes _ X, ?_, _, key _, ?_⟩
  · intro h
    show (V.valueTable.tryRemove X).2 = V.valueTable
    rw [ValueTable.tryRemove_of_unbound _ X h]
  · exact ValueTable.tryRemove_twice V.valueTable X

/-- Witness for C7: an end_borrow of a bound identity. -/
theorem scope_termination_removes_idempotently_witness :
    (exampleInstruction (SILInst.EndBorrowInst 1)).inst ∈ scopeTerminationInsts 1 0 ∧
      ∃ V', visit exampleEnv (exampleInstruction (SILInst.EndBorrowInst 1))
          (exampleVisitor [(1, exampleVar "a"), (2, exampleVar "b")]) =
            Outcome.ok (makeNode CAstKind.EMPTY []) V' ∧
        V'.valueTable.get 1 = none ∧
        (∀ k, k ≠ 1 → V'.valueTable.get k =
          (exampleVisitor [(1, exampleVar "a"), (2, exampleVar "b")]).valueTable.get k) ∧
        V'.valueTable.declNodes =
          (exampleVisitor [(1, exampleVar "a"), (2, exampleVar "b")]).valueTable.declNodes ∧
        ((exampleVisitor [(1, exampleVar "a"), (2, exampleVar "b")]).valueTable.get 1 = none →
          V'.valueTable =
            (exampleVisitor [(1, exampleVar "a"), (2, exampleVar "b")]).valueTable) ∧
        ∃ V'', visit exampleEnv (exampleInstruction (SILInst.EndBorrowInst 1)) V' =
            Outcome.ok (makeNode CAstKind.EMPTY []) V'' ∧
          V''.valueTable = V'.valueTable :=
  ⟨by simp [scopeTerminationInsts, exampleInstruction],
   scope_termination_removes_idempotently exampleEnv
     (exampleVisitor [(1, exampleVar "a"), (2, exampleVar "b")]) 1 0
     (exampleInstruction (SILInst.EndBorrowInst 1))
     (by simp [scopeTerminationInsts, exampleInstruction])⟩

/-- C8, amended. Scenario A with empty nodes retained: starting with `Y` bound
and `X` unbound, the block [alloc_stack X of type Int; store Y to X;
dealloc_stack X] translates successfully, the children of its block statement
after the label are, in order, declaration(X), the EMPTY node of the
allocation, assign(Y, X), and the EMPTY node of the deallocation, and
afterwards `X` is unbound. -/
theorem scenarioA_block_output (env : Env) (hEnv : env.SWAN_ADD_EMPTY_NODES = true)
    (V : InstructionVisitor) (X Y : ValueId) (y : CAstNode) (BB : SILBasicBlock)
    (I1 I2 I3 : SILInstruction) (hBB : BB.instructions = [I1, I2, I3])
    (h1 : I1.inst = SILInst.AllocStackInst X "Int") (h2 : I2.inst = SILInst.StoreInst Y X)
    (h3 : I3.inst = SILInst.DeallocStackInst X)
    (hY : V.valueTable.get Y = some y) (hX : V.valueTable.get X = none) :
    ∃ V', visitSILBasicBlock env BB V = Outcome.ok () V' ∧
      V'.blockStmtList = V.blockStmtList ++
        [makeNode CAstKind.BLOCK_STMT
          [labelNode env BB,
           makeDecl (makeSymbol env X "Int"),
           makeNode CAstKind.EMPTY [],
           makeNode CAstKind.ASSIGN [y, makeSymbol env X "Int"],
           makeNode CAstKind.EMPTY []]] ∧
      V'.valueTable.get X = none := by
  have hne : Y ≠ X := by
    intro hh
    rw [hh, hX] at hY
    cases hY
  have hY' : (V.valueTable.clearNodes.clearDeclNodes.createAndAddSymbol env X "Int").get Y
      = some y := by
    rw [ValueTable.get_createAndAddSymbol_other env _ X Y "Int" hne]
    exact hY
  have hX' : (V.valueTable.clearNodes.clearDeclNodes.createAndAddSymbol env X "Int").get X
      = some (makeSymbol env X "Int") :=
    ValueTable.get_createAndAddSymbol_self env _ X "Int"
  simp only [visitSILBasicBlock, hBB, visitSILBasicBlock.loop, visit, dispatch, h1, h2, h3,
    visitAllocStackInst, visitStoreInst, visitDeallocStackInst, beforeVisit_valueTable,
    hEnv, Bool.not_true, Bool.false_and, Bool.false_eq_true, if_false, hY', hX']
  refine ⟨_, rfl, ?_, ?_⟩
  · simp [ValueTable.getDeclNodes, ValueTable.createAndAddSymbol, ValueTable.clearDeclNodes,
      ValueTable.tryRemove_declNodes, visitSILBasicBlock.addDeclNodes, labelNode,
      beforeVisit_nodeList, beforeVisit_blockStmtList, beforeVisit_valueTable]
  · simp only [addDeclNodes_eq]
    exact ValueTable.get_tryRemove_self _ X

/-- Witness for C8, amended: scenario A with X = 1 and Y = 2. -/
theorem scenarioA_block_output_witness :
    exampleEnv.SWAN_ADD_EMPTY_NODES = true ∧
      exampleScenarioABlock.instructions =
        [exampleInstruction (SILInst.AllocStackInst 1 "Int"),
         exampleInstruction (SILInst.StoreInst 2 1),
         exampleInstruction (SILInst.DeallocStackInst 1)] ∧
      (exampleVisitor [(2, exampleVar "y")]).valueTable.get 2 = some (exampleVar "y") ∧
      (exampleVisitor [(2, exampleVar "y")]).valueTable.get 1 = none ∧
      ∃ V', visitSILBasicBlock exampleEnv exampleScenarioABlock
          (exampleVisitor [(2, exampleVar "y")]) = Outcome.ok () V' ∧
        V'.blockStmtList = (exampleVisitor [(2, exampleVar "y")]).blockStmtList ++
          [makeNode CAstKind.BLOCK_STMT
            [labelNode exampleEnv exampleScenarioABlock,
             makeDecl (makeSymbol exampleEnv 1 "Int"),
             makeNode CAstKind.EMPTY [],
             makeNode CAstKind.ASSIGN [exampleVar "y", makeSymbol exampleEnv 1 "Int"],
             makeNode CAstKind.EMPTY []]] ∧
        V'.valueTable.get 1 = none :=
  ⟨rfl, rfl, rfl, rfl,
    scenarioA_block_output exampleEnv rfl (exampleVisitor [(2, exampleVar "y")]) 1 2
      (exampleVar "y") exampleScenarioABlock _ _ _ rfl rfl rfl rfl rfl rfl⟩

/-- Counterexample to C8 as stated: with empty nodes retained the children after
the label are not [declaration(X), assign(Y, X), empty]; the EMPTY node the
allocation returned stands between the declaration and the assignment. -/
theorem scenarioA_three_children_counterexample :
    ∃ V', visitSILBasicBlock exampleEnv exampleScenarioABlock
        (exampleVisitor [(2, exampleVar "y")]) = Outcome.ok () V' ∧
      V'.blockStmtList ≠
        [makeNode CAstKind.BLOCK_STMT
          [labelNode exampleEnv exampleScenarioABlock,
           makeDecl (makeSymbol exampleEnv 1 "Int"),
           makeNode CAstKind.ASSIGN [exampleVar "y", makeSymbol exampleEnv 1 "Int"],
           makeNode CAstKind.EMPTY []]] ∧
      V'.blockStmtList =
        [makeNode CAstKind.BLOCK_STMT
          [labelNode exampleEnv exampleScenarioABlock,
           makeDecl (makeSymbol exampleEnv 1 "Int"),
           makeNode CAstKind.EMPTY [],
           makeNode CAstKind.ASSIGN [exampleVar "y", makeSymbol exampleEnv 1 "Int"],
           makeNode CAstKind.EMPTY []]] := by
  refine ⟨_, rfl, ?_, rfl⟩
  intro h
  have h2 : [makeNode CAstKind.BLOCK_STMT
          [labelNode exampleEnv exampleScenarioABlock,
           makeDecl (makeSymbol exampleEnv 1 "Int"),
           makeNode CAstKind.EMPTY [],
           makeNode CAstKind.ASSIGN [exampleVar "y", makeSymbol exampleEnv 1 "Int"],
           makeNode CAstKind.EMPTY []]] =
        [makeNode CAstKind.BLOCK_STMT
          [labelNode exampleEnv exampleScenarioABlock,
           makeDecl (makeSymbol exampleEnv 1 "Int"),
           makeNode CAstKind.ASSIGN [exampleVar "y", makeSymbol exampleEnv 1 "Int"],
           makeNode CAstKind.EMPTY []]] := h
  simp [makeNode] at h2

/-- C9. For index_addr and tail_addr whose base resolves to an OBJECT_LITERAL
symbol `Arr` and whose index resolves to a VAR symbol `i`, the visit creates the
binding of the result identity `R` with declared type `t` and returns
`ASSIGN(r, OBJECT_REF(Arr, i))`, `r` being the symbol now bound to `R`. -/
theorem indexed_addressing_assigns_object_ref (env : Env) (V : InstructionVisitor)
    (R base index : ValueId) (t : String) (Arr i : CAstNode) (I : SILInstruction)
    (hI : I.inst ∈ indexedAddressingInsts R base index t)
    (hbase : V.valueTable.get base = some Arr) (hArr : getKind Arr = CAstKind.OBJECT_LITERAL)
    (hindex : V.valueTable.get index = some i) (hi : getKind i = CAstKind.VAR) :
    ∃ r V', visit env I V =
        Outcome.ok (makeNode CAstKind.ASSIGN [r, makeNode CAstKind.OBJECT_REF [Arr, i]]) V' ∧
      V'.valueTable = V.valueTable.createAndAddSymbol env R t ∧
      V'.valueTable.get R = some r ∧ declaredType r = some t := by
  refine ⟨makeSymbol env R t, { beforeVisit I V with
      valueTable := V.valueTable.createAndAddSymbol env R t }, ?_, rfl,
      ValueTable.get_createAndAddSymbol_self env V.valueTable R t, rfl⟩
  simp only [indexedAddressingInsts, List.mem_cons, List.mem_singleton, List.not_mem_nil,
    or_false] at hI
  rcases hI with h | h <;>
    simp [visit, dispatch, h, visitIndexAddrInst, visitTailAddrInst, beforeVisit_valueTable,
      hbase, hArr, hindex, hi, ValueTable.get_createAndAddSymbol_self]

/-- Witness for C9: scenario B with base 1, index 2 and result 3. -/
theorem indexed_addressing_assigns_object_ref_witness :
    (exampleInstruction (SILInst.IndexAddrInst 3 1 2 "Element")).inst ∈
        indexedAddressingInsts 3 1 2 "Element" ∧
      (exampleVisitor [(1, exampleArr), (2, exampleVar "i")]).valueTable.get 1 =
        some exampleArr ∧
      getKind exampleArr = CAstKind.OBJECT_LITERAL ∧
      (exampleVisitor [(1, exampleArr), (2, exampleVar "i")]).valueTable.get 2 =
        some (exampleVar "i") ∧
      getKind (exampleVar "i") = CAstKind.VAR ∧
      ∃ r V', visit exampleEnv (exampleInstruction (SILInst.IndexAddrInst 3 1 2 "Element"))
          (exampleVisitor [(1, exampleArr), (2, exampleVar "i")]) =
            Outcome.ok (makeNode CAstKind.ASSIGN
              [r, makeNode CAstKind.OBJECT_REF [exampleArr, exampleVar "i"]]) V' ∧
        V'.valueTable =
          (exampleVisitor [(1, exampleArr), (2, exampleVar "i")]).valueTable.createAndAddSymbol
            exampleEnv 3 "Element" ∧
        V'.valueTable.get 3 = some r ∧ declaredType r = some "Element" :=
  ⟨by simp [indexedAddressingInsts, exampleInstruction], rfl, rfl, rfl, rfl,
   indexed_addressing_assigns_object_ref exampleEnv
     (exampleVisitor [(1, exampleArr), (2, exampleVar "i")]) 3 1 2 "Element" exampleArr
     (exampleVar "i") (exampleInstruction (SILInst.IndexAddrInst 3 1 2 "Element"))
     (by simp [indexedAddressingInsts, exampleInstruction]) rfl rfl rfl rfl⟩

/-- C10, amended. For index_addr and tail_addr: an unbound base or index
identity aborts the visit in every build; a base that resolves to a symbol
that is not an OBJECT_LITERAL, or an index that resolves to a symbol that is
not a VAR, aborts it in a build that has the assertions compiled in. Whenever
the visit aborts, the value table is the table before the instruction: no
binding for the result identity has been created. In a build with `NDEBUG` the
shapes are not checked: with base and index bound to any symbols `b` and `i`
the visit binds the result and returns ASSIGN(r, OBJECT_REF(b, i)). -/
theorem indexed_addressing_failure_leaves_table (env : Env) (V : InstructionVisitor)
    (R base index : ValueId) (t : String) (I : SILInstruction)
    (hI : I.inst ∈ indexedAddressingInsts R base index t) :
    ((V.valueTable.get base = none ∨ V.valueTable.get index = none) →
        (visit env I V).isFatal = true) ∧
      (env.NDEBUG = false →
        ((∃ n, V.valueTable.get base = some n ∧ getKind n ≠ CAstKind.OBJECT_LITERAL) ∨
          (∃ n, V.valueTable.get index = some n ∧ getKind n ≠ CAstKind.VAR)) →
        (visit env I V).isFatal = true) ∧
      ((visit env I V).isFatal = true →
        (visit env I V).visitor.valueTable = V.valueTable ∧
          (visit env I V).visitor.valueTable.get R = V.valueTable.get R) ∧
      (env.NDEBUG = true → ∀ b i, V.valueTable.get base = some b →
        V.valueTable.get index = some i →
        visit env I V =
          Outcome.ok
            (makeNode CAstKind.ASSIGN
              [makeSymbol env R t, makeNode CAstKind.OBJECT_REF [b, i]])
            { beforeVisit I V with
                valueTable := V.valueTable.createAndAddSymbol env R t }) := by
  have key : visit env I V = visitIndexAddrInst env R base index t (beforeVisit I V) := by
    simp only [indexedAddressingInsts, List.mem_cons, List.mem_singleton, List.not_mem_nil,
      or_false] at hI
    rcases hI with h | h
    · simp only [visit, dispatch, h]
    · simp only [visit, dispatch, h, visitIndexAddrInst, visitTailAddrInst]
  rw [key]
  unfold visitIndexAddrInst
  simp only [beforeVisit_valueTable, ValueTable.get_createAndAddSymbol_self]
  cases hb : V.valueTable.get base with
  | none => simp [Outcome.isFatal, Outcome.visitor, beforeVisit_valueTable]
  | some Arr =>
    cases hx : V.valueTable.get index with
    | none =>
      by_cases hc : env.NDEBUG = false ∧ getKind Arr ≠ CAstKind.OBJECT_LITERAL
      · simp [hc, Outcome.isFatal, Outcome.visitor, beforeVisit_valueTable]
      · simp only [if_neg hc]
        simp [Outcome.isFatal, Outcome.visitor, beforeVisit_valueTable]
    | some i =>
      by_cases hc : env.NDEBUG = false ∧ getKind Arr ≠ CAstKind.OBJECT_LITERAL
      · have hn : env.NDEBUG = false := hc.1
        simp [hc, hn, Outcome.isFatal, Outcome.visitor, beforeVisit_valueTable]
      · by_cases hd : env.NDEBUG = false ∧ getKind i ≠ CAstKind.VAR
        · have hn : env.NDEBUG = false := hd.1
          simp only [if_neg hc, if_pos hd]
          simp [hn, Outcome.isFatal, Outcome.visitor, beforeVisit_valueTable]
        · simp only [if_neg hc, if_neg hd]
          refine ⟨by simp, ?_, by simp [Outcome.isFatal], fun _ b' i' hb' hi' => ?_⟩
          · intro hn hbad
            exfalso
            rcases hbad with ⟨n, h, hk⟩ | ⟨n, h, hk⟩
            · injection h with h; subst h; exact hc ⟨hn, hk⟩
            · injection h with h; subst h; exact hd ⟨hn, hk⟩
          · injection hb' with hb'; injection hi' with hi'
            subst hb' hi'
            rfl

/-- Witness for C10, amended: with the assertions compiled in, a tail_addr
whose base resolves to a plain VAR symbol aborts and leaves the table. -/
theorem indexed_addressing_failure_leaves_table_witness :
    (exampleInstruction (SILInst.TailAddrInst 3 1 2 "Element")).inst ∈
        indexedAddressingInsts 3 1 2 "Element" ∧
      exampleEnv.NDEBUG = false ∧
      (∃ n, (exampleVisitor [(1, exampleVar "a"), (2, exampleVar "i")]).valueTable.get 1 =
            some n ∧ getKind n ≠ CAstKind.OBJECT_LITERAL) ∧
      (visit exampleEnv (exampleInstruction (SILInst.TailAddrInst 3 1 2 "Element"))
          (exampleVisitor [(1, exampleVar "a"), (2, exampleVar "i")])).isFatal = true ∧
      (visit exampleEnv (exampleInstruction (SILInst.TailAddrInst 3 1 2 "Element"))
          (exampleVisitor [(1, exampleVar "a"), (2, exampleVar "i")])).visitor.valueTable =
            (exampleVisitor [(1, exampleVar "a"), (2, exampleVar "i")]).valueTable :=
  ⟨by simp [indexedAddressingInsts, exampleInstruction], rfl,
   ⟨exampleVar "a", rfl, by decide⟩,
   (indexed_addressing_failure_leaves_table exampleEnv
     (exampleVisitor [(1, exampleVar "a"), (2, exampleVar "i")]) 3 1 2 "Element"
     (exampleInstruction (SILInst.TailAddrInst 3 1 2 "Element"))
     (by simp [indexedAddressingInsts, exampleInstruction])).2.1 rfl
     (Or.inl ⟨exampleVar "a", rfl, by decide⟩),
   ((indexed_addressing_failure_leaves_table exampleEnv
     (exampleVisitor [(1, exampleVar "a"), (2, exampleVar "i")]) 3 1 2 "Element"
     (exampleInstruction (SILInst.TailAddrInst 3 1 2 "Element"))
     (by simp [indexedAddressingInsts, exampleInstruction])).2.2.1 rfl).1⟩

/-- Counterexample to C10 as stated: in a build with `NDEBUG` a tail_addr whose
base resolves to a plain VAR symbol, not an OBJECT_LITERAL, does not abort: it
returns an ASSIGN, and the result identity 3, unbound before, is bound. -/
theorem indexed_addressing_unchecked_shape_counterexample :
    (∃ n, (exampleVisitor [(1, exampleVar "a"), (2, exampleVar "i")]).valueTable.get 1 =
          some n ∧ getKind n ≠ CAstKind.OBJECT_LITERAL) ∧
      (visit exampleEnvNDEBUG (exampleInstruction (SILInst.TailAddrInst 3 1 2 "Element"))
        (exampleVisitor [(1, exampleVar "a"), (2, exampleVar "i")])).isFatal = false ∧
      (visit exampleEnvNDEBUG (exampleInstruction (SILInst.TailAddrInst 3 1 2 "Element"))
        (exampleVisitor [(1, exampleVar "a"), (2, exampleVar "i")])).value? =
        some (makeNode CAstKind.ASSIGN
          [makeSymbol exampleEnvNDEBUG 3 "Element",
           makeNode CAstKind.OBJECT_REF [exampleVar "a", exampleVar "i"]]) ∧
      (exampleVisitor [(1, exampleVar "a"), (2, exampleVar "i")]).valueTable.get 3 = none ∧
      (visit exampleEnvNDEBUG (exampleInstruction (SILInst.TailAddrInst 3 1 2 "Element"))
        (exampleVisitor [(1, exampleVar "a"), (2, exampleVar "i")])).visitor.valueTable.get 3 =
        some (makeSymbol exampleEnvNDEBUG 3 "Element") :=
  ⟨⟨exampleVar "a", rfl, by decide⟩, rfl, rfl, rfl, rfl⟩

/-! ## Lemmas for the function and module level claims -/

theorem dispatch_noOp (env : Env) (inst : SILInst) (V : InstructionVisitor)
    (h : isNoOpInst inst = true) :
    dispatch env inst V = Outcome.ok (makeNode CAstKind.EMPTY []) V := by
  cases inst <;> first | exact Bool.noConfusion (show false = true from h) | rfl

theorem entityFrame_refl (e : WALACAstEntityInfo) : EntityFrame e e :=
  ⟨rfl, rfl, rfl, rfl, rfl, rfl, rfl, rfl, rfl⟩

theorem entityFrame_trans {a b c : WALACAstEntityInfo} (h1 : EntityFrame a b)
    (h2 : EntityFrame b c) : EntityFrame a c := by
  obtain ⟨a1, a2, a3, a4, a5, a6, a7, a8, a9⟩ := h1
  obtain ⟨b1, b2, b3, b4, b5, b6, b7, b8, b9⟩ := h2
  exact ⟨b1.trans a1, b2.trans a2, b3.trans a3, b4.trans a4, b5.trans a5, b6.trans a6,
    b7.trans a7, b8.trans a8, b9.trans a9⟩

theorem arguments_eq (env : Env) (argPosition : Option Position) (args : List SILArgument)
    (V : InstructionVisitor) :
    visitSILFunction.arguments env argPosition args V =
      { V with
          valueTable := bindArguments env V.valueTable (args.filter SILArgument.isNamed),
          currentEntity :=
            { V.currentEntity with
                argumentNames := V.currentEntity.argumentNames ++
                  (args.filter SILArgument.isNamed).map
                    (fun arg => env.addressToString arg.value),
                argumentPositions := V.currentEntity.argumentPositions ++
                  (args.filter SILArgument.isNamed).map (fun _ => argPosition),
                argumentTypes := V.currentEntity.argumentTypes ++
                  (args.filter SILArgument.isNamed).map (fun arg => arg.type) } } := by
  induction args generalizing V with
  | nil => simp [visitSILFunction.arguments, bindArguments]
  | cons arg rest ih =>
    unfold visitSILFunction.arguments
    cases hd : arg.decl with
    | none =>
      have hn : arg.isNamed = false := by simp [SILArgument.isNamed, hd]
      simp only [List.filter_cons, hn]
      exact ih V
    | some decl =>
      by_cases hs : decl.name.isSome = true
      · have hn : arg.isNamed = true := by simp [SILArgument.isNamed, hd, hs]
        simp only [hs, if_true, List.filter_cons, hn]
        rw [ih]
        simp [bindArguments]
      · have hn : arg.isNamed = false := by simp [SILArgument.isNamed, hd, hs]
        simp only [hs, List.filter_cons, hn]
        exact ih V

theorem positions_fst (F : SILFunction) (e : WALACAstEntityInfo) :
    (visitSILFunction.positions F e).1 =
      { e with functionPosition := (visitSILFunction.positions F e).1.functionPosition } := by
  unfold visitSILFunction.positions
  split
  · split <;> rfl
  · rfl

theorem positions_snd_indep (F : SILFunction) (e e' : WALACAstEntityInfo) :
    (visitSILFunction.positions F e).2 = (visitSILFunction.positions F e').2 := by
  unfold visitSILFunction.positions
  split
  · split <;> rfl
  · rfl

theorem visitSILFunction_eq (env : Env) (F : SILFunction) (V : InstructionVisitor) :
    visitSILFunction env F V = visitSILFunction.blocks env F.blocks (functionEntry env F V) := by
  obtain ⟨name, location, arguments, results, blocks⟩ := F
  unfold visitSILFunction functionEntry visitSILFunction.positions
  simp only [arguments_eq, namedArguments, returnTypeOf]
  rcases location with _ | ⟨s, e⟩
  · rfl
  · rcases s with _ | s <;> rcases e with _ | e <;> rfl


theorem visitSILBasicBlock_entity (env : Env) (BB : SILBasicBlock)
    (V V' : InstructionVisitor) (h : visitSILBasicBlock env BB V = Outcome.ok () V') :
    EntityFrame V.currentEntity V'.currentEntity ∧
      V'.Instance.castEntities = V.Instance.castEntities ∧
      ∃ stmt, V'.currentEntity.basicBlocks = V.currentEntity.basicBlocks ++ [stmt] ∧
        V'.blockStmtList = V.blockStmtList ++ [stmt] ∧ IsBlockStmtOf env BB stmt := by
  obtain ⟨V1, hloop, hV'⟩ := visitSILBasicBlock_ok env BB V V' h
  have hf := frame_blockLoop env BB.instructions
    { V with InstructionCounter := 0,
             valueTable := V.valueTable.clearNodes.clearDeclNodes,
             nodeList := [] }
  rw [hloop] at hf
  obtain ⟨hce0, hce, hbl, _, _, _, _⟩ := hf
  have hce0' : V1.Instance.castEntities = V.Instance.castEntities := hce0
  have hce' : V1.currentEntity = V.currentEntity := hce
  have hbl' : V1.blockStmtList = V.blockStmtList := hbl
  have hb : V'.currentEntity.basicBlocks = V.currentEntity.basicBlocks ++
      [makeNode CAstKind.BLOCK_STMT
        (labelNode env BB :: (V1.valueTable.getDeclNodes.reverse ++ V1.nodeList))] := by
    rw [hV']
    show V1.currentEntity.basicBlocks ++ _ = _
    rw [hce']
    rfl
  have hl : V'.blockStmtList = V.blockStmtList ++
      [makeNode CAstKind.BLOCK_STMT
        (labelNode env BB :: (V1.valueTable.getDeclNodes.reverse ++ V1.nodeList))] := by
    rw [hV']
    show V1.blockStmtList ++ _ = _
    rw [hbl']
    rfl
  have hfr : EntityFrame V.currentEntity V'.currentEntity := by
    rw [hV', ← hce']
    exact ⟨rfl, rfl, rfl, rfl, rfl, rfl, rfl, rfl, rfl⟩
  have hc : V'.Instance.castEntities = V.Instance.castEntities := by
    rw [hV']
    exact hce0'
  exact ⟨hfr, hc, _, hb, hl, ⟨V, V', h, hl⟩, _, rfl⟩

theorem blocks_entity (env : Env) (blocks : List SILBasicBlock)
    (V V' : InstructionVisitor) (u : Unit)
    (h : visitSILFunction.blocks env blocks V = Outcome.ok u V') :
    EntityFrame V.currentEntity V'.currentEntity ∧
      V'.Instance.castEntities = V.Instance.castEntities ∧
      ∃ stmts, V'.currentEntity.basicBlocks = V.currentEntity.basicBlocks ++ stmts ∧
        V'.blockStmtList = V.blockStmtList ++ stmts ∧
        List.Forall₂ (IsBlockStmtOf env) blocks stmts := by
  induction blocks generalizing V with
  | nil =>
    simp only [visitSILFunction.blocks] at h
    injection h with _ h2
    subst h2
    exact ⟨entityFrame_refl _, rfl, [], by simp, by simp, List.Forall₂.nil⟩
  | cons BB rest ih =>
    simp only [visitSILFunction.blocks] at h
    split at h
    · exact Outcome.noConfusion h
    · next u1 V1 heq =>
      obtain ⟨hf1, hc1, stmt, hb1, hl1, hs1⟩ := visitSILBasicBlock_entity env BB V V1 heq
      obtain ⟨hf2, hc2, stmts, hb2, hl2, hs2⟩ := ih V1 h
      refine ⟨entityFrame_trans hf1 hf2, hc2.trans hc1, stmt :: stmts, ?_, ?_,
        List.Forall₂.cons hs1 hs2⟩
      · rw [hb2, hb1]; simp
      · rw [hl2, hl1]; simp

/-- How a successful `visitSILFunction` leaves the entity. -/
theorem visitSILFunction_entity (env : Env) (F : SILFunction) (V V' : InstructionVisitor)
    (h : visitSILFunction env F V = Outcome.ok () V') :
    EntityFrame (functionEntry env F V).currentEntity V'.currentEntity ∧
      V'.Instance.castEntities = V.Instance.castEntities ∧
      ∃ stmts, V'.currentEntity.basicBlocks = V.currentEntity.basicBlocks ++ stmts ∧
        V'.blockStmtList = stmts ∧
        List.Forall₂ (IsBlockStmtOf env) F.blocks stmts := by
  rw [visitSILFunction_eq] at h
  obtain ⟨hf, hc, stmts, hb, hl, hs⟩ := blocks_entity env F.blocks _ V' () h
  exact ⟨hf, hc, stmts, hb, by simpa [functionEntry] using hl, hs⟩

theorem moduleLoop_forall2 (env : Env) (P : SILFunction → WALACAstEntityInfo → Prop)
    (functions : List SILFunction)
    (hP : ∀ F ∈ functions, ∀ V V2,
      visitSILFunction env F (functionStart V) = Outcome.ok () V2 →
      P F (finalizedEntity V2))
    (V V' : InstructionVisitor) (u : Unit)
    (h : visitSILModule.loop env functions V = Outcome.ok u V') :
    ∃ entities, V'.Instance.castEntities = V.Instance.castEntities ++ entities ∧
      List.Forall₂ P
        (functions.filter (fun F =>
          decide (env.demangleSymbolAsString F.name ∉ env.builtinFunctions) && !F.empty))
        entities := by
  induction functions generalizing V with
  | nil =>
    simp only [visitSILModule.loop] at h
    injection h with _ h2
    subst h2
    exact ⟨[], by simp, by simp⟩
  | cons F rest ih =>
    have hP' : ∀ G ∈ rest, ∀ V V2,
        visitSILFunction env G (functionStart V) = Outcome.ok () V2 →
        P G (finalizedEntity V2) := fun G hG => hP G (List.mem_cons_of_mem F hG)
    simp only [visitSILModule.loop] at h
    by_cases hb : env.demangleSymbolAsString F.name ∈ env.builtinFunctions
    · rw [if_pos hb] at h
      obtain ⟨entities, h1, h2⟩ := ih hP' V h
      exact ⟨entities, h1, by simpa [List.filter_cons, hb] using h2⟩
    · rw [if_neg hb] at h
      by_cases he : F.empty = true
      · rw [if_pos he] at h
        obtain ⟨entities, h1, h2⟩ := ih hP' V h
        exact ⟨entities, h1, by simpa [List.filter_cons, he] using h2⟩
      · rw [if_neg he] at h
        split at h
        · exact Outcome.noConfusion h
        · next u2 V2 heq =>
          have hF := visitSILFunction_entities_and_name env F (functionStart V)
          have heq' : visitSILFunction env F (functionStart V) = Outcome.ok () V2 := heq
          rw [heq'] at hF
          have hF1 : V2.Instance.castEntities = V.Instance.castEntities := hF.1
          have hPF := hP F (List.mem_cons_self F rest) V V2 heq'
          obtain ⟨entities, h1, h2⟩ := ih hP' _ h
          refine ⟨finalizedEntity V2 :: entities, ?_, ?_⟩
          · rw [h1]
            show (V2.Instance.castEntities ++ [_]) ++ entities = _
            rw [hF1]
            simp [finalizedEntity]
          · have hfil : (F :: rest).filter (fun F =>
                decide (env.demangleSymbolAsString F.name ∉ env.builtinFunctions) && !F.empty) =
                F :: rest.filter (fun F =>
                decide (env.demangleSymbolAsString F.name ∉ env.builtinFunctions) &&
                  !F.empty) := by
              simp [List.filter_cons, hb, he]
            rw [hfil]
            exact List.Forall₂.cons hPF h2


theorem returnTypeOf_spec (F : SILFunction) :
    (∀ r, F.loweredResults = [r] → returnTypeOf F = r) ∧
      (F.loweredResults.length ≠ 1 → returnTypeOf F = "MultiResultType") := by
  unfold returnTypeOf
  constructor
  · intro r hr
    rw [hr]
  · intro hlen
    split
    · next r hr => rw [hr] at hlen; exact absurd rfl hlen
    · rfl

theorem forall2_right_mem {α β : Type} {P : α → β → Prop} {l1 : List α} {l2 : List β}
    (h : List.Forall₂ P l1 l2) (b : β) (hb : b ∈ l2) : ∃ a ∈ l1, P a b := by
  induction h with
  | nil => cases hb
  | cons hab _ ih =>
    rcases List.mem_cons.mp hb with rfl | hmem
    · exact ⟨_, List.mem_cons_self _ _, hab⟩
    · obtain ⟨a, ha, hp⟩ := ih hmem
      exact ⟨a, List.mem_cons_of_mem _ ha, hp⟩

theorem visitSILModule_forall2 (env : Env) (P : SILFunction → WALACAstEntityInfo → Prop)
    (M : SILModule)
    (hP : ∀ F ∈ M.functions, ∀ V V2,
      visitSILFunction env F (functionStart V) = Outcome.ok () V2 → P F (finalizedEntity V2))
    (V V' : InstructionVisitor) (h : visitSILModule env M V = Outcome.ok () V') :
    ∃ entities, V'.Instance.castEntities = V.Instance.castEntities ++ entities ∧
      List.Forall₂ P (qualifyingFunctions env M) entities :=
  moduleLoop_forall2 env P M.functions hP
    { V with moduleInfo := M.moduleFilename, valueTable := ValueTable.fresh } V' () h


theorem bindArguments_get_of_not_mem (env : Env) (args : List SILArgument) (T : ValueTable)
    (k : ValueId) (hk : ∀ a ∈ args, a.value ≠ k) :
    (bindArguments env T args).get k = T.get k := by
  induction args generalizing T with
  | nil => rfl
  | cons a rest ih =>
    have h1 : (bindArguments env T (a :: rest)) =
        bindArguments env (T.createAndAddSymbol env a.value a.type) rest := rfl
    rw [h1, ih _ (fun b hb => hk b (List.mem_cons_of_mem a hb))]
    exact ValueTable.get_createAndAddSymbol_other env T a.value k a.type
      (fun hh => hk a (List.mem_cons_self a rest) hh.symm)

theorem bindArguments_get_of_mem (env : Env) (args : List SILArgument) (T : ValueTable)
    (hnd : (args.map (fun a => a.value)).Nodup) (a : SILArgument) (ha : a ∈ args) :
    (bindArguments env T args).get a.value = some (makeSymbol env a.value a.type) := by
  induction args generalizing T with
  | nil => cases ha
  | cons b rest ih =>
    have h1 : (bindArguments env T (b :: rest)) =
        bindArguments env (T.createAndAddSymbol env b.value b.type) rest := rfl
    rw [h1]
    simp only [List.map_cons, List.nodup_cons] at hnd
    rcases List.mem_cons.mp ha with hab | hmem
    · subst hab
      rw [bindArguments_get_of_not_mem env rest _ a.value]
      · exact ValueTable.get_createAndAddSymbol_self env T a.value a.type
      · intro c hc hcv
        exact hnd.1 (List.mem_map.mpr ⟨c, hc, hcv⟩)
    · exact ih _ hnd.2 hmem


theorem createdDecls_eq_map (env : Env) (inst : SILInst) :
    createdDecls env inst =
      (createdSymbols inst).map (fun p => makeDecl (makeSymbol env p.1 p.2)) := by
  cases inst <;> rfl

theorem blockCreatedDecls_eq_map (env : Env) (BB : SILBasicBlock) :
    blockCreatedDecls env BB =
      (blockCreatedSymbols BB).map (fun p => makeDecl (makeSymbol env p.1 p.2)) := by
  unfold blockCreatedDecls blockCreatedSymbols
  induction BB.instructions with
  | nil => rfl
  | cons I rest ih =>
    simp only [List.map_cons, List.flatten_cons, List.map_append]
    rw [ih, createdDecls_eq_map]

theorem makeDecl_makeSymbol_injective (env : Env)
    (hinj : Function.Injective env.addressToString) :
    Function.Injective (fun p : ValueId × String => makeDecl (makeSymbol env p.1 p.2)) := by
  rintro ⟨R, t⟩ ⟨R', t'⟩ h
  simp only [makeDecl, makeSymbol, makeNode, makeConstant, CAstNode.node.injEq,
    List.cons.injEq, CAstNode.constant.injEq, and_true, true_and] at h
  obtain ⟨h1, h2⟩ := h
  rw [hinj h1, h2]

/-- The block statement in terms of the declarations created in the block. -/
theorem visitSILBasicBlock_stmt (env : Env) (BB : SILBasicBlock)
    (V V' : InstructionVisitor) (h : visitSILBasicBlock env BB V = Outcome.ok () V') :
    ∃ nodes,
      V'.blockStmtList = V.blockStmtList ++
        [makeNode CAstKind.BLOCK_STMT
          (labelNode env BB :: ((blockCreatedDecls env BB).reverse ++ nodes))] ∧
      (∀ n ∈ nodes, getKind n ≠ CAstKind.DECL_STMT) ∧
      V'.valueTable.getDeclNodes = blockCreatedDecls env BB := by
  obtain ⟨V1, hloop, hV'⟩ := visitSILBasicBlock_ok env BB V V' h
  have hf := frame_blockLoop env BB.instructions
    { V with InstructionCounter := 0,
             valueTable := V.valueTable.clearNodes.clearDeclNodes,
             nodeList := [] }
  rw [hloop] at hf
  obtain ⟨_, _, hbl, _, _, ⟨nodes, hnodes, knodes⟩, _⟩ := hf
  have hbl' : V1.blockStmtList = V.blockStmtList := hbl
  have hn' : V1.nodeList = nodes := by simpa using hnodes
  have hc : V1.valueTable.getDeclNodes = blockCreatedDecls env BB := by
    have := blockLoop_declNodes env BB.instructions _ V1 () hloop
    simpa [ValueTable.getDeclNodes, ValueTable.clearDeclNodes, blockCreatedDecls] using this
  refine ⟨nodes, ?_, knodes, ?_⟩
  · rw [hV']; simp only; rw [hc, hn', hbl']; rfl
  · rw [hV']; exact hc


theorem markFunctionEscapeLoop_valueTable (dest : ValueId) (ops : List ValueId)
    (V : InstructionVisitor) :
    (visitMarkFunctionEscapeInst.loop dest ops V).visitor.valueTable = V.valueTable := by
  induction ops generalizing V with
  | nil => rfl
  | cons src rest ih =>
    unfold visitMarkFunctionEscapeInst.loop
    split
    · exact ih _
    · rfl

theorem dispatch_get_of_not_writes (env : Env) (inst : SILInst) (V : InstructionVisitor)
    (k : ValueId) (h : writesBinding inst k = false) :
    (dispatch env inst V).visitor.valueTable.get k = V.valueTable.get k := by
  cases inst
  case AssignByWrapperInst a b c d =>
    simp only [dispatch, visitAssignByWrapperInst]
    repeat' split
    all_goals rfl
  case MarkFunctionEscapeInst dest ops =>
    have hl := markFunctionEscapeLoop_valueTable dest ops V
    simp only [dispatch, visitMarkFunctionEscapeInst]
    split <;> next heq => rw [heq] at hl; exact congrArg (fun T => ValueTable.get T k) hl
  case IndexAddrInst R base index t =>
    have hne : k ≠ R := by
      intro hh; subst hh; simp [writesBinding] at h
    simp only [dispatch, visitIndexAddrInst]
    repeat' split
    all_goals first
      | rfl
      | exact ValueTable.get_createAndAddSymbol_other env V.valueTable R k t hne
  case TailAddrInst R base index t =>
    have hne : k ≠ R := by
      intro hh; subst hh; simp [writesBinding] at h
    simp only [dispatch, visitTailAddrInst]
    repeat' split
    all_goals first
      | rfl
      | exact ValueTable.get_createAndAddSymbol_other env V.valueTable R k t hne
  case CopyBlockWithoutEscapingInst self op0 op1 =>
    have hne : k ≠ op1 := by
      intro hh; subst hh; simp [writesBinding] at h
    simp only [dispatch, visitCopyBlockWithoutEscapingInst]
    split <;> exact ValueTable.get_tryRemove_other V.valueTable op1 k hne
  all_goals first
    | rfl
    | (refine ValueTable.get_createAndAddSymbol_other env V.valueTable _ k _ ?_
       intro hh; subst hh; simp [writesBinding] at h)
    | (refine ValueTable.get_tryRemove_other V.valueTable _ k ?_
       intro hh; subst hh; simp [writesBinding] at h)
    | (simp only [dispatch, visitAllocValueBufferInst, visitProjectBoxInst,
        visitProjectValueBufferInst, visitLoadInst, visitStoreInst, visitLoadBorrowInst,
        visitAssignInst, visitMarkUninitializedInst, visitCopyAddrInst,
        visitIndexRawPointerInst, visitBeginAccessInst, visitBeginUnpairedAccessInst,
        visitStoreWeakInst, visitLoadUnownedInst, visitStoreUnownedInst,
        visitMarkDependenceInst, visitIsUniqueInst, visitIsEscapingClosureInst,
        visitCopyBlockInst]
       split <;> rfl)

theorem blockLoop_get_of_not_writes (env : Env) (insts : List SILInstruction)
    (V : InstructionVisitor) (k : ValueId)
    (h : ∀ I ∈ insts, writesBinding I.inst k = false) :
    (visitSILBasicBlock.loop env insts V).visitor.valueTable.get k = V.valueTable.get k := by
  induction insts generalizing V with
  | nil => rfl
  | cons I rest ih =>
    have hI := dispatch_get_of_not_writes env I.inst (beforeVisit I V) k
      (h I (List.mem_cons_self I rest))
    have hrest : ∀ J ∈ rest, writesBinding J.inst k = false :=
      fun J hJ => h J (List.mem_cons_of_mem I hJ)
    have hI' : (visit env I V).visitor.valueTable.get k = V.valueTable.get k := hI
    unfold visitSILBasicBlock.loop
    split
    · next cause V1 heq => rw [heq] at hI'; exact hI'
    · next Node V1 heq =>
      rw [heq] at hI'
      split
      · rw [ih V1 hrest]; exact hI'
      · rw [ih _ hrest]; exact hI'

theorem visitSILBasicBlock_get_of_not_writes (env : Env) (BB : SILBasicBlock)
    (V : InstructionVisitor) (k : ValueId)
    (h : ∀ I ∈ BB.instructions, writesBinding I.inst k = false) :
    (visitSILBasicBlock env BB V).visitor.valueTable.get k = V.valueTable.get k := by
  have hl := blockLoop_get_of_not_writes env BB.instructions
    { V with InstructionCounter := 0,
             valueTable := V.valueTable.clearNodes.clearDeclNodes,
             nodeList := [] } k h
  unfold visitSILBasicBlock
  simp only
  split
  · next cause V1 heq => rw [heq] at hl; exact hl
  · next u V1 heq =>
    rw [heq] at hl
    rw [addDeclNodes_eq]
    exact hl

theorem blocks_get_of_not_writes (env : Env) (blocks : List SILBasicBlock)
    (V : InstructionVisitor) (k : ValueId)
    (h : ∀ BB ∈ blocks, ∀ I ∈ BB.instructions, writesBinding I.inst k = false) :
    (visitSILFunction.blocks env blocks V).visitor.valueTable.get k = V.valueTable.get k := by
  induction blocks generalizing V with
  | nil => rfl
  | cons BB rest ih =>
    have hb := visitSILBasicBlock_get_of_not_writes env BB V k
      (h BB (List.mem_cons_self BB rest))
    have hrest : ∀ B ∈ rest, ∀ I ∈ B.instructions, writesBinding I.inst k = false :=
      fun B hB => h B (List.mem_cons_of_mem BB hB)
    unfold visitSILFunction.blocks
    split
    · next cause V1 heq => rw [heq] at hb; exact hb
    · next u V1 heq =>
      rw [heq] at hb
      rw [ih V1 hrest]
      exact hb

theorem functionWritesBinding_false (F : SILFunction) (k : ValueId)
    (h : functionWritesBinding F k = false) :
    (∀ arg ∈ namedArguments F, arg.value ≠ k) ∧
      ∀ BB ∈ F.blocks, ∀ I ∈ BB.instructions, writesBinding I.inst k = false := by
  simp only [functionWritesBinding, Bool.or_eq_false_iff, List.any_eq_false,
    decide_eq_true_eq, Bool.not_eq_true] at h
  exact ⟨h.1, h.2⟩

theorem visitSILFunction_get_of_not_writes (env : Env) (F : SILFunction)
    (V : InstructionVisitor) (k : ValueId) (h : functionWritesBinding F k = false) :
    (visitSILFunction env F V).visitor.valueTable.get k = V.valueTable.get k := by
  obtain ⟨ha, hb⟩ := functionWritesBinding_false F k h
  rw [visitSILFunction_eq, blocks_get_of_not_writes env F.blocks _ k hb]
  exact bindArguments_get_of_not_mem env (namedArguments F) V.valueTable k ha

theorem moduleLoop_get_of_not_writes (env : Env) (functions : List SILFunction)
    (V : InstructionVisitor) (k : ValueId)
    (h : ∀ F ∈ functions, functionWritesBinding F k = false) :
    (visitSILModule.loop env functions V).visitor.valueTable.get k = V.valueTable.get k := by
  induction functions generalizing V with
  | nil => rfl
  | cons F rest ih =>
    have hrest : ∀ G ∈ rest, functionWritesBinding G k = false :=
      fun G hG => h G (List.mem_cons_of_mem F hG)
    have hF := visitSILFunction_get_of_not_writes env F (functionStart V) k
      (h F (List.mem_cons_self F rest))
    unfold visitSILModule.loop
    simp only
    split
    · exact ih V hrest
    · split
      · exact ih V hrest
      · split
        · next cause V2 heq =>
          have heq' : visitSILFunction env F (functionStart V) = Outcome.fatal cause V2 := heq
          rw [heq'] at hF
          exact hF
        · next u V2 heq =>
          have heq' : visitSILFunction env F (functionStart V) = Outcome.ok u V2 := heq
          rw [heq'] at hF
          rw [ih _ hrest]
          exact hF


theorem markFunctionEscapeLoop_rebase (dest : ValueId) (ops : List ValueId)
    (V W : InstructionVisitor) (hT : V.valueTable = W.valueTable)
    (hN : V.nodeList = W.nodeList) :
    visitMarkFunctionEscapeInst.loop dest ops W =
      Outcome.rebase W (visitMarkFunctionEscapeInst.loop dest ops V) := by
  induction ops generalizing V W with
  | nil =>
    obtain ⟨a1, a2, a3, a4, a5, a6, a7, a8, a9⟩ := V
    obtain ⟨b1, b2, b3, b4, b5, b6, b7, b8, b9⟩ := W
    simp only at hT hN
    subst hT hN
    rfl
  | cons src rest ih =>
    obtain ⟨a1, a2, a3, a4, a5, a6, a7, a8, a9⟩ := V
    obtain ⟨b1, b2, b3, b4, b5, b6, b7, b8, b9⟩ := W
    simp only at hT hN
    subst hT hN
    unfold visitMarkFunctionEscapeInst.loop
    simp only
    split
    · next srcNode destNode h1 h2 =>
      have hrec := ih
        ({ Instance := a1, valueTable := a2, currentEntity := a3, instrInfo := a4,
           InstructionCounter := a5,
           nodeList := a6 ++ [makeNode CAstKind.ASSIGN [srcNode, destNode]],
           blockStmtList := a7, moduleInfo := a8, functionInfo := a9 } : InstructionVisitor)
        ({ Instance := b1, valueTable := a2, currentEntity := b3, instrInfo := b4,
           InstructionCounter := b5,
           nodeList := a6 ++ [makeNode CAstKind.ASSIGN [srcNode, destNode]],
           blockStmtList := b7, moduleInfo := b8, functionInfo := b9 } : InstructionVisitor)
        rfl rfl
      rw [hrec]
      cases visitMarkFunctionEscapeInst.loop dest rest
        ({ Instance := a1, valueTable := a2, currentEntity := a3, instrInfo := a4,
           InstructionCounter := a5,
           nodeList := a6 ++ [makeNode CAstKind.ASSIGN [srcNode, destNode]],
           blockStmtList := a7, moduleInfo := a8, functionInfo := a9 } : InstructionVisitor) <;>
        rfl
    · rfl

theorem dispatch_rebase (env : Env) (inst : SILInst) (V W : InstructionVisitor)
    (hT : V.valueTable = W.valueTable) (hN : V.nodeList = W.nodeList) :
    dispatch env inst W = Outcome.rebase W (dispatch env inst V) := by
  cases inst
  case MarkFunctionEscapeInst dest ops =>
    have hl := markFunctionEscapeLoop_rebase dest ops V W hT hN
    simp only [dispatch, visitMarkFunctionEscapeInst]
    rw [hl]
    cases visitMarkFunctionEscapeInst.loop dest ops V <;> rfl
  all_goals
    obtain ⟨a1, a2, a3, a4, a5, a6, a7, a8, a9⟩ := V
    obtain ⟨b1, b2, b3, b4, b5, b6, b7, b8, b9⟩ := W
    simp only at hT hN
    subst hT hN
  case AssignByWrapperInst a b c d =>
    simp only [dispatch, visitAssignByWrapperInst]
    repeat' split
    all_goals rfl
  case IndexAddrInst R base index t =>
    simp only [dispatch, visitIndexAddrInst]
    repeat' split
    all_goals rfl
  case TailAddrInst R base index t =>
    simp only [dispatch, visitTailAddrInst]
    repeat' split
    all_goals rfl
  case CopyBlockWithoutEscapingInst self op0 op1 =>
    simp only [dispatch, visitCopyBlockWithoutEscapingInst]
    split <;> rfl
  all_goals first
    | rfl
    | (simp only [dispatch, visitAllocValueBufferInst, visitProjectBoxInst,
        visitProjectValueBufferInst, visitLoadInst, visitStoreInst, visitLoadBorrowInst,
        visitAssignInst, visitMarkUninitializedInst, visitCopyAddrInst,
        visitIndexRawPointerInst, visitBeginAccessInst, visitBeginUnpairedAccessInst,
        visitStoreWeakInst, visitLoadUnownedInst, visitStoreUnownedInst,
        visitMarkDependenceInst, visitIsUniqueInst, visitIsEscapingClosureInst,
        visitCopyBlockInst]
       split <;> rfl)

theorem visit_agree (env : Env) (I : SILInstruction) (V W : InstructionVisitor)
    (h : SameBlockState V W) :
    OutcomeAgree (fun V1 W1 => SameBlockState V1 W1 ∧ V1.instrInfo = W1.instrInfo)
      (visit env I V) (visit env I W) := by
  obtain ⟨hT, hN, hC, hE, hB, hR⟩ := h
  have hi : (beforeVisit I V).instrInfo = (beforeVisit I W).instrInfo := by
    simp only [beforeVisit, hC]
  have hc : (beforeVisit I V).InstructionCounter = (beforeVisit I W).InstructionCounter := by
    simp only [beforeVisit, hC]
  have h1 := dispatch_rebase env I.inst (beforeVisit I V) (beforeVisit I W) hT hN
  have h2 := dispatch_rebase env I.inst (beforeVisit I V) (beforeVisit I V) rfl rfl
  unfold visit
  rw [h1]
  cases hd : dispatch env I.inst (beforeVisit I V) with
  | ok n U =>
    rw [hd] at h2
    simp only [Outcome.rebase, Outcome.ok.injEq, true_and] at h2
    refine ⟨rfl, ⟨rfl, rfl, ?_, ?_, ?_, ?_⟩, ?_⟩
    · rw [h2]; exact hc
    · rw [h2]; exact hE
    · rw [h2]; exact hB
    · rw [h2]; exact hR
    · rw [h2]; exact hi
  | fatal c U => rfl

theorem blockLoop_agree (env : Env) (insts : List SILInstruction) (V W : InstructionVisitor)
    (h : SameBlockState V W) :
    OutcomeAgree SameBlockState (visitSILBasicBlock.loop env insts V)
      (visitSILBasicBlock.loop env insts W) := by
  induction insts generalizing V W with
  | nil => exact ⟨rfl, h⟩
  | cons I rest ih =>
    have hv := visit_agree env I V W h
    unfold visitSILBasicBlock.loop
    cases hV : visit env I V with
    | fatal c V1 =>
      cases hW : visit env I W with
      | fatal d W1 => rw [hV, hW] at hv; exact hv
      | ok m W1 => rw [hV, hW] at hv; exact hv.elim
    | ok n V1 =>
      cases hW : visit env I W with
      | fatal d W1 => rw [hV, hW] at hv; exact hv.elim
      | ok m W1 =>
        rw [hV, hW] at hv
        obtain ⟨hnm, ⟨hT, hN, hC, hE, hB, hR⟩, hi⟩ := hv
        subst hnm
        simp only
        split
        · exact ih V1 W1 ⟨hT, hN, hC, hE, hB, hR⟩
        · apply ih
          refine ⟨hT, ?_, hC, hE, hB, ?_⟩
          · simp only; rw [hN]
          · simp only [WALAInstance.addSourceInfo]; rw [hR, hi]

theorem visitSILBasicBlock_agree (env : Env) (BB : SILBasicBlock) (V W : InstructionVisitor)
    (h : SameFunctionState V W) :
    OutcomeAgree SameFunctionState (visitSILBasicBlock env BB V)
      (visitSILBasicBlock env BB W) := by
  obtain ⟨hS, hE, hB, hR⟩ := h
  have h0 : SameBlockState
      { V with InstructionCounter := 0,
               valueTable := V.valueTable.clearNodes.clearDeclNodes,
               nodeList := [] }
      { W with InstructionCounter := 0,
               valueTable := W.valueTable.clearNodes.clearDeclNodes,
               nodeList := [] } := by
    refine ⟨?_, rfl, rfl, hE, hB, hR⟩
    simp only [ValueTable.clearNodes, ValueTable.clearDeclNodes]
    rw [hS]
  have hl := blockLoop_agree env BB.instructions _ _ h0
  unfold visitSILBasicBlock
  simp only
  cases hV : visitSILBasicBlock.loop env BB.instructions
      { V with InstructionCounter := 0,
               valueTable := V.valueTable.clearNodes.clearDeclNodes,
               nodeList := [] } with
  | fatal c V1 =>
    cases hW : visitSILBasicBlock.loop env BB.instructions
        { W with InstructionCounter := 0,
                 valueTable := W.valueTable.clearNodes.clearDeclNodes,
                 nodeList := [] } with
    | fatal d W1 => rw [hV, hW] at hl; exact hl
    | ok m W1 => rw [hV, hW] at hl; exact hl.elim
  | ok n V1 =>
    cases hW : visitSILBasicBlock.loop env BB.instructions
        { W with InstructionCounter := 0,
                 valueTable := W.valueTable.clearNodes.clearDeclNodes,
                 nodeList := [] } with
    | fatal d W1 => rw [hV, hW] at hl; exact hl.elim
    | ok m W1 =>
      rw [hV, hW] at hl
      obtain ⟨_, hT, hN, hC, hE1, hB1, hR1⟩ := hl
      simp only [addDeclNodes_eq]
      refine ⟨rfl, ?_, ?_, ?_, hR1⟩
      · simp only; rw [hT]
      · simp only; rw [hT, hN, hE1]
      · simp only; rw [hT, hN, hB1]

theorem blocks_agree (env : Env) (blocks : List SILBasicBlock) (V W : InstructionVisitor)
    (h : SameFunctionState V W) :
    OutcomeAgree SameFunctionState (visitSILFunction.blocks env blocks V)
      (visitSILFunction.blocks env blocks W) := by
  induction blocks generalizing V W with
  | nil => exact ⟨rfl, h⟩
  | cons BB rest ih =>
    have hb := visitSILBasicBlock_agree env BB V W h
    unfold visitSILFunction.blocks
    cases hV : visitSILBasicBlock env BB V with
    | fatal c V1 =>
      cases hW : visitSILBasicBlock env BB W with
      | fatal d W1 => rw [hV, hW] at hb; exact hb
      | ok m W1 => rw [hV, hW] at hb; exact hb.elim
    | ok n V1 =>
      cases hW : visitSILBasicBlock env BB W with
      | fatal d W1 => rw [hV, hW] at hb; exact hb.elim
      | ok m W1 =>
        rw [hV, hW] at hb
        exact ih V1 W1 hb.2

theorem bindArguments_symbols (env : Env) (args : List SILArgument) (T T' : ValueTable)
    (h : T.symbols = T'.symbols) :
    (bindArguments env T args).symbols = (bindArguments env T' args).symbols := by
  induction args generalizing T T' with
  | nil => exact h
  | cons a rest ih =>
    have h1 : ∀ X : ValueTable, bindArguments env X (a :: rest) =
        bindArguments env (X.createAndAddSymbol env a.value a.type) rest := fun _ => rfl
    rw [h1 T, h1 T']
    apply ih
    simp only [ValueTable.createAndAddSymbol]
    rw [h]

theorem visitSILFunction_agree (env : Env) (F : SILFunction) (V W : InstructionVisitor)
    (h : V.valueTable.symbols = W.valueTable.symbols) :
    OutcomeAgree SameFunctionState (visitSILFunction env F (functionStart V))
      (visitSILFunction env F (functionStart W)) := by
  rw [visitSILFunction_eq, visitSILFunction_eq]
  apply blocks_agree
  refine ⟨bindArguments_symbols env _ _ _ h, rfl, rfl, rfl⟩

theorem moduleLoop_agree (env : Env) (functions : List SILFunction)
    (V W : InstructionVisitor) (h : V.valueTable.symbols = W.valueTable.symbols) :
    (visitSILModule.loop env functions V).isFatal =
        (visitSILModule.loop env functions W).isFatal ∧
      ∃ entities,
        (visitSILModule.loop env functions V).visitor.Instance.castEntities =
          V.Instance.castEntities ++ entities ∧
        (visitSILModule.loop env functions W).visitor.Instance.castEntities =
          W.Instance.castEntities ++ entities := by
  induction functions generalizing V W with
  | nil => exact ⟨rfl, [], by simp [visitSILModule.loop, Outcome.visitor],
      by simp [visitSILModule.loop, Outcome.visitor]⟩
  | cons F rest ih =>
    have hF := visitSILFunction_agree env F V W h
    have hcV := (visitSILFunction_entities_and_name env F (functionStart V)).1
    have hcW := (visitSILFunction_entities_and_name env F (functionStart W)).1
    unfold visitSILModule.loop
    simp only
    split
    · exact ih V W h
    · split
      · exact ih V W h
      · have e1 : ∀ X : InstructionVisitor,
            ({ X with currentEntity := WALACAstEntityInfo.fresh,
                      Instance := X.Instance.createCAstSourcePositionRecorder } :
              InstructionVisitor) = functionStart X := fun _ => rfl
        rw [e1 V, e1 W]
        cases hV : visitSILFunction env F (functionStart V) with
        | fatal c V2 =>
          cases hW : visitSILFunction env F (functionStart W) with
          | fatal d W2 =>
            rw [hV] at hcV
            rw [hW] at hcW
            exact ⟨rfl, [], by simpa [Outcome.visitor] using hcV,
              by simpa [Outcome.visitor] using hcW⟩
          | ok m W2 => rw [hV, hW] at hF; exact hF.elim
        | ok n V2 =>
          cases hW : visitSILFunction env F (functionStart W) with
          | fatal d W2 => rw [hV, hW] at hF; exact hF.elim
          | ok m W2 =>
            rw [hV, hW] at hF
            rw [hV] at hcV
            rw [hW] at hcW
            obtain ⟨_, hS, hE, hB, hR⟩ := hF
            have hcV' : V2.Instance.castEntities = V.Instance.castEntities := hcV
            have hcW' : W2.Instance.castEntities = W.Instance.castEntities := hcW
            simp only
            obtain ⟨hfat, entities, hv, hw⟩ := ih
              { V2 with currentEntity := finalizedEntity V2,
                        Instance := V2.Instance.addCAstEntityInfo (finalizedEntity V2) }
              { W2 with currentEntity := finalizedEntity W2,
                        Instance := W2.Instance.addCAstEntityInfo (finalizedEntity W2) } hS
            have hfin : finalizedEntity W2 = finalizedEntity V2 := by
              simp only [finalizedEntity]
              rw [hE, hR]
            refine ⟨hfat, finalizedEntity V2 :: entities, ?_, ?_⟩
            · refine hv.trans ?_
              simp only [WALAInstance.addCAstEntityInfo]
              rw [hcV']
              simp
            · refine hw.trans ?_
              simp only [WALAInstance.addCAstEntityInfo]
              rw [hcW', hfin]
              simp

theorem positions_snd_isSome (F : SILFunction) (e : WALACAstEntityInfo)
    (h : F.location ≠ none) : ((visitSILFunction.positions F e).2).isSome = true := by
  unfold visitSILFunction.positions
  rcases hl : F.location with _ | ⟨s, t⟩
  · exact absurd hl h
  · rcases s with _ | s <;> rcases t with _ | t <;> rfl

theorem visitSILFunction_argumentPositions (env : Env) (F : SILFunction)
    (V V2 : InstructionVisitor)
    (h : visitSILFunction env F (functionStart V) = Outcome.ok () V2) :
    (finalizedEntity V2).argumentPositions =
      (namedArguments F).map
        (fun _ => (visitSILFunction.positions F WALACAstEntityInfo.fresh).2) := by
  obtain ⟨hfr, _, _⟩ := visitSILFunction_entity env F _ V2 h
  obtain ⟨_, _, _, _, _, hp, _, _, _⟩ := hfr
  rw [show (finalizedEntity V2).argumentPositions = V2.currentEntity.argumentPositions
    from rfl, hp]
  simp [functionEntry, functionStart, WALACAstEntityInfo.fresh]

theorem moduleLoop_assigned_positions (env : Env) (functions : List SILFunction)
    (V : InstructionVisitor)
    (hloc : ∀ F ∈ functions.filter (fun F =>
        decide (env.demangleSymbolAsString F.name ∉ env.builtinFunctions) && !F.empty),
      F.location = none → namedArguments F = []) :
    ∃ entities,
      (visitSILModule.loop env functions V).visitor.Instance.castEntities =
        V.Instance.castEntities ++ entities ∧
      ∀ e ∈ entities, ∀ p ∈ e.argumentPositions, p.isSome = true := by
  induction functions generalizing V with
  | nil => exact ⟨[], by simp [visitSILModule.loop, Outcome.visitor], fun e he => by cases he⟩
  | cons F rest ih =>
    have hloc' : ∀ G ∈ rest.filter (fun F =>
        decide (env.demangleSymbolAsString F.name ∉ env.builtinFunctions) && !F.empty),
        G.location = none → namedArguments G = [] := by
      intro G hG
      apply hloc G
      rw [List.mem_filter] at hG ⊢
      exact ⟨List.mem_cons_of_mem F hG.1, hG.2⟩
    have hc := (visitSILFunction_entities_and_name env F (functionStart V)).1
    unfold visitSILModule.loop
    simp only
    split
    · exact ih V hloc'
    · split
      · exact ih V hloc'
      · next hb he =>
        have hFq : F ∈ (F :: rest).filter (fun F =>
            decide (env.demangleSymbolAsString F.name ∉ env.builtinFunctions) && !F.empty) := by
          rw [List.mem_filter]
          exact ⟨List.mem_cons_self F rest, by simp [hb, he]⟩
        have e1 : ({ V with currentEntity := WALACAstEntityInfo.fresh,
                            Instance := V.Instance.createCAstSourcePositionRecorder } :
              InstructionVisitor) = functionStart V := rfl
        rw [e1]
        cases hV : visitSILFunction env F (functionStart V) with
        | fatal c V2 =>
          rw [hV] at hc
          exact ⟨[], by simpa [Outcome.visitor] using hc, fun e he => by cases he⟩
        | ok n V2 =>
          rw [hV] at hc
          have hc' : V2.Instance.castEntities = V.Instance.castEntities := hc
          have hpos := visitSILFunction_argumentPositions env F V V2 hV
          simp only
          obtain ⟨entities, hv, hall⟩ := ih
            { V2 with currentEntity := finalizedEntity V2,
                      Instance := V2.Instance.addCAstEntityInfo (finalizedEntity V2) } hloc'
          refine ⟨finalizedEntity V2 :: entities, ?_, ?_⟩
          · refine hv.trans ?_
            simp only [WALAInstance.addCAstEntityInfo]
            rw [hc']
            simp
          · intro e he p hp
            rcases List.mem_cons.mp he with h1 | h1
            · rw [h1, hpos] at hp
              obtain ⟨a, ha, hpa⟩ := List.mem_map.mp hp
              rw [← hpa]
              apply positions_snd_isSome
              intro hnone
              rw [hloc F hFq hnone] at ha
              cases ha
            · exact hall e h1 p hp

/-! ## Claims C11 to C20 -/

/-- C11. Every reference-counting rule and every rule of the unimplemented
categories returns the EMPTY node for every instruction and every visitor
state, never aborts, and leaves the value table, the pending-declaration
buffer and the node list of the block as they were. -/
theorem no_op_rules_return_empty_and_change_nothing (env : Env) (I : SILInstruction)
    (V : InstructionVisitor) (h : isNoOpInst I.inst = true) :
    ∃ V', visit env I V = Outcome.ok (makeNode CAstKind.EMPTY []) V' ∧
      V'.valueTable = V.valueTable ∧
      V'.valueTable.getDeclNodes = V.valueTable.getDeclNodes ∧
      V'.nodeList = V.nodeList := by
  refine ⟨beforeVisit I V, ?_, rfl, rfl, rfl⟩
  unfold visit
  exact dispatch_noOp env I.inst _ h

/-- Witness for C11: an apply instruction visited with one binding in the table. -/
theorem no_op_rules_return_empty_and_change_nothing_witness :
    isNoOpInst (exampleInstruction SILInst.ApplyInst).inst = true ∧
      ∃ V', visit exampleEnv (exampleInstruction SILInst.ApplyInst)
          (exampleVisitor [(1, exampleVar "a")]) = Outcome.ok (makeNode CAstKind.EMPTY []) V' ∧
        V'.valueTable = (exampleVisitor [(1, exampleVar "a")]).valueTable ∧
        V'.valueTable.getDeclNodes =
          (exampleVisitor [(1, exampleVar "a")]).valueTable.getDeclNodes ∧
        V'.nodeList = (exampleVisitor [(1, exampleVar "a")]).nodeList :=
  ⟨rfl, no_op_rules_return_empty_and_change_nothing exampleEnv
    (exampleInstruction SILInst.ApplyInst) (exampleVisitor [(1, exampleVar "a")]) rfl⟩

/-- C12, amended. No rule appends to the call-site node list or to the
control-flow node list of the current entity, so both lists of every entity a
completed `visitSILModule` hands over are empty, whatever instructions the
function contains. -/
theorem entity_call_and_control_flow_lists_stay_empty (env : Env) (M : SILModule)
    (V V' : InstructionVisitor) (h : visitSILModule env M V = Outcome.ok () V') :
    (∃ entities, V'.Instance.castEntities = V.Instance.castEntities ++ entities ∧
      entities.length = (qualifyingFunctions env M).length ∧
      ∀ e ∈ entities, e.callNodes = [] ∧ e.cfNodes = []) ∧
    ∀ (I : SILInstruction) (W : InstructionVisitor),
      (visit env I W).visitor.currentEntity.callNodes = W.currentEntity.callNodes ∧
      (visit env I W).visitor.currentEntity.cfNodes = W.currentEntity.cfNodes := by
  constructor
  · obtain ⟨entities, h1, h2⟩ := visitSILModule_forall2 env
      (fun _ e => e.callNodes = [] ∧ e.cfNodes = []) M
      (by
        intro F _ V0 V2 hF
        obtain ⟨hfr, _, _⟩ := visitSILFunction_entity env F _ V2 hF
        obtain ⟨_, hc, hcf, _⟩ := hfr
        exact ⟨hc, hcf⟩) V V' h
    refine ⟨entities, h1, ?_, ?_⟩
    · exact h2.length_eq.symm
    · intro e he
      obtain ⟨F, _, hP⟩ := forall2_right_mem h2 e he
      exact hP
  · intro I W
    obtain ⟨_, hce, _⟩ := frame_visit env I W
    rw [hce]
    exact ⟨rfl, rfl⟩

/-- Witness for C12, amended: a module whose function applies and branches. -/
theorem entity_call_and_control_flow_lists_stay_empty_witness :
    visitSILModule exampleEnv exampleCallModule (exampleVisitor []) =
        Outcome.ok () (visitSILModule exampleEnv exampleCallModule (exampleVisitor [])).visitor ∧
      ((∃ entities,
          (visitSILModule exampleEnv exampleCallModule
            (exampleVisitor [])).visitor.Instance.castEntities =
            (exampleVisitor []).Instance.castEntities ++ entities ∧
          entities.length = (qualifyingFunctions exampleEnv exampleCallModule).length ∧
          ∀ e ∈ entities, e.callNodes = [] ∧ e.cfNodes = []) ∧
        ∀ (I : SILInstruction) (W : InstructionVisitor),
          (visit exampleEnv I W).visitor.currentEntity.callNodes = W.currentEntity.callNodes ∧
          (visit exampleEnv I W).visitor.currentEntity.cfNodes = W.currentEntity.cfNodes) :=
  ⟨rfl, entity_call_and_control_flow_lists_stay_empty exampleEnv exampleCallModule
    (exampleVisitor []) _ rfl⟩

/-- Counterexample to C12 as stated: the function `caller` contains an apply and
a br, and both the call-site list and the control-flow list of its entity are
empty. -/
theorem call_site_nodes_not_collected_counterexample :
    ∃ V', visitSILModule exampleEnv exampleCallModule (exampleVisitor []) = Outcome.ok () V' ∧
      (exampleCallModule.functions.map
        (fun F => F.blocks.map (fun BB => BB.instructions.map (fun I => I.inst)))) =
        [[[SILInst.ApplyInst, SILInst.BranchInst]]] ∧
      V'.Instance.castEntities.map (fun e => e.functionName) = ["caller"] ∧
      V'.Instance.castEntities.map (fun e => e.callNodes) = [[]] ∧
      V'.Instance.castEntities.map (fun e => e.cfNodes) = [[]] :=
  ⟨_, rfl, rfl, rfl, rfl, rfl⟩

/-- C13. The entity of every translated function has exactly one block
statement per basic block of that function, the k-th being a statement
`visitSILBasicBlock` produces for the k-th block (a BLOCK_STMT headed by that
block's label); it holds no statement of another function. -/
theorem entity_blocks_are_the_function_blocks_in_order (env : Env) (M : SILModule)
    (V V' : InstructionVisitor) (h : visitSILModule env M V = Outcome.ok () V') :
    ∃ entities, V'.Instance.castEntities = V.Instance.castEntities ++ entities ∧
      List.Forall₂
        (fun F e => e.basicBlocks.length = F.blocks.length ∧
          List.Forall₂ (IsBlockStmtOf env) F.blocks e.basicBlocks)
        (qualifyingFunctions env M) entities := by
  exact visitSILModule_forall2 env _ M
    (by
      intro F _ V0 V2 hF
      obtain ⟨_, _, stmts, hb, _, hs⟩ := visitSILFunction_entity env F _ V2 hF
      have hb' : (finalizedEntity V2).basicBlocks = stmts := by
        simpa [finalizedEntity, functionStart, WALACAstEntityInfo.fresh] using hb
      rw [hb']
      exact ⟨hs.length_eq.symm, hs⟩) V V' h

/-- Witness for C13: the example module runs to completion. -/
theorem entity_blocks_are_the_function_blocks_in_order_witness :
    visitSILModule exampleEnv exampleModule (exampleVisitor []) =
        Outcome.ok () (visitSILModule exampleEnv exampleModule (exampleVisitor [])).visitor ∧
      ∃ entities,
        (visitSILModule exampleEnv exampleModule (exampleVisitor [])).visitor.Instance.castEntities
          = (exampleVisitor []).Instance.castEntities ++ entities ∧
        List.Forall₂
          (fun F e => e.basicBlocks.length = F.blocks.length ∧
            List.Forall₂ (IsBlockStmtOf exampleEnv) F.blocks e.basicBlocks)
          (qualifyingFunctions exampleEnv exampleModule) entities :=
  ⟨rfl, entity_blocks_are_the_function_blocks_in_order exampleEnv exampleModule
    (exampleVisitor []) _ rfl⟩

/-- C14, the code at the failing input: for a function whose location is null
the function position of the entity is left unassigned, not set to the
sentinel (-1,-1,-1,-1), and the position recorded for its argument has no
value. -/
theorem null_location_leaves_function_position_unassigned :
    ∃ V', visitSILModule exampleEnv exampleInstructionlessModule (exampleVisitor []) =
        Outcome.ok () V' ∧
      exampleInstructionlessModule.functions.map (fun F => F.location) = [none] ∧
      V'.Instance.castEntities.map (fun e => e.functionPosition) = [none] ∧
      V'.Instance.castEntities.map (fun e => e.functionPosition) ≠
        [some (makeLocation (-1) (-1) (-1) (-1))] ∧
      V'.Instance.castEntities.map (fun e => e.argumentPositions) = [[none]] := by
  refine ⟨_, rfl, rfl, rfl, ?_, rfl⟩
  intro hh
  have h2 : [(none : Option Position)] = [some (makeLocation (-1) (-1) (-1) (-1))] := hh
  simp at h2

/-- C15, amended. The name, position and type lists of an entity have one entry
per argument with a named declaration, in argument order; the recorded name is
the address string of the argument's identity, the recorded type its type
string, the recorded position the start position of the function when its
source range is valid and the sentinel when the range is invalid; and before
the first block is visited each such argument (identities being distinct) is
bound to a symbol of its declared type. -/
theorem entity_parameters_named_by_address (env : Env) (M : SILModule)
    (V V' : InstructionVisitor) (h : visitSILModule env M V = Outcome.ok () V') :
    (∃ entities, V'.Instance.castEntities = V.Instance.castEntities ++ entities ∧
      List.Forall₂
        (fun F e =>
          e.argumentNames = (namedArguments F).map (fun arg => env.addressToString arg.value) ∧
          e.argumentTypes = (namedArguments F).map (fun arg => arg.type) ∧
          e.argumentPositions = (namedArguments F).map
            (fun _ => (visitSILFunction.positions F WALACAstEntityInfo.fresh).2) ∧
          e.argumentNames.length = (namedArguments F).length ∧
          e.argumentPositions.length = (namedArguments F).length ∧
          e.argumentTypes.length = (namedArguments F).length)
        (qualifyingFunctions env M) entities) ∧
    (∀ (F : SILFunction) (W : InstructionVisitor),
      visitSILFunction env F W = visitSILFunction.blocks env F.blocks (functionEntry env F W) ∧
      (((namedArguments F).map (fun arg => arg.value)).Nodup →
        ∀ arg ∈ namedArguments F,
          (functionEntry env F W).valueTable.get arg.value =
            some (makeSymbol env arg.value arg.type) ∧
          declaredType (makeSymbol env arg.value arg.type) = some arg.type)) ∧
    (∀ (F : SILFunction) (e : WALACAstEntityInfo) (r : SourceRange), F.location = some r →
      (∀ s t, r.Start = some s → r.End = some t →
        (visitSILFunction.positions F e).2 =
          some (makeLocation (static_cast_int s.1) (static_cast_int s.2)
            (static_cast_int s.1) (static_cast_int s.2))) ∧
      ((r.Start = none ∨ r.End = none) →
        (visitSILFunction.positions F e).2 = some (makeLocation (-1) (-1) (-1) (-1)))) := by
  refine ⟨?_, ?_, ?_⟩
  · exact visitSILModule_forall2 env _ M
      (by
        intro F _ V0 V2 hF
        obtain ⟨hfr, _, _⟩ := visitSILFunction_entity env F _ V2 hF
        obtain ⟨_, _, _, _, hn, hp, ht, _, _⟩ := hfr
        have hn' : (finalizedEntity V2).argumentNames =
            (namedArguments F).map (fun arg => env.addressToString arg.value) := by
          rw [show (finalizedEntity V2).argumentNames = V2.currentEntity.argumentNames from rfl,
            hn]
          simp [functionEntry, functionStart, WALACAstEntityInfo.fresh]
        have hp' : (finalizedEntity V2).argumentPositions = (namedArguments F).map
            (fun _ => (visitSILFunction.positions F WALACAstEntityInfo.fresh).2) := by
          rw [show (finalizedEntity V2).argumentPositions = V2.currentEntity.argumentPositions
            from rfl, hp]
          simp [functionEntry, functionStart, WALACAstEntityInfo.fresh]
        have ht' : (finalizedEntity V2).argumentTypes =
            (namedArguments F).map (fun arg => arg.type) := by
          rw [show (finalizedEntity V2).argumentTypes = V2.currentEntity.argumentTypes from rfl,
            ht]
          simp [functionEntry, functionStart, WALACAstEntityInfo.fresh]
        refine ⟨hn', ht', hp', ?_, ?_, ?_⟩
        · rw [hn', List.length_map]
        · rw [hp', List.length_map]
        · rw [ht', List.length_map]) V V' h
  · intro F W
    refine ⟨visitSILFunction_eq env F W, ?_⟩
    intro hnd arg harg
    exact ⟨bindArguments_get_of_mem env (namedArguments F) W.valueTable hnd arg harg, rfl⟩
  · intro F e r hr
    constructor
    · intro s t hs ht
      unfold visitSILFunction.positions
      simp only [hr, hs, ht]
    · intro hbad
      unfold visitSILFunction.positions
      simp only [hr]
      rcases hbad with hb | hb
      · rw [hb]
      · rw [hb]
        cases r.Start <;> rfl

/-- Witness for C15, amended: a function with one named and one undeclared
argument. -/
theorem entity_parameters_named_by_address_witness :
    visitSILModule exampleEnv (exampleParamModuleAt 5) (exampleVisitor []) =
        Outcome.ok ()
          (visitSILModule exampleEnv (exampleParamModuleAt 5) (exampleVisitor [])).visitor ∧
      ∃ entities,
        (visitSILModule exampleEnv (exampleParamModuleAt 5)
            (exampleVisitor [])).visitor.Instance.castEntities =
          (exampleVisitor []).Instance.castEntities ++ entities ∧
        List.Forall₂
          (fun F e =>
            e.argumentNames =
              (namedArguments F).map (fun arg => exampleEnv.addressToString arg.value) ∧
            e.argumentTypes = (namedArguments F).map (fun arg => arg.type) ∧
            e.argumentPositions = (namedArguments F).map
              (fun _ => (visitSILFunction.positions F WALACAstEntityInfo.fresh).2) ∧
            e.argumentNames.length = (namedArguments F).length ∧
            e.argumentPositions.length = (namedArguments F).length ∧
            e.argumentTypes.length = (namedArguments F).length)
          (qualifyingFunctions exampleEnv (exampleParamModuleAt 5)) entities :=
  ⟨rfl, (entity_parameters_named_by_address exampleEnv (exampleParamModuleAt 5)
    (exampleVisitor []) _ rfl).1⟩

/-- Counterexample to C15 as stated: the argument declared with the name `x` at
identity 5 is recorded under the address string of 5, not under `x`. -/
theorem parameter_name_is_not_declared_name_counterexample :
    ∃ V', visitSILModule exampleEnv (exampleParamModuleAt 5) (exampleVisitor []) =
        Outcome.ok () V' ∧
      (exampleParamModuleAt 5).functions.map
        (fun F => (namedArguments F).map (fun arg => arg.decl.bind (fun d => d.name))) =
        [[some "x"]] ∧
      V'.Instance.castEntities.map (fun e => e.argumentNames) = [["vvvvv"]] ∧
      V'.Instance.castEntities.map (fun e => e.argumentNames) ≠ [["x"]] := by
  refine ⟨_, rfl, rfl, rfl, ?_⟩
  intro hh
  have h2 : [["vvvvv"]] = [["x"]] := hh
  simp at h2

/-- C16. The return type of the entity is the storage type string of the single
result when the lowered function type has exactly one result, and the marker
"MultiResultType" otherwise, also for a function without results. -/
theorem entity_return_type_single_or_multi (env : Env) (M : SILModule)
    (V V' : InstructionVisitor) (h : visitSILModule env M V = Outcome.ok () V') :
    ∃ entities, V'.Instance.castEntities = V.Instance.castEntities ++ entities ∧
      List.Forall₂
        (fun F e => (∀ r, F.loweredResults = [r] → e.returnType = r) ∧
          (F.loweredResults.length ≠ 1 → e.returnType = "MultiResultType"))
        (qualifyingFunctions env M) entities := by
  exact visitSILModule_forall2 env _ M
    (by
      intro F _ V0 V2 hF
      obtain ⟨hfr, _, _⟩ := visitSILFunction_entity env F _ V2 hF
      obtain ⟨_, _, _, _, _, _, _, hr, _⟩ := hfr
      have hr' : (finalizedEntity V2).returnType = returnTypeOf F := hr
      rw [hr']
      exact returnTypeOf_spec F) V V' h

/-- Witness for C16: the example module runs to completion. -/
theorem entity_return_type_single_or_multi_witness :
    visitSILModule exampleEnv exampleModule (exampleVisitor []) =
        Outcome.ok () (visitSILModule exampleEnv exampleModule (exampleVisitor [])).visitor ∧
      ∃ entities,
        (visitSILModule exampleEnv exampleModule (exampleVisitor [])).visitor.Instance.castEntities
          = (exampleVisitor []).Instance.castEntities ++ entities ∧
        List.Forall₂
          (fun F e => (∀ r, F.loweredResults = [r] → e.returnType = r) ∧
            (F.loweredResults.length ≠ 1 → e.returnType = "MultiResultType"))
          (qualifyingFunctions exampleEnv exampleModule) entities :=
  ⟨rfl, entity_return_type_single_or_multi exampleEnv exampleModule (exampleVisitor []) _ rfl⟩

/-- C17. The function loop, the function translator and the block translator
never reset the bindings: the binding of a key that no named argument and no
instruction of the translated functions writes is, after any run of them, what
it was before; the table is made anew only at the start of `visitSILModule`.
The pending-declaration buffer is emptied at the start of every block, so the
declarations of a block statement are those of the symbols created in that
block. -/
theorem bindings_persist_and_declarations_are_block_local (env : Env)
    (functions : List SILFunction) (V : InstructionVisitor) (k : ValueId)
    (hk : ∀ F ∈ functions, functionWritesBinding F k = false) :
    (visitSILModule.loop env functions V).visitor.valueTable.get k = V.valueTable.get k ∧
    (∀ F ∈ functions, ∀ W : InstructionVisitor,
      (visitSILFunction env F W).visitor.valueTable.get k = W.valueTable.get k ∧
      ∀ BB ∈ F.blocks, ∀ U : InstructionVisitor,
        (visitSILBasicBlock env BB U).visitor.valueTable.get k = U.valueTable.get k) ∧
    (∀ (M : SILModule) (W : InstructionVisitor),
      visitSILModule env M W = visitSILModule.loop env M.functions
        { W with moduleInfo := M.moduleFilename, valueTable := ValueTable.fresh }) ∧
    (∀ (BB : SILBasicBlock) (U U' : InstructionVisitor),
      visitSILBasicBlock env BB U = Outcome.ok () U' →
      ∃ nodes,
        U'.blockStmtList = U.blockStmtList ++
          [makeNode CAstKind.BLOCK_STMT
            (labelNode env BB :: ((blockCreatedDecls env BB).reverse ++ nodes))] ∧
        (∀ n ∈ nodes, getKind n ≠ CAstKind.DECL_STMT) ∧
        U'.valueTable.getDeclNodes = blockCreatedDecls env BB) := by
  refine ⟨moduleLoop_get_of_not_writes env functions V k hk, ?_, fun _ _ => rfl,
    fun BB U U' h => visitSILBasicBlock_stmt env BB U U' h⟩
  intro F hF W
  refine ⟨visitSILFunction_get_of_not_writes env F W k (hk F hF), ?_⟩
  intro BB hBB U
  exact visitSILBasicBlock_get_of_not_writes env BB U k
    ((functionWritesBinding_false F k (hk F hF)).2 BB hBB)

/-- Witness for C17: identity 9 is written by no function of the example module. -/
theorem bindings_persist_and_declarations_are_block_local_witness :
    (∀ F ∈ exampleModule.functions, functionWritesBinding F 9 = false) ∧
      (visitSILModule.loop exampleEnv exampleModule.functions
          (exampleVisitor [(9, exampleVar "z")])).visitor.valueTable.get 9 =
        (exampleVisitor [(9, exampleVar "z")]).valueTable.get 9 :=
  ⟨by decide,
   (bindings_persist_and_declarations_are_block_local exampleEnv exampleModule.functions
     (exampleVisitor [(9, exampleVar "z")]) 9 (by decide)).1⟩

/-- C18, amended. For a module in which every qualifying function without a
source location has no named argument, the entities a run of `visitSILModule` hands
over, and whether the run aborts, depend on the module (with the identities of
its values) and the environment only: two runs on the same module from any two
prior visitor states hand over the same entities in the same order, and every
argument position these entities record is one `visitSILFunction` assigned. -/
theorem module_output_independent_of_prior_state (env : Env) (M : SILModule)
    (V W : InstructionVisitor)
    (hloc : ∀ F ∈ qualifyingFunctions env M, F.location = none → namedArguments F = []) :
    (visitSILModule env M V).isFatal = (visitSILModule env M W).isFatal ∧
      ∃ entities,
        (visitSILModule env M V).visitor.Instance.castEntities =
          V.Instance.castEntities ++ entities ∧
        (visitSILModule env M W).visitor.Instance.castEntities =
          W.Instance.castEntities ++ entities ∧
        ∀ e ∈ entities, ∀ p ∈ e.argumentPositions, p.isSome = true := by
  obtain ⟨hf, entities, hv, hw⟩ := moduleLoop_agree env M.functions
    { V with moduleInfo := M.moduleFilename, valueTable := ValueTable.fresh }
    { W with moduleInfo := M.moduleFilename, valueTable := ValueTable.fresh } rfl
  obtain ⟨entities', hv', hall⟩ := moduleLoop_assigned_positions env M.functions
    { V with moduleInfo := M.moduleFilename, valueTable := ValueTable.fresh } hloc
  have he : entities = entities' := List.append_cancel_left (hv.symm.trans hv')
  subst he
  exact ⟨hf, entities, hv, hw, hall⟩

/-- Witness for C18, amended: the module of a located function with a named
argument, from an empty table and from a table with a binding. -/
theorem module_output_independent_of_prior_state_witness :
    (∀ F ∈ qualifyingFunctions exampleEnv (exampleParamModuleAt 5),
        F.location = none → namedArguments F = []) ∧
      (visitSILModule exampleEnv (exampleParamModuleAt 5) (exampleVisitor [])).isFatal =
        (visitSILModule exampleEnv (exampleParamModuleAt 5)
          (exampleVisitor [(9, exampleVar "z")])).isFatal :=
  ⟨by
    intro F hF hnone
    have hF' : F ∈ (exampleParamModuleAt 5).functions := (List.mem_filter.mp hF).1
    simp only [exampleParamModuleAt, List.mem_singleton] at hF'
    subst hF'
    simp [exampleParamFunctionAt] at hnone,
   (module_output_independent_of_prior_state exampleEnv (exampleParamModuleAt 5)
     (exampleVisitor []) (exampleVisitor [(9, exampleVar "z")])
     (by
       intro F hF hnone
       have hF' : F ∈ (exampleParamModuleAt 5).functions := (List.mem_filter.mp hF).1
       simp only [exampleParamModuleAt, List.mem_singleton] at hF'
       subst hF'
       simp [exampleParamFunctionAt] at hnone)).1⟩

/-- Counterexample to C18 as stated: the same function with its argument at
identity 5 and at identity 6 gives entities with different argument names,
the address strings of 5 and of 6: the output is derived from addresses. -/
theorem output_depends_on_value_addresses_counterexample :
    ∃ V1 V2,
      visitSILModule exampleEnv (exampleParamModuleAt 5) (exampleVisitor []) =
        Outcome.ok () V1 ∧
      visitSILModule exampleEnv (exampleParamModuleAt 6) (exampleVisitor []) =
        Outcome.ok () V2 ∧
      V1.Instance.castEntities.map (fun e => e.argumentNames) = [["vvvvv"]] ∧
      V2.Instance.castEntities.map (fun e => e.argumentNames) = [["vvvvvv"]] ∧
      V1.Instance.castEntities.map (fun e => e.argumentNames) ≠
        V2.Instance.castEntities.map (fun e => e.argumentNames) := by
  refine ⟨_, _, rfl, rfl, rfl, rfl, ?_⟩
  intro hh
  have h2 : [["vvvvv"]] = [["vvvvvv"]] := hh
  simp at h2

/-- C19, amended. A function without basic blocks is skipped: the function loop
continues with the next function from the very same visitor state, so no
entity is handed over for it and no binding is created for its arguments. -/
theorem function_without_blocks_is_skipped (env : Env) (F : SILFunction)
    (rest : List SILFunction) (V : InstructionVisitor) (hF : F.blocks = []) :
    visitSILModule.loop env (F :: rest) V = visitSILModule.loop env rest V ∧
      ∀ M : SILModule, M.functions = F :: rest →
        visitSILModule env M V = visitSILModule env { M with functions := rest } V := by
  have he : F.empty = true := by simp [SILFunction.empty, hF]
  have key : ∀ W, visitSILModule.loop env (F :: rest) W = visitSILModule.loop env rest W := by
    intro W
    rw [visitSILModule.loop]
    simp only [he, if_true]
    split <;> rfl
  refine ⟨key V, ?_⟩
  intro M hM
  unfold visitSILModule
  simp only [hM]
  exact key _

/-- Witness for C19, amended: a function without blocks followed by `f`. -/
theorem function_without_blocks_is_skipped_witness :
    (exampleFunction "g" []).blocks = [] ∧
      (visitSILModule.loop exampleEnv
          (exampleFunction "g" [] :: [exampleFunction "f" [exampleTwoAllocBlock]])
          (exampleVisitor []) =
        visitSILModule.loop exampleEnv [exampleFunction "f" [exampleTwoAllocBlock]]
          (exampleVisitor []) ∧
        ∀ M : SILModule,
          M.functions = exampleFunction "g" [] :: [exampleFunction "f" [exampleTwoAllocBlock]] →
          visitSILModule exampleEnv M (exampleVisitor []) =
            visitSILModule exampleEnv
              { M with functions := [exampleFunction "f" [exampleTwoAllocBlock]] }
              (exampleVisitor [])) :=
  ⟨rfl, function_without_blocks_is_skipped exampleEnv (exampleFunction "g" [])
    [exampleFunction "f" [exampleTwoAllocBlock]] (exampleVisitor []) rfl⟩

/-- Counterexample to C19 as stated: a function whose only block has no
instruction is translated: an entity is handed over for it and its named
argument is bound. -/
theorem instructionless_function_is_translated_counterexample :
    ∃ V', visitSILModule exampleEnv exampleInstructionlessModule (exampleVisitor []) =
        Outcome.ok () V' ∧
      exampleInstructionlessModule.functions.map
        (fun F => F.blocks.map (fun BB => BB.instructions.length)) = [[0]] ∧
      V'.Instance.castEntities.map (fun e => e.functionName) = ["h"] ∧
      V'.valueTable.get 7 = some (makeSymbol exampleEnv 7 "Int") :=
  ⟨_, rfl, rfl, rfl, rfl⟩

theorem markFunctionEscapeLoop_ok (dest : ValueId) (d : CAstNode) (ops : List ValueId)
    (srcs : List CAstNode) (V : InstructionVisitor)
    (hops : ops.map V.valueTable.get = srcs.map some) (hd : V.valueTable.get dest = some d) :
    visitMarkFunctionEscapeInst.loop dest ops V =
      Outcome.ok ()
        { V with nodeList :=
            V.nodeList ++ srcs.map (fun s => makeNode CAstKind.ASSIGN [s, d]) } := by
  induction ops generalizing V srcs with
  | nil =>
    cases srcs with
    | nil => simp [visitMarkFunctionEscapeInst.loop]
    | cons s rest => simp at hops
  | cons o rest ih =>
    cases srcs with
    | nil => simp at hops
    | cons s srest =>
      simp only [List.map_cons, List.cons.injEq] at hops
      obtain ⟨h1, h2⟩ := hops
      unfold visitMarkFunctionEscapeInst.loop
      rw [h1, hd]
      simp only
      have hrec := ih srest
        { V with nodeList := V.nodeList ++ [makeNode CAstKind.ASSIGN [s, d]] } h2 hd
      rw [hrec]
      simp

theorem markFunctionEscapeLoop_nodeList (dest : ValueId) (ops : List ValueId)
    (V V1 : InstructionVisitor) (u : Unit)
    (h : visitMarkFunctionEscapeInst.loop dest ops V = Outcome.ok u V1) :
    V1.nodeList = V.nodeList ++ escapeAssigns V.valueTable dest ops := by
  induction ops generalizing V with
  | nil =>
    simp only [visitMarkFunctionEscapeInst.loop] at h
    injection h with _ h2
    subst h2
    simp [escapeAssigns]
  | cons o rest ih =>
    simp only [visitMarkFunctionEscapeInst.loop] at h
    split at h
    · next srcNode destNode h1 h2 =>
      have hrec := ih _ h
      rw [hrec]
      simp only [escapeAssigns, List.filterMap_cons, h1, h2, List.append_assoc,
        List.singleton_append]
    · exact Outcome.noConfusion h

theorem dispatch_nodeList_of_not_escape (env : Env) (inst : SILInst) (V : InstructionVisitor)
    (h : isMarkFunctionEscape inst = false) :
    (dispatch env inst V).visitor.nodeList = V.nodeList := by
  cases inst
  case MarkFunctionEscapeInst dest ops => exact Bool.noConfusion (show true = false from h)
  case AssignByWrapperInst a b c d =>
    simp only [dispatch, visitAssignByWrapperInst]
    repeat' split
    all_goals rfl
  case IndexAddrInst R base index t =>
    simp only [dispatch, visitIndexAddrInst]
    repeat' split
    all_goals rfl
  case TailAddrInst R base index t =>
    simp only [dispatch, visitTailAddrInst]
    repeat' split
    all_goals rfl
  case CopyBlockWithoutEscapingInst self op0 op1 =>
    simp only [dispatch, visitCopyBlockWithoutEscapingInst]
    split <;> rfl
  all_goals first
    | rfl
    | (simp only [dispatch, visitAllocValueBufferInst, visitProjectBoxInst,
        visitProjectValueBufferInst, visitLoadInst, visitStoreInst, visitLoadBorrowInst,
        visitAssignInst, visitMarkUninitializedInst, visitCopyAddrInst,
        visitIndexRawPointerInst, visitBeginAccessInst, visitBeginUnpairedAccessInst,
        visitStoreWeakInst, visitLoadUnownedInst, visitStoreUnownedInst,
        visitMarkDependenceInst, visitIsUniqueInst, visitIsEscapingClosureInst,
        visitCopyBlockInst]
       split <;> rfl)

theorem visit_nodeList_of_not_escape (env : Env) (I : SILInstruction) (V : InstructionVisitor)
    (h : isMarkFunctionEscape I.inst = false) :
    (visit env I V).visitor.nodeList = V.nodeList :=
  dispatch_nodeList_of_not_escape env I.inst (beforeVisit I V) h

/-- What a returning `visit` does to `nodeList`. -/
theorem visit_nodeList (env : Env) (I : SILInstruction) (V V1 : InstructionVisitor)
    (Node : CAstNode) (h : visit env I V = Outcome.ok Node V1) :
    V1.nodeList = V.nodeList ++ pushedNodes I V := by
  cases hm : isMarkFunctionEscape I.inst
  · have h1 := visit_nodeList_of_not_escape env I V hm
    rw [h] at h1
    have h2 : pushedNodes I V = [] := by
      unfold pushedNodes
      cases hi : I.inst <;> first | rfl | (rw [hi] at hm; exact Bool.noConfusion hm)
    rw [h2]
    simpa using h1
  · obtain ⟨inst, loc, fn, mb, rb⟩ := I
    cases inst <;> first | exact Bool.noConfusion (show false = true from hm) | skip
    case MarkFunctionEscapeInst dest ops =>
      simp only [visit, dispatch, visitMarkFunctionEscapeInst] at h
      split at h
      · exact Outcome.noConfusion h
      · next u V2 heq =>
        injection h with h1 h2
        subst h2
        have hrec := markFunctionEscapeLoop_nodeList dest ops _ _ u heq
        exact hrec

theorem blockLoop_cons (env : Env) (I : SILInstruction) (rest : List SILInstruction)
    (V : InstructionVisitor) :
    visitSILBasicBlock.loop env (I :: rest) V =
      match visit env I V with
      | Outcome.fatal cause V1 => Outcome.fatal cause V1
      | Outcome.ok Node V1 => visitSILBasicBlock.loop env rest (afterNode env Node V1) := by
  rw [visitSILBasicBlock.loop]
  cases visit env I V with
  | fatal c V1 => rfl
  | ok Node V1 =>
    simp only [afterNode, keepsNode]
    by_cases hk : (!env.SWAN_ADD_EMPTY_NODES && getKind Node == CAstKind.EMPTY) = true
    · rw [if_pos hk, if_neg (by rw [hk]; decide)]
    · rw [if_neg hk, if_pos (by rw [Bool.not_eq_true] at hk; rw [hk]; rfl)]

/-- Everything but the value table and the node list is, after a returning
`visit`, as `beforeVisit` left it. -/
theorem visit_ok_eq (env : Env) (I : SILInstruction) (V V1 : InstructionVisitor)
    (Node : CAstNode) (h : visit env I V = Outcome.ok Node V1) :
    V1 = { beforeVisit I V with valueTable := V1.valueTable, nodeList := V1.nodeList } := by
  have h2 := dispatch_rebase env I.inst (beforeVisit I V) (beforeVisit I V) rfl rfl
  unfold visit at h
  rw [h] at h2
  simp only [Outcome.rebase, Outcome.ok.injEq, true_and] at h2
  exact h2

theorem sourcePositionOf_beforeVisit (I : SILInstruction) (V : InstructionVisitor) :
    sourcePositionOf (beforeVisit I V).instrInfo = instructionPosition I := by
  obtain ⟨inst, loc, fn, mb, rb⟩ := I
  rcases loc with _ | ⟨s, e⟩
  · rfl
  · rcases s with _ | s <;> rcases e with _ | e <;> rfl

theorem afterNode_nodeList (env : Env) (Node : CAstNode) (V1 : InstructionVisitor) :
    (afterNode env Node V1).nodeList =
      V1.nodeList ++ (if keepsNode env Node then [Node] else []) := by
  unfold afterNode
  split <;> simp

theorem afterNode_recorder (env : Env) (Node : CAstNode) (V1 : InstructionVisitor) :
    (afterNode env Node V1).Instance.currentCAstSourcePositionRecorder =
      V1.Instance.currentCAstSourcePositionRecorder ++
        (if keepsNode env Node then [(Node, sourcePositionOf V1.instrInfo)] else []) := by
  unfold afterNode
  split <;> simp [WALAInstance.addSourceInfo, sourcePositionOf]

theorem blockLoop_nodeList (env : Env) (insts : List SILInstruction)
    (V V' : InstructionVisitor) (u : Unit)
    (h : visitSILBasicBlock.loop env insts V = Outcome.ok u V') :
    V'.nodeList = V.nodeList ++ emittedNodes env insts V := by
  induction insts generalizing V with
  | nil =>
    simp only [visitSILBasicBlock.loop] at h
    injection h with _ h2
    subst h2
    simp [emittedNodes]
  | cons I rest ih =>
    rw [blockLoop_cons] at h
    unfold emittedNodes
    cases hv : visit env I V with
    | fatal c V1 => rw [hv] at h; exact Outcome.noConfusion h
    | ok Node V1 =>
      rw [hv] at h
      simp only at h ⊢
      rw [ih _ h, afterNode_nodeList, visit_nodeList env I V V1 Node hv]
      simp

theorem blockLoop_recorder (env : Env) (insts : List SILInstruction)
    (V V' : InstructionVisitor) (u : Unit)
    (h : visitSILBasicBlock.loop env insts V = Outcome.ok u V') :
    V'.Instance.currentCAstSourcePositionRecorder =
      V.Instance.currentCAstSourcePositionRecorder ++ recordedEntries env insts V := by
  induction insts generalizing V with
  | nil =>
    simp only [visitSILBasicBlock.loop] at h
    injection h with _ h2
    subst h2
    simp [recordedEntries, visitedNodes]
  | cons I rest ih =>
    rw [blockLoop_cons] at h
    cases hv : visit env I V with
    | fatal c V1 => rw [hv] at h; exact Outcome.noConfusion h
    | ok Node V1 =>
      rw [hv] at h
      simp only at h
      have he := visit_ok_eq env I V V1 Node hv
      have hi : V1.instrInfo = (beforeVisit I V).instrInfo := by rw [he]
      have hr : V1.Instance = V.Instance := by rw [he]; rfl
      rw [ih _ h, afterNode_recorder, hi, sourcePositionOf_beforeVisit, hr]
      simp only [recordedEntries, visitedNodes, hv]
      cases hk : keepsNode env Node <;> simp [hk]

/-- The block statement of a returning `visitSILBasicBlock` in closed form. -/
theorem visitSILBasicBlock_children (env : Env) (BB : SILBasicBlock)
    (V V' : InstructionVisitor) (h : visitSILBasicBlock env BB V = Outcome.ok () V') :
    visitSILBasicBlock.loop env BB.instructions (blockEntry V) =
        Outcome.ok () (visitSILBasicBlock.loop env BB.instructions (blockEntry V)).visitor ∧
      V'.blockStmtList = V.blockStmtList ++
        [makeNode CAstKind.BLOCK_STMT
          (labelNode env BB :: ((blockCreatedDecls env BB).reverse ++
            emittedNodes env BB.instructions (blockEntry V)))] ∧
      V'.Instance.currentCAstSourcePositionRecorder =
        V.Instance.currentCAstSourcePositionRecorder ++
          recordedEntries env BB.instructions (blockEntry V) ∧
      V'.currentEntity.declNodes = V.currentEntity.declNodes ++ blockCreatedDecls env BB := by
  obtain ⟨V1, hloop, hV'⟩ := visitSILBasicBlock_ok env BB V V' h
  have hloop' : visitSILBasicBlock.loop env BB.instructions (blockEntry V) =
      Outcome.ok () V1 := hloop
  have hf := frame_blockLoop env BB.instructions (blockEntry V)
  rw [hloop'] at hf
  obtain ⟨_, hce, hbl, _, _, _, _⟩ := hf
  have hbl' : V1.blockStmtList = V.blockStmtList := hbl
  have hce' : V1.currentEntity = V.currentEntity := hce
  have hn : V1.nodeList = emittedNodes env BB.instructions (blockEntry V) := by
    have := blockLoop_nodeList env BB.instructions _ V1 () hloop'
    simpa [blockEntry] using this
  have hr := blockLoop_recorder env BB.instructions _ V1 () hloop'
  have hc : V1.valueTable.getDeclNodes = blockCreatedDecls env BB := by
    have := blockLoop_declNodes env BB.instructions _ V1 () hloop'
    simpa [blockEntry, ValueTable.getDeclNodes, ValueTable.clearDeclNodes,
      blockCreatedDecls] using this
  refine ⟨by rw [hloop']; rfl, ?_, ?_, ?_⟩
  · rw [hV']; simp only; rw [hc, hn, hbl']; rfl
  · rw [hV']; exact hr
  · rw [hV']; simp only; rw [hc, hce']

/-! abort -/

theorem bindArguments_declNodes (env : Env) (args : List SILArgument) (T : ValueTable) :
    (bindArguments env T args).declNodes =
      T.declNodes ++ args.map (fun a => makeDecl (makeSymbol env a.value a.type)) := by
  induction args generalizing T with
  | nil => simp [bindArguments]
  | cons a rest ih =>
    have h1 : (bindArguments env T (a :: rest)) =
        bindArguments env (T.createAndAddSymbol env a.value a.type) rest := rfl
    rw [h1, ih]
    simp [ValueTable.createAndAddSymbol]

theorem bindArguments_get_isSome (env : Env) (args : List SILArgument) (T : ValueTable)
    (k : ValueId) (h : (T.get k).isSome = true ∨ ∃ a ∈ args, a.value = k) :
    ((bindArguments env T args).get k).isSome = true := by
  induction args generalizing T with
  | nil =>
    rcases h with h | ⟨a, ha, _⟩
    · exact h
    · cases ha
  | cons b rest ih =>
    have h1 : (bindArguments env T (b :: rest)) =
        bindArguments env (T.createAndAddSymbol env b.value b.type) rest := rfl
    rw [h1]
    apply ih
    by_cases hb : b.value = k
    · left
      rw [← hb, ValueTable.get_createAndAddSymbol_self]
      rfl
    · rcases h with h | ⟨a, ha, hak⟩
      · left
        rw [ValueTable.get_createAndAddSymbol_other env T b.value k b.type (fun hh => hb hh.symm)]
        exact h
      · rcases List.mem_cons.mp ha with hab | hmem
        · subst hab; exact absurd hak hb
        · exact Or.inr ⟨a, hmem, hak⟩

theorem blocks_declNodes (env : Env) (blocks : List SILBasicBlock)
    (V V' : InstructionVisitor) (u : Unit)
    (h : visitSILFunction.blocks env blocks V = Outcome.ok u V') :
    V'.currentEntity.declNodes =
      V.currentEntity.declNodes ++ (blocks.map (blockCreatedDecls env)).flatten := by
  induction blocks generalizing V with
  | nil =>
    simp only [visitSILFunction.blocks] at h
    injection h with _ h2
    subst h2
    simp
  | cons BB rest ih =>
    simp only [visitSILFunction.blocks] at h
    split at h
    · exact Outcome.noConfusion h
    · next u1 V1 heq =>
      have hb := (visitSILBasicBlock_children env BB V V1 heq).2.2.2
      rw [ih _ h, hb]
      simp

/-! instruction counter -/

theorem afterNode_counter (env : Env) (Node : CAstNode) (V1 : InstructionVisitor) :
    (afterNode env Node V1).InstructionCounter = V1.InstructionCounter := by
  unfold afterNode
  split <;> rfl

theorem blockLoop_counter (env : Env) (insts : List SILInstruction)
    (V V' : InstructionVisitor) (u : Unit) (hV : V.InstructionCounter < 4294967296)
    (h : visitSILBasicBlock.loop env insts V = Outcome.ok u V') :
    V'.InstructionCounter = (V.InstructionCounter + insts.length) % 4294967296 := by
  induction insts generalizing V with
  | nil =>
    simp only [visitSILBasicBlock.loop] at h
    injection h with _ h2
    subst h2
    simp only [List.length_nil, Nat.add_zero]
    exact (Nat.mod_eq_of_lt hV).symm
  | cons I rest ih =>
    rw [blockLoop_cons] at h
    cases hv : visit env I V with
    | fatal c V1 => rw [hv] at h; exact Outcome.noConfusion h
    | ok Node V1 =>
      rw [hv] at h
      simp only at h
      have he := visit_ok_eq env I V V1 Node hv
      have hc : V1.InstructionCounter = (V.InstructionCounter + 1) % 4294967296 := by
        rw [he]; rfl
      have hlt : (afterNode env Node V1).InstructionCounter < 4294967296 := by
        rw [afterNode_counter, hc]
        exact Nat.mod_lt _ (by decide)
      rw [ih _ hlt h, afterNode_counter, hc, List.length_cons]
      omega

theorem blockLoop_append (env : Env) (pre rest : List SILInstruction)
    (V Vi : InstructionVisitor) (u : Unit)
    (h : visitSILBasicBlock.loop env pre V = Outcome.ok u Vi) :
    visitSILBasicBlock.loop env (pre ++ rest) V = visitSILBasicBlock.loop env rest Vi := by
  induction pre generalizing V with
  | nil =>
    simp only [visitSILBasicBlock.loop] at h
    injection h with _ h2
    subst h2
    rfl
  | cons I more ih =>
    rw [blockLoop_cons] at h
    rw [List.cons_append, blockLoop_cons]
    cases hv : visit env I V with
    | fatal c V1 => rw [hv] at h; exact Outcome.noConfusion h
    | ok Node V1 =>
      rw [hv] at h
      exact ih _ h

theorem visitedNodes_kind (env : Env) (insts : List SILInstruction) (V : InstructionVisitor) :
    ∀ p ∈ visitedNodes env insts V,
      getKind p.2 = CAstKind.EMPTY ∨ getKind p.2 = CAstKind.ASSIGN ∨
        getKind p.2 = CAstKind.IF_STMT := by
  induction insts generalizing V with
  | nil => intro p hp; cases hp
  | cons I rest ih =>
    intro p hp
    unfold visitedNodes at hp
    cases hv : visit env I V with
    | fatal c V1 => rw [hv] at hp; cases hp
    | ok Node V1 =>
      rw [hv] at hp
      rcases List.mem_cons.mp hp with h1 | h1
      · rw [h1]
        exact dispatch_value_kind env I.inst (beforeVisit I V) V1 Node hv
      · exact ih _ p h1

/-! ## Lemmas for the claims about real inputs and about the visits of a run -/

theorem blockVisits_mem (env : Env) (insts : List SILInstruction) (V : InstructionVisitor) :
    ∀ p ∈ blockVisits env insts V, p.1 ∈ insts := by
  induction insts generalizing V with
  | nil => intro p hp; cases hp
  | cons I rest ih =>
    intro p hp
    unfold blockVisits at hp
    rcases List.mem_cons.mp hp with h1 | h1
    · rw [h1]; exact List.mem_cons_self I rest
    · cases hv : visit env I V with
      | fatal c V1 => rw [hv] at h1; cases h1
      | ok Node V1 =>
        rw [hv] at h1
        exact List.mem_cons_of_mem I (ih _ p h1)

theorem functionVisits_mem (env : Env) (blocks : List SILBasicBlock)
    (V : InstructionVisitor) :
    ∀ p ∈ functionVisits env blocks V, ∃ BB ∈ blocks, p.1 ∈ BB.instructions := by
  induction blocks generalizing V with
  | nil => intro p hp; cases hp
  | cons BB rest ih =>
    intro p hp
    unfold functionVisits at hp
    rcases List.mem_append.mp hp with h1 | h1
    · exact ⟨BB, List.mem_cons_self BB rest, blockVisits_mem env _ _ p h1⟩
    · cases hb : visitSILBasicBlock env BB V with
      | fatal c V1 => rw [hb] at h1; cases h1
      | ok u V1 =>
        rw [hb] at h1
        obtain ⟨B, hB, hp⟩ := ih _ p h1
        exact ⟨B, List.mem_cons_of_mem BB hB, hp⟩

theorem moduleVisits_loop_mem (env : Env) (functions : List SILFunction)
    (V : InstructionVisitor) :
    ∀ p ∈ moduleVisits.loop env functions V,
      ∃ F ∈ functions, ∃ BB ∈ F.blocks, p.1 ∈ BB.instructions := by
  induction functions generalizing V with
  | nil => intro p hp; cases hp
  | cons F rest ih =>
    intro p hp
    unfold moduleVisits.loop at hp
    have lift : (∃ G ∈ rest, ∃ BB ∈ G.blocks, p.1 ∈ BB.instructions) →
        ∃ G ∈ F :: rest, ∃ BB ∈ G.blocks, p.1 ∈ BB.instructions := by
      rintro ⟨G, hG, r⟩
      exact ⟨G, List.mem_cons_of_mem F hG, r⟩
    split at hp
    · exact lift (ih _ p hp)
    · split at hp
      · exact lift (ih _ p hp)
      · rcases List.mem_append.mp hp with h1 | h1
        · exact ⟨F, List.mem_cons_self F rest, functionVisits_mem env _ _ p h1⟩
        · cases hf : visitSILFunction env F (functionStart V) with
          | fatal c V2 => rw [hf] at h1; cases h1
          | ok u V2 =>
            rw [hf] at h1
            exact lift (ih _ p h1)

theorem afterNode_instrInfo (env : Env) (Node : CAstNode) (V1 : InstructionVisitor) :
    (afterNode env Node V1).instrInfo = V1.instrInfo := by
  unfold afterNode
  split <;> rfl

theorem blockLoop_last_num (env : Env) (insts : List SILInstruction)
    (V V' : InstructionVisitor) (u : Unit) (hV : V.InstructionCounter < 4294967296)
    (hne : insts ≠ [])
    (h : visitSILBasicBlock.loop env insts V = Outcome.ok u V') :
    V'.instrInfo.num = (V.InstructionCounter + (insts.length - 1)) % 4294967296 := by
  induction insts generalizing V with
  | nil => exact absurd rfl hne
  | cons I rest ih =>
    rw [blockLoop_cons] at h
    cases hv : visit env I V with
    | fatal c V1 => rw [hv] at h; exact Outcome.noConfusion h
    | ok Node V1 =>
      rw [hv] at h
      simp only at h
      have he := visit_ok_eq env I V V1 Node hv
      have hc : V1.InstructionCounter = (V.InstructionCounter + 1) % 4294967296 := by
        rw [he]; rfl
      have hn : V1.instrInfo.num = V.InstructionCounter := by
        rw [he]; rfl
      cases rest with
      | nil =>
        simp only [visitSILBasicBlock.loop] at h
        injection h with _ h2
        rw [← h2, afterNode_instrInfo, hn]
        simp only [List.length_singleton, Nat.sub_self, Nat.add_zero]
        exact (Nat.mod_eq_of_lt hV).symm
      | cons J more =>
        have hlt : (afterNode env Node V1).InstructionCounter < 4294967296 := by
          rw [afterNode_counter, hc]
          exact Nat.mod_lt _ (by decide)
        rw [ih _ hlt (by simp) h, afterNode_counter, hc]
        simp only [List.length_cons]
        omega

/-- C22, amended. The rule of load_weak is not a rebind: for every table
state, whatever identities are bound, it returns the EMPTY placeholder, a node
without children, and leaves the visitor as `beforeVisit` left it, like the
reference-counting rules next to it; store_weak, load_unowned and
store_unowned return the two-child ASSIGN over the symbols bound to their
source and destination. -/
theorem load_weak_returns_empty (env : Env) (V : InstructionVisitor)
    (loc : SILLocation) (Filename : String) (mem : MemoryBehavior) (rel : ReleasingBehavior) :
    visit env { inst := SILInst.LoadWeakInst, loc := loc, Filename := Filename,
                memBehavior := mem, relBehavior := rel } V =
        Outcome.ok (makeNode CAstKind.EMPTY [])
          (beforeVisit { inst := SILInst.LoadWeakInst, loc := loc, Filename := Filename,
                         memBehavior := mem, relBehavior := rel } V) ∧
      (beforeVisit { inst := SILInst.LoadWeakInst, loc := loc, Filename := Filename,
                     memBehavior := mem, relBehavior := rel } V).valueTable = V.valueTable ∧
      getChildren (makeNode CAstKind.EMPTY []) = [] ∧
      ∀ (src dest : ValueId) (s d : CAstNode),
        V.valueTable.get src = some s → V.valueTable.get dest = some d →
        dispatch env (SILInst.StoreWeakInst src dest) V =
            Outcome.ok (makeNode CAstKind.ASSIGN [s, d]) V ∧
          dispatch env (SILInst.LoadUnownedInst dest src) V =
            Outcome.ok (makeNode CAstKind.ASSIGN [s, d]) V ∧
          dispatch env (SILInst.StoreUnownedInst src dest) V =
            Outcome.ok (makeNode CAstKind.ASSIGN [s, d]) V := by
  refine ⟨rfl, rfl, rfl, ?_⟩
  intro src dest s d hs hd
  simp [dispatch, visitStoreWeakInst, visitLoadUnownedInst, visitStoreUnownedInst, hs, hd]

/-- Counterexample to C22 as stated: with identities 1 and 2 bound, the visit
of a load_weak returns a node that is not an ASSIGN and has no children, while
a load_unowned of 1 into 2 in the same state returns the ASSIGN. -/
theorem load_weak_is_not_a_rebind_counterexample :
    (visit exampleEnv (exampleInstruction SILInst.LoadWeakInst)
        (exampleVisitor [(1, exampleVar "a"), (2, exampleVar "b")])).value? =
        some (makeNode CAstKind.EMPTY []) ∧
      (visit exampleEnv (exampleInstruction SILInst.LoadWeakInst)
        (exampleVisitor [(1, exampleVar "a"), (2, exampleVar "b")])).value?.map getKind ≠
        some CAstKind.ASSIGN ∧
      (visit exampleEnv (exampleInstruction SILInst.LoadWeakInst)
        (exampleVisitor [(1, exampleVar "a"), (2, exampleVar "b")])).value?.map getChildren =
        some [] ∧
      (visit exampleEnv (exampleInstruction (SILInst.LoadUnownedInst 2 1))
        (exampleVisitor [(1, exampleVar "a"), (2, exampleVar "b")])).value? =
        some (makeNode CAstKind.ASSIGN [exampleVar "a", exampleVar "b"]) :=
  ⟨rfl, by decide, rfl, rfl⟩

/-- C23. When the initializer and the setter of an assign_by_wrapper are bound
to FUNCTION_EXPR symbols `f` and `g`, its first operand to `p` and its second
operand to `d`, the rule returns IF_STMT(c, ASSIGN(d, CALL(f, do, p)),
ASSIGN(d, CALL(g, do, p))) where `c` is the constant `initOrSet` whatever the
operands and the table are, and the table is unchanged. -/
theorem assign_by_wrapper_builds_conditional (env : Env) (I : SILInstruction)
    (V : InstructionVisitor) (operand0 operand1 initializer setter : ValueId)
    (f g p d : CAstNode)
    (hI : I.inst = SILInst.AssignByWrapperInst operand0 operand1 initializer setter)
    (hf : V.valueTable.get initializer = some f) (hfk : getKind f = CAstKind.FUNCTION_EXPR)
    (hg : V.valueTable.get setter = some g) (hgk : getKind g = CAstKind.FUNCTION_EXPR)
    (hp : V.valueTable.get operand0 = some p) (hd : V.valueTable.get operand1 = some d) :
    visit env I V =
        Outcome.ok
          (makeNode CAstKind.IF_STMT
            [makeConstant "initOrSet",
             makeNode CAstKind.ASSIGN [d, makeNode CAstKind.CALL [f, env.DO_NODE, p]],
             makeNode CAstKind.ASSIGN [d, makeNode CAstKind.CALL [g, env.DO_NODE, p]]])
          (beforeVisit I V) ∧
      (visit env I V).visitor.valueTable = V.valueTable := by
  have key : visit env I V =
      Outcome.ok
          (makeNode CAstKind.IF_STMT
            [makeConstant "initOrSet",
             makeNode CAstKind.ASSIGN [d, makeNode CAstKind.CALL [f, env.DO_NODE, p]],
             makeNode CAstKind.ASSIGN [d, makeNode CAstKind.CALL [g, env.DO_NODE, p]]])
          (beforeVisit I V) := by
    simp [visit, dispatch, hI, visitAssignByWrapperInst, beforeVisit_valueTable, hf, hfk, hg,
      hgk, hp, hd]
  exact ⟨key, by rw [key]; rfl⟩

/-- Witness for C23: initializer 3 and setter 4 bound to FUNCTION_EXPR symbols,
parameter 1 and destination 2 bound to variables. -/
theorem assign_by_wrapper_builds_conditional_witness :
    (exampleVisitor [(1, exampleVar "p"), (2, exampleVar "d"),
        (3, makeNode CAstKind.FUNCTION_EXPR [makeConstant "init"]),
        (4, makeNode CAstKind.FUNCTION_EXPR [makeConstant "set"])]).valueTable.get 3 =
        some (makeNode CAstKind.FUNCTION_EXPR [makeConstant "init"]) ∧
      visit exampleEnv (exampleInstruction (SILInst.AssignByWrapperInst 1 2 3 4))
          (exampleVisitor [(1, exampleVar "p"), (2, exampleVar "d"),
            (3, makeNode CAstKind.FUNCTION_EXPR [makeConstant "init"]),
            (4, makeNode CAstKind.FUNCTION_EXPR [makeConstant "set"])]) =
        Outcome.ok
          (makeNode CAstKind.IF_STMT
            [makeConstant "initOrSet",
             makeNode CAstKind.ASSIGN [exampleVar "d",
               makeNode CAstKind.CALL
                 [makeNode CAstKind.FUNCTION_EXPR [makeConstant "init"], makeConstant "do",
                  exampleVar "p"]],
             makeNode CAstKind.ASSIGN [exampleVar "d",
               makeNode CAstKind.CALL
                 [makeNode CAstKind.FUNCTION_EXPR [makeConstant "set"], makeConstant "do",
                  exampleVar "p"]]])
          (beforeVisit (exampleInstruction (SILInst.AssignByWrapperInst 1 2 3 4))
            (exampleVisitor [(1, exampleVar "p"), (2, exampleVar "d"),
              (3, makeNode CAstKind.FUNCTION_EXPR [makeConstant "init"]),
              (4, makeNode CAstKind.FUNCTION_EXPR [makeConstant "set"])])) :=
  ⟨rfl,
   (assign_by_wrapper_builds_conditional exampleEnv
     (exampleInstruction (SILInst.AssignByWrapperInst 1 2 3 4))
     (exampleVisitor [(1, exampleVar "p"), (2, exampleVar "d"),
        (3, makeNode CAstKind.FUNCTION_EXPR [makeConstant "init"]),
        (4, makeNode CAstKind.FUNCTION_EXPR [makeConstant "set"])])
     1 2 3 4 (makeNode CAstKind.FUNCTION_EXPR [makeConstant "init"])
     (makeNode CAstKind.FUNCTION_EXPR [makeConstant "set"]) (exampleVar "p") (exampleVar "d")
     rfl rfl rfl rfl rfl rfl rfl).1⟩

/-- C24. For a mark_function_escape whose operands are bound to the symbols
`srcs`, in operand order, and whose result identity is bound to `d`, the visit
returns the EMPTY placeholder and leaves `nodeList` as it was followed by one
ASSIGN(symbol of the operand, `d`) per operand, in operand order, the table
unchanged; the visit of any other instruction leaves `nodeList` as it was. -/
theorem mark_function_escape_appends_assigns (env : Env) (I : SILInstruction)
    (V : InstructionVisitor) (result0 : ValueId) (allOperands : List ValueId)
    (srcs : List CAstNode) (d : CAstNode)
    (hI : I.inst = SILInst.MarkFunctionEscapeInst result0 allOperands)
    (hops : allOperands.map V.valueTable.get = srcs.map some)
    (hd : V.valueTable.get result0 = some d) :
    visit env I V =
        Outcome.ok (makeNode CAstKind.EMPTY [])
          { beforeVisit I V with
              nodeList := V.nodeList ++ srcs.map (fun s => makeNode CAstKind.ASSIGN [s, d]) } ∧
      (srcs.map (fun s => makeNode CAstKind.ASSIGN [s, d])).length = allOperands.length ∧
      (visit env I V).visitor.valueTable = V.valueTable ∧
      ∀ (J : SILInstruction) (W : InstructionVisitor),
        isMarkFunctionEscape J.inst = false → (visit env J W).visitor.nodeList = W.nodeList := by
  have key : visit env I V =
        Outcome.ok (makeNode CAstKind.EMPTY [])
          { beforeVisit I V with
              nodeList := V.nodeList ++ srcs.map (fun s => makeNode CAstKind.ASSIGN [s, d]) } := by
    have hl := markFunctionEscapeLoop_ok result0 d allOperands srcs (beforeVisit I V) hops hd
    simp only [visit, dispatch, hI, visitMarkFunctionEscapeInst, hl]
    rfl
  refine ⟨key, ?_, by rw [key]; rfl,
    fun J W hJ => visit_nodeList_of_not_escape env J W hJ⟩
  have := congrArg List.length hops
  simpa using this.symm

/-- Witness for C24: a mark_function_escape of the operands 1 and 2 with result
3, after one node already in the list. -/
theorem mark_function_escape_appends_assigns_witness :
    ({ exampleVisitor [(1, exampleVar "a"), (2, exampleVar "b"), (3, exampleVar "r")] with
        nodeList := [makeNode CAstKind.EMPTY []] } : InstructionVisitor).valueTable.get 3 =
        some (exampleVar "r") ∧
      (visit exampleEnv (exampleInstruction (SILInst.MarkFunctionEscapeInst 3 [1, 2]))
          { exampleVisitor [(1, exampleVar "a"), (2, exampleVar "b"), (3, exampleVar "r")] with
            nodeList := [makeNode CAstKind.EMPTY []] }).visitor.nodeList =
        [makeNode CAstKind.EMPTY [],
         makeNode CAstKind.ASSIGN [exampleVar "a", exampleVar "r"],
         makeNode CAstKind.ASSIGN [exampleVar "b", exampleVar "r"]] :=
  ⟨rfl, by
    rw [(mark_function_escape_appends_assigns exampleEnv
      (exampleInstruction (SILInst.MarkFunctionEscapeInst 3 [1, 2]))
      { exampleVisitor [(1, exampleVar "a"), (2, exampleVar "b"), (3, exampleVar "r")] with
        nodeList := [makeNode CAstKind.EMPTY []] }
      3 [1, 2] [exampleVar "a", exampleVar "b"] (exampleVar "r") rfl rfl rfl).1]
    rfl⟩

/-- C25, amended. The entries a successful `visitSILBasicBlock` adds to the
node to source position side table are those of the nodes the dispatcher
returned for the instructions of the block and the loop kept, one per such
node in instruction order, each with the position of its instruction: the
sentinel (-1,-1,-1,-1) when the instruction has no location or a range with
both ends invalid. No entry is added for the label node or for a declaration
node. -/
theorem returned_nodes_have_source_positions (env : Env) (BB : SILBasicBlock)
    (V V' : InstructionVisitor) (h : visitSILBasicBlock env BB V = Outcome.ok () V') :
    V'.Instance.currentCAstSourcePositionRecorder =
        V.Instance.currentCAstSourcePositionRecorder ++
          recordedEntries env BB.instructions (blockEntry V) ∧
      (∀ p ∈ visitedNodes env BB.instructions (blockEntry V), keepsNode env p.2 = true →
        (p.2, instructionPosition p.1) ∈ V'.Instance.currentCAstSourcePositionRecorder) ∧
      (∀ I : SILInstruction, I.loc = none →
        instructionPosition I = makeLocation (-1) (-1) (-1) (-1)) ∧
      (∀ (I : SILInstruction) (srcRange : SourceRange), I.loc = some srcRange →
        srcRange.Start = none → srcRange.End = none →
        instructionPosition I = makeLocation (-1) (-1) (-1) (-1)) ∧
      (∀ entry ∈ recordedEntries env BB.instructions (blockEntry V),
        getKind entry.1 ≠ CAstKind.LABEL_STMT ∧ getKind entry.1 ≠ CAstKind.DECL_STMT) := by
  obtain ⟨_, _, hrec, _⟩ := visitSILBasicBlock_children env BB V V' h
  refine ⟨hrec, ?_, ?_, ?_, ?_⟩
  · intro p hp hk
    rw [hrec]
    apply List.mem_append_right
    simp only [recordedEntries, List.mem_map, List.mem_filter]
    exact ⟨p, ⟨hp, hk⟩, rfl⟩
  · intro I hI
    simp only [instructionPosition, hI]
  · intro I srcRange hI hs he
    simp only [instructionPosition, hI, hs, he]
    rfl
  · intro entry hentry
    simp only [recordedEntries, List.mem_map, List.mem_filter] at hentry
    obtain ⟨p, ⟨hp, _⟩, hpe⟩ := hentry
    rw [← hpe]
    rcases visitedNodes_kind env BB.instructions (blockEntry V) p hp with hk | hk | hk <;>
      simp only [hk] <;>
      exact ⟨fun hh => CAstKind.noConfusion hh, fun hh => CAstKind.noConfusion hh⟩

/-- Witness for C25: the block with two allocations gets two entries, one per
returned EMPTY node, both with the sentinel position. -/
theorem returned_nodes_have_source_positions_witness :
    ∃ V', visitSILBasicBlock exampleEnv exampleTwoAllocBlock (exampleVisitor []) =
        Outcome.ok () V' ∧
      V'.Instance.currentCAstSourcePositionRecorder =
        [(makeNode CAstKind.EMPTY [], makeLocation (-1) (-1) (-1) (-1)),
         (makeNode CAstKind.EMPTY [], makeLocation (-1) (-1) (-1) (-1))] :=
  ⟨_, rfl,
    (returned_nodes_have_source_positions exampleEnv exampleTwoAllocBlock (exampleVisitor [])
      _ rfl).1⟩

/-- Counterexample to C25 as stated: the block statement of the block with two
allocations has the label node and two declaration nodes among its children,
and the side table has no entry for the label node and none for either
declaration node. -/
theorem label_and_declarations_have_no_position_counterexample :
    ∃ V', visitSILBasicBlock exampleEnv exampleTwoAllocBlock (exampleVisitor []) =
        Outcome.ok () V' ∧
      V'.blockStmtList =
        [makeNode CAstKind.BLOCK_STMT
          [labelNode exampleEnv exampleTwoAllocBlock,
           makeDecl (makeSymbol exampleEnv 2 "Bool"),
           makeDecl (makeSymbol exampleEnv 1 "Int"),
           makeNode CAstKind.EMPTY [],
           makeNode CAstKind.EMPTY []]] ∧
      (∀ pos, (labelNode exampleEnv exampleTwoAllocBlock, pos) ∉
        V'.Instance.currentCAstSourcePositionRecorder) ∧
      (∀ pos, (makeDecl (makeSymbol exampleEnv 2 "Bool"), pos) ∉
        V'.Instance.currentCAstSourcePositionRecorder) ∧
      (∀ pos, (makeDecl (makeSymbol exampleEnv 1 "Int"), pos) ∉
        V'.Instance.currentCAstSourcePositionRecorder) := by
  have hrec : (visitSILBasicBlock exampleEnv exampleTwoAllocBlock
      (exampleVisitor [])).visitor.Instance.currentCAstSourcePositionRecorder =
        [(makeNode CAstKind.EMPTY [], makeLocation (-1) (-1) (-1) (-1)),
         (makeNode CAstKind.EMPTY [], makeLocation (-1) (-1) (-1) (-1))] := rfl
  refine ⟨_, rfl, rfl, ?_, ?_, ?_⟩ <;> intro pos hh
  · have h2 : (labelNode exampleEnv exampleTwoAllocBlock, pos) ∈
        [(makeNode CAstKind.EMPTY [], makeLocation (-1) (-1) (-1) (-1)),
         (makeNode CAstKind.EMPTY [], makeLocation (-1) (-1) (-1) (-1))] := hh
    simp [labelNode, makeNode] at h2
  · have h2 : (makeDecl (makeSymbol exampleEnv 2 "Bool"), pos) ∈
        [(makeNode CAstKind.EMPTY [], makeLocation (-1) (-1) (-1) (-1)),
         (makeNode CAstKind.EMPTY [], makeLocation (-1) (-1) (-1) (-1))] := hh
    simp [makeDecl, makeNode] at h2
  · have h2 : (makeDecl (makeSymbol exampleEnv 1 "Int"), pos) ∈
        [(makeNode CAstKind.EMPTY [], makeLocation (-1) (-1) (-1) (-1)),
         (makeNode CAstKind.EMPTY [], makeLocation (-1) (-1) (-1) (-1))] := hh
    simp [makeDecl, makeNode] at h2

/-- C27. A rebind rule whose destination is the result of the instruction
itself looks the result up and never binds it: when the result identity is
unbound the visit aborts on the unbound lookup, also when the operand is bound;
when the visit returns, the table (bindings and pending declarations) is as
before and both identities were bound; in either case the table is as
before. -/
theorem result_rebind_needs_bound_result (env : Env) (I : SILInstruction)
    (V : InstructionVisitor) (self operand : ValueId)
    (hI : I.inst ∈ resultRebindInsts self operand) :
    (V.valueTable.get self = none →
        visit env I V = Outcome.fatal Fatal.unboundIdentity (beforeVisit I V)) ∧
      (∀ n V', visit env I V = Outcome.ok n V' →
        V'.valueTable = V.valueTable ∧ (V.valueTable.get self).isSome = true ∧
          (V.valueTable.get operand).isSome = true) ∧
      (visit env I V).visitor.valueTable = V.valueTable := by
  have key : visit env I V = visitLoadInst self operand (beforeVisit I V) := by
    simp only [resultRebindInsts, List.mem_cons, List.mem_singleton, List.not_mem_nil,
      or_false] at hI
    rcases hI with h | h | h | h | h | h | h | h | h | h | h | h | h <;>
      simp only [visit, dispatch, h] <;> rfl
  rw [key]
  unfold visitLoadInst
  simp only [beforeVisit_valueTable]
  cases hs : V.valueTable.get operand <;> cases hd : V.valueTable.get self <;>
    simp [Outcome.visitor, beforeVisit_valueTable]

/-- Witness for C27: a load of the bound identity 1 into its unbound result 2
aborts. -/
theorem result_rebind_needs_bound_result_witness :
    (exampleInstruction (SILInst.LoadInst 2 1)).inst ∈ resultRebindInsts 2 1 ∧
      (exampleVisitor [(1, exampleVar "a")]).valueTable.get 1 = some (exampleVar "a") ∧
      (exampleVisitor [(1, exampleVar "a")]).valueTable.get 2 = none ∧
      visit exampleEnv (exampleInstruction (SILInst.LoadInst 2 1))
          (exampleVisitor [(1, exampleVar "a")]) =
        Outcome.fatal Fatal.unboundIdentity
          (beforeVisit (exampleInstruction (SILInst.LoadInst 2 1))
            (exampleVisitor [(1, exampleVar "a")])) :=
  ⟨by simp [resultRebindInsts, exampleInstruction], rfl, rfl,
   (result_rebind_needs_bound_result exampleEnv (exampleInstruction (SILInst.LoadInst 2 1))
     (exampleVisitor [(1, exampleVar "a")]) 2 1
     (by simp [resultRebindInsts, exampleInstruction])).1 rfl⟩

/-- C28. For every function `visitSILFunction` translates with a new entity
record: the symbols of the named arguments are created, and their declarations
registered as pending, before the first block; the pending declarations are
dropped at the start of a block while the argument bindings stay resolvable;
a binding no instruction of the function writes is still resolvable when the
function is done; the declaration nodes of the entity are those created by the
instructions of the blocks, block after block, and the declaration children of every block
statement are those created by the instructions of its block. So the
declaration of a parameter symbol is in neither, unless an instruction of the
function creates a symbol for the same identity and type. -/
theorem parameter_declarations_are_dropped (env : Env) (F : SILFunction)
    (V V' : InstructionVisitor)
    (h : visitSILFunction env F (functionStart V) = Outcome.ok () V') :
    (functionEntry env F (functionStart V)).valueTable.getDeclNodes =
        V.valueTable.getDeclNodes ++
          (namedArguments F).map (fun a => makeDecl (makeSymbol env a.value a.type)) ∧
      (blockEntry (functionEntry env F (functionStart V))).valueTable.getDeclNodes = [] ∧
      (∀ a ∈ namedArguments F,
        ((blockEntry (functionEntry env F (functionStart V))).valueTable.get a.value).isSome =
          true) ∧
      (∀ a ∈ namedArguments F,
        (∀ BB ∈ F.blocks, ∀ I ∈ BB.instructions, writesBinding I.inst a.value = false) →
        (V'.valueTable.get a.value).isSome = true) ∧
      V'.currentEntity.declNodes = (F.blocks.map (blockCreatedDecls env)).flatten ∧
      (∃ stmts, V'.blockStmtList = stmts ∧
        List.Forall₂
          (fun BB stmt => ∃ nodes,
            stmt = makeNode CAstKind.BLOCK_STMT
              (labelNode env BB :: ((blockCreatedDecls env BB).reverse ++ nodes)) ∧
            ∀ n ∈ nodes, getKind n ≠ CAstKind.DECL_STMT)
          F.blocks stmts) ∧
      (Function.Injective env.addressToString →
        ∀ a ∈ namedArguments F,
          (∀ BB ∈ F.blocks, (a.value, a.type) ∉ blockCreatedSymbols BB) →
          makeDecl (makeSymbol env a.value a.type) ∉ V'.currentEntity.declNodes ∧
            ∀ BB ∈ F.blocks,
              makeDecl (makeSymbol env a.value a.type) ∉ blockCreatedDecls env BB) := by
  have hdecl : V'.currentEntity.declNodes = (F.blocks.map (blockCreatedDecls env)).flatten := by
    have h1 := h
    rw [visitSILFunction_eq] at h1
    have h2 := blocks_declNodes env F.blocks _ V' () h1
    rw [h2]
    simp [functionEntry, functionStart, WALACAstEntityInfo.fresh]
  have hnot : Function.Injective env.addressToString →
      ∀ a ∈ namedArguments F, ∀ BB : SILBasicBlock,
        (a.value, a.type) ∉ blockCreatedSymbols BB →
        makeDecl (makeSymbol env a.value a.type) ∉ blockCreatedDecls env BB := by
    intro hinj a _ BB hBB hmem
    rw [blockCreatedDecls_eq_map] at hmem
    obtain ⟨p, hp, hpe⟩ := List.mem_map.mp hmem
    have := makeDecl_makeSymbol_injective env hinj
      (show (fun p : ValueId × String => makeDecl (makeSymbol env p.1 p.2)) p =
        (fun p : ValueId × String => makeDecl (makeSymbol env p.1 p.2)) (a.value, a.type)
        from hpe)
    rw [this] at hp
    exact hBB hp
  have hres : ∀ a ∈ namedArguments F,
      ((functionEntry env F (functionStart V)).valueTable.get a.value).isSome = true :=
    fun a ha => bindArguments_get_isSome env (namedArguments F) V.valueTable a.value
      (Or.inr ⟨a, ha, rfl⟩)
  refine ⟨?_, rfl, hres, ?_, hdecl, ?_, ?_⟩
  · simp only [ValueTable.getDeclNodes, functionEntry, functionStart]
    exact bindArguments_declNodes env (namedArguments F) V.valueTable
  · intro a ha hall
    have h1 := h
    rw [visitSILFunction_eq] at h1
    have hg := blocks_get_of_not_writes env F.blocks (functionEntry env F (functionStart V))
      a.value hall
    rw [h1] at hg
    have hg' : V'.valueTable.get a.value =
        (functionEntry env F (functionStart V)).valueTable.get a.value := hg
    rw [hg']
    exact hres a ha
  · obtain ⟨_, _, stmts, _, hl, hs⟩ := visitSILFunction_entity env F _ V' h
    refine ⟨stmts, hl, ?_⟩
    refine List.Forall₂.imp ?_ hs
    intro BB stmt hstmt
    obtain ⟨⟨W, W', hW, hWl⟩, _⟩ := hstmt
    obtain ⟨nodes, hn, hk, _⟩ := visitSILBasicBlock_stmt env BB W W' hW
    rw [hWl] at hn
    have := List.append_cancel_left hn
    simp only [List.cons.injEq, and_true] at this
    exact ⟨nodes, this, hk⟩
  · intro hinj a ha hall
    refine ⟨?_, fun BB hBB => hnot hinj a ha BB (hall BB hBB)⟩
    rw [hdecl]
    intro hmem
    simp only [List.mem_flatten, List.mem_map] at hmem
    obtain ⟨l, ⟨BB, hBB, hl⟩, hin⟩ := hmem
    rw [← hl] at hin
    exact hnot hinj a ha BB (hall BB hBB) hin

/-- Witness for C28: the function with a parameter at identity 5 and an
allocation of identity 1 in its block declares identity 1 only. -/
theorem parameter_declarations_are_dropped_witness :
    ∃ V', visitSILFunction exampleEnv exampleParamAllocFunction
        (functionStart (exampleVisitor [])) = Outcome.ok () V' ∧
      V'.currentEntity.declNodes = [makeDecl (makeSymbol exampleEnv 1 "Int")] ∧
      V'.valueTable.get 5 = some (makeSymbol exampleEnv 5 "Int") :=
  ⟨_, rfl,
    (parameter_declarations_are_dropped exampleEnv exampleParamAllocFunction
      (exampleVisitor []) _ rfl).2.2.2.2.1, rfl⟩

/-- C29. The rule of copy_block_without_escaping removes the binding of its
second operand before it looks its first operand and its result up. When both
are bound and differ from the second operand, it returns ASSIGN(symbol of the
first operand, symbol of the result) and the table is the initial one with the
binding of the second operand removed: that identity is unbound, every other
binding and the pending declarations are as before. When the second operand is
the first operand or the result, the visit aborts. Whenever the visit aborts,
the table it leaves is the one with the binding of the second operand
removed. -/
theorem copy_block_without_escaping_removes_first (env : Env) (I : SILInstruction)
    (V : InstructionVisitor) (self operand0 operand1 : ValueId)
    (hI : I.inst = SILInst.CopyBlockWithoutEscapingInst self operand0 operand1) :
    (∀ s d, V.valueTable.get operand0 = some s → V.valueTable.get self = some d →
        operand1 ≠ operand0 → operand1 ≠ self →
        visit env I V =
          Outcome.ok (makeNode CAstKind.ASSIGN [s, d])
            { beforeVisit I V with valueTable := (V.valueTable.tryRemove operand1).2 }) ∧
      ((V.valueTable.tryRemove operand1).2.get operand1 = none ∧
        (∀ k, k ≠ operand1 →
          (V.valueTable.tryRemove operand1).2.get k = V.valueTable.get k) ∧
        (V.valueTable.tryRemove operand1).2.declNodes = V.valueTable.declNodes) ∧
      (operand1 = operand0 ∨ operand1 = self →
        visit env I V =
          Outcome.fatal Fatal.unboundIdentity
            { beforeVisit I V with valueTable := (V.valueTable.tryRemove operand1).2 }) ∧
      (visit env I V).visitor.valueTable = (V.valueTable.tryRemove operand1).2 ∧
      (∀ c W, visit env I V = Outcome.fatal c W →
        W.valueTable = (V.valueTable.tryRemove operand1).2 ∧
          W.valueTable.get operand1 = none) := by
  have key : visit env I V =
      visitCopyBlockWithoutEscapingInst self operand0 operand1 (beforeVisit I V) := by
    simp only [visit, dispatch, hI]
  have hself := ValueTable.get_tryRemove_self V.valueTable operand1
  have hT : (visit env I V).visitor.valueTable = (V.valueTable.tryRemove operand1).2 := by
    rw [key]
    unfold visitCopyBlockWithoutEscapingInst
    simp only [beforeVisit_valueTable]
    split <;> rfl
  refine ⟨?_, ⟨hself, ?_, ValueTable.tryRemove_declNodes V.valueTable operand1⟩, ?_, hT, ?_⟩
  · intro s d hs hd h0 h1
    rw [key]
    unfold visitCopyBlockWithoutEscapingInst
    simp only [beforeVisit_valueTable]
    rw [ValueTable.get_tryRemove_other V.valueTable operand1 operand0 (fun hh => h0 hh.symm),
      ValueTable.get_tryRemove_other V.valueTable operand1 self (fun hh => h1 hh.symm), hs, hd]
  · intro k hk
    exact ValueTable.get_tryRemove_other V.valueTable operand1 k hk
  · intro hor
    rw [key]
    unfold visitCopyBlockWithoutEscapingInst
    simp only [beforeVisit_valueTable]
    rcases hor with h0 | h1
    · rw [← h0, hself]
    · rw [← h1, hself]
      cases (V.valueTable.tryRemove operand1).2.get operand0 <;> rfl
  · intro c W hW
    rw [hW] at hT
    have hT' : W.valueTable = (V.valueTable.tryRemove operand1).2 := hT
    exact ⟨hT', by rw [hT']; exact hself⟩

/-- Witness for C29: a copy_block_without_escaping of operand 1 into its result
2 that ends the scope of operand 3. -/
theorem copy_block_without_escaping_removes_first_witness :
    (exampleInstruction (SILInst.CopyBlockWithoutEscapingInst 2 1 3)).inst =
        SILInst.CopyBlockWithoutEscapingInst 2 1 3 ∧
      (visit exampleEnv (exampleInstruction (SILInst.CopyBlockWithoutEscapingInst 2 1 3))
          (exampleVisitor [(1, exampleVar "a"), (2, exampleVar "b"),
            (3, exampleVar "c")])).visitor.valueTable.symbols =
        [(1, exampleVar "a"), (2, exampleVar "b")] ∧
      (visit exampleEnv (exampleInstruction (SILInst.CopyBlockWithoutEscapingInst 2 1 3))
          (exampleVisitor [(1, exampleVar "a"), (2, exampleVar "b"),
            (3, exampleVar "c")])).visitor.valueTable =
        ((exampleVisitor [(1, exampleVar "a"), (2, exampleVar "b"),
            (3, exampleVar "c")]).valueTable.tryRemove 3).2 :=
  ⟨rfl, rfl,
   (copy_block_without_escaping_removes_first exampleEnv
     (exampleInstruction (SILInst.CopyBlockWithoutEscapingInst 2 1 3))
     (exampleVisitor [(1, exampleVar "a"), (2, exampleVar "b"), (3, exampleVar "c")])
     2 1 3 rfl).2.2.2.1⟩

/-- C30. The instruction info `beforeVisit` fills: for a non-null location the
source type is FULL, with the end line and column set, whenever the end is
valid, and then the start line and column are set exactly when the start is
valid; the source type is STARTONLY exactly when the start is valid and the end
is not; with both ends invalid, or a null location, no source type and no
coordinate is written. The sequence number is the counter, which
`visitSILBasicBlock` sets to zero at the start of every block, whatever it was
before, and every visit advances by one: a block cut after the instructions
`pre` and the instruction `I` leaves the info of `I` with the number
`pre.length`; the whole block leaves the info of its last instruction, with
the number of instructions less one; and within the run of `visitSILBasicBlock`
on the block, `I` is visited in the visitor the loop reaches after `pre` and
gets the number `pre.length`. This is for a block of at most 2^32
instructions (the counter is a 32 bit unsigned). -/
theorem beforeVisit_classifies_source_and_numbers_instructions (env : Env)
    (BB : SILBasicBlock) (V : InstructionVisitor) (pre post : List SILInstruction)
    (I : SILInstruction) (hBB : BB.instructions = pre ++ I :: post)
    (hlen : BB.instructions.length ≤ 4294967296) :
    (∀ (J : SILInstruction) (W : InstructionVisitor) (srcRange : SourceRange),
        J.loc = some srcRange →
        (∀ e, srcRange.End = some e →
          (beforeVisit J W).instrInfo.srcType = some SILSourceType.FULL ∧
            (beforeVisit J W).instrInfo.endLine = some e.1 ∧
            (beforeVisit J W).instrInfo.endCol = some e.2 ∧
            (srcRange.Start = none →
              (beforeVisit J W).instrInfo.startLine = none ∧
                (beforeVisit J W).instrInfo.startCol = none)) ∧
        (∀ s, srcRange.Start = some s →
          (beforeVisit J W).instrInfo.startLine = some s.1 ∧
            (beforeVisit J W).instrInfo.startCol = some s.2) ∧
        ((beforeVisit J W).instrInfo.srcType = some SILSourceType.STARTONLY ↔
          (srcRange.Start.isSome = true ∧ srcRange.End = none)) ∧
        (srcRange.Start = none → srcRange.End = none →
          (beforeVisit J W).instrInfo.srcType = none ∧
            (beforeVisit J W).instrInfo.startLine = none ∧
            (beforeVisit J W).instrInfo.startCol = none ∧
            (beforeVisit J W).instrInfo.endLine = none ∧
            (beforeVisit J W).instrInfo.endCol = none)) ∧
      (∀ (J : SILInstruction) (W : InstructionVisitor), J.loc = none →
        (beforeVisit J W).instrInfo.srcType = none ∧
          (beforeVisit J W).instrInfo.startLine = none ∧
          (beforeVisit J W).instrInfo.startCol = none ∧
          (beforeVisit J W).instrInfo.endLine = none ∧
          (beforeVisit J W).instrInfo.endCol = none) ∧
      (∀ V', visitSILBasicBlock env { debugID := BB.debugID, instructions := pre ++ [I] } V =
          Outcome.ok () V' →
        V'.instrInfo.num = pre.length) ∧
      (∀ V', visitSILBasicBlock env BB V = Outcome.ok () V' →
        V'.instrInfo.num = BB.instructions.length - 1 ∧
          V'.InstructionCounter = BB.instructions.length % 4294967296) ∧
      (∀ Vi, visitSILBasicBlock.loop env pre (blockEntry V) = Outcome.ok () Vi →
        (visitSILBasicBlock env BB V).isFatal =
            (visitSILBasicBlock.loop env (I :: post) Vi).isFatal ∧
          (visitSILBasicBlock env BB V).visitor.instrInfo =
            (visitSILBasicBlock.loop env (I :: post) Vi).visitor.instrInfo ∧
          (beforeVisit I Vi).instrInfo.num = pre.length ∧
          (visit env I Vi).visitor.instrInfo.num = pre.length) := by
  have hclass : ∀ (J : SILInstruction) (W : InstructionVisitor) (srcRange : SourceRange),
        J.loc = some srcRange →
        (∀ e, srcRange.End = some e →
          (beforeVisit J W).instrInfo.srcType = some SILSourceType.FULL ∧
            (beforeVisit J W).instrInfo.endLine = some e.1 ∧
            (beforeVisit J W).instrInfo.endCol = some e.2 ∧
            (srcRange.Start = none →
              (beforeVisit J W).instrInfo.startLine = none ∧
                (beforeVisit J W).instrInfo.startCol = none)) ∧
        (∀ s, srcRange.Start = some s →
          (beforeVisit J W).instrInfo.startLine = some s.1 ∧
            (beforeVisit J W).instrInfo.startCol = some s.2) ∧
        ((beforeVisit J W).instrInfo.srcType = some SILSourceType.STARTONLY ↔
          (srcRange.Start.isSome = true ∧ srcRange.End = none)) ∧
        (srcRange.Start = none → srcRange.End = none →
          (beforeVisit J W).instrInfo.srcType = none ∧
            (beforeVisit J W).instrInfo.startLine = none ∧
            (beforeVisit J W).instrInfo.startCol = none ∧
            (beforeVisit J W).instrInfo.endLine = none ∧
            (beforeVisit J W).instrInfo.endCol = none) := by
    intro J W srcRange hJ
    obtain ⟨s, e⟩ := srcRange
    rcases s with _ | s <;> rcases e with _ | e <;> simp [beforeVisit, hJ]
  have hnull : ∀ (J : SILInstruction) (W : InstructionVisitor), J.loc = none →
        (beforeVisit J W).instrInfo.srcType = none ∧
          (beforeVisit J W).instrInfo.startLine = none ∧
          (beforeVisit J W).instrInfo.startCol = none ∧
          (beforeVisit J W).instrInfo.endLine = none ∧
          (beforeVisit J W).instrInfo.endCol = none := by
    intro J W hJ
    simp [beforeVisit, hJ]
  have hlt : pre.length < 4294967296 := by
    rw [hBB] at hlen
    simp only [List.length_append, List.length_cons] at hlen
    omega
  have link : ∀ (B : SILBasicBlock) (X : InstructionVisitor),
      (visitSILBasicBlock env B X).isFatal =
          (visitSILBasicBlock.loop env B.instructions (blockEntry X)).isFatal ∧
        (visitSILBasicBlock env B X).visitor.instrInfo =
          (visitSILBasicBlock.loop env B.instructions (blockEntry X)).visitor.instrInfo ∧
        (visitSILBasicBlock env B X).visitor.InstructionCounter =
          (visitSILBasicBlock.loop env B.instructions
            (blockEntry X)).visitor.InstructionCounter := by
    intro B X
    unfold visitSILBasicBlock
    simp only
    have e : ({ X with InstructionCounter := 0,
                       valueTable := X.valueTable.clearNodes.clearDeclNodes,
                       nodeList := [] } : InstructionVisitor) = blockEntry X := rfl
    rw [e]
    cases visitSILBasicBlock.loop env B.instructions (blockEntry X) with
    | fatal c V1 => exact ⟨rfl, rfl, rfl⟩
    | ok u V1 =>
      simp only [addDeclNodes_eq]
      exact ⟨rfl, rfl, rfl⟩
  have last : ∀ (B : SILBasicBlock) (X X' : InstructionVisitor), B.instructions ≠ [] →
      B.instructions.length ≤ 4294967296 → visitSILBasicBlock env B X = Outcome.ok () X' →
      X'.instrInfo.num = B.instructions.length - 1 ∧
        X'.InstructionCounter = B.instructions.length % 4294967296 := by
    intro B X X' hne hle hrun
    obtain ⟨l1, l2, l3⟩ := link B X
    rw [hrun] at l1 l2 l3
    have h0 : (blockEntry X).InstructionCounter < 4294967296 := by
      show 0 < 4294967296
      decide
    have hz : (blockEntry X).InstructionCounter = 0 := rfl
    cases hl : visitSILBasicBlock.loop env B.instructions (blockEntry X) with
    | fatal c V1 =>
      rw [hl] at l1
      exact Bool.noConfusion l1
    | ok u V1 =>
      rw [hl] at l2 l3
      have hn := blockLoop_last_num env B.instructions (blockEntry X) V1 u h0 hne hl
      have hk := blockLoop_counter env B.instructions (blockEntry X) V1 u h0 hl
      rw [hz] at hn hk
      have hpos : 0 < B.instructions.length := List.length_pos.mpr hne
      have l2' : X'.instrInfo = V1.instrInfo := l2
      have l3' : X'.InstructionCounter = V1.InstructionCounter := l3
      refine ⟨?_, ?_⟩
      · rw [l2', hn]
        simp only [Nat.zero_add]
        exact Nat.mod_eq_of_lt (by omega)
      · rw [l3', hk]
        simp only [Nat.zero_add]
  refine ⟨hclass, hnull, ?_, ?_, ?_⟩
  · intro V' h
    have := (last { debugID := BB.debugID, instructions := pre ++ [I] } V V' (by simp)
      (by simp only [List.length_append, List.length_singleton]; omega) h).1
    rw [this]
    simp
  · intro V' h
    exact last BB V V' (by rw [hBB]; simp) hlen h
  · intro Vi hpre
    have hc := blockLoop_counter env pre (blockEntry V) Vi () (by simp [blockEntry]) hpre
    have hnum : (beforeVisit I Vi).instrInfo.num = pre.length := by
      show Vi.InstructionCounter = pre.length
      rw [hc]
      simp only [blockEntry, Nat.zero_add]
      exact Nat.mod_eq_of_lt hlt
    have happ : visitSILBasicBlock.loop env BB.instructions (blockEntry V) =
        visitSILBasicBlock.loop env (I :: post) Vi := by
      rw [hBB]
      exact blockLoop_append env pre (I :: post) (blockEntry V) Vi () hpre
    obtain ⟨l1, l2, _⟩ := link BB V
    refine ⟨by rw [l1, happ], by rw [l2, happ], hnum, ?_⟩
    have h2 := dispatch_rebase env I.inst (beforeVisit I Vi) (beforeVisit I Vi) rfl rfl
    unfold visit
    rw [h2]
    cases dispatch env I.inst (beforeVisit I Vi) <;> exact hnum

/-- Witness for C30: a block of an allocation followed by a load whose range
has only a valid end, translated from a visitor whose counter stands at 7: the
load is left with the number 1 and the counter at 2. -/
theorem beforeVisit_classifies_source_and_numbers_instructions_witness :
    ∃ V', visitSILBasicBlock exampleEnv
        { debugID := 0,
          instructions := [exampleInstruction (SILInst.AllocStackInst 2 "Int"),
                           exampleEndOnlyInstruction] }
        { exampleVisitor [(1, exampleVar "a")] with InstructionCounter := 7 } =
          Outcome.ok () V' ∧
      V'.instrInfo.num = 1 ∧
      V'.InstructionCounter = 2 ∧
      V'.instrInfo.srcType = some SILSourceType.FULL ∧
      V'.instrInfo.startLine = none ∧
      V'.instrInfo.endLine = some 7 :=
  ⟨_, rfl,
    ((beforeVisit_classifies_source_and_numbers_instructions exampleEnv
      { debugID := 0,
        instructions := [exampleInstruction (SILInst.AllocStackInst 2 "Int"),
                         exampleEndOnlyInstruction] }
      { exampleVisitor [(1, exampleVar "a")] with InstructionCounter := 7 }
      [exampleInstruction (SILInst.AllocStackInst 2 "Int")] [] exampleEndOnlyInstruction
      rfl (by decide)).2.2.2.1 _ rfl).1, rfl, rfl, rfl, rfl⟩

end swan
